import Mathlib

/-!
# nGraph: native kernel dispatch and layout negotiation

A shallow embedding of `src/contrib/mlir/runtime/cpu/cpu_callbacks.cpp`
(the MLIR CPU callbacks of nGraph) together with theorems about it.

The MKL-DNN types (`mkldnn_memory_desc_t`, `mkldnn_dims_t`, ...) belong to an
external library; they are modelled here with the fields the callbacks read.
-/

namespace ngraph

/-! ## Memory descriptors -/

/-- An `mkldnn_dims_t`: a fixed array of `MKLDNN_MAX_NDIMS = 12` 64-bit
integers. It is modelled as a list; an entry that is not listed reads as `0`
(MKL-DNN zero-initialises descriptors). -/
abbrev mkldnn_dims_t := List Int

/-- Array read `arr[i]`. -/
def dims_at (arr : mkldnn_dims_t) (i : Nat) : Int := arr.getD i 0

/-- The format kinds of `mkldnn_format_kind_t`. -/
inductive mkldnn_format_kind_t where
  | undef
  | any
  | blocked
  | wino
  | rnn_packed
deriving DecidableEq, Repr

/-- The generic blocking description `mkldnn_blocking_desc_t`. -/
structure mkldnn_blocking_desc_t where
  strides : mkldnn_dims_t
  inner_nblks : Nat
  inner_blks : mkldnn_dims_t
  inner_idxs : mkldnn_dims_t
deriving DecidableEq, Repr

/-- The memory descriptor `mkldnn_memory_desc_t` (the `data` member of
`mkldnn::memory::desc`): number of dimensions, extents, format kind and the
blocking description of `format_desc`. -/
structure mkldnn_memory_desc_t where
  ndims : Nat
  dims : mkldnn_dims_t
  format_kind : mkldnn_format_kind_t
  blocking : mkldnn_blocking_desc_t
deriving DecidableEq, Repr

/-- The loop of `compare_mkldnn_dims`, started at index `i` with `todo`
iterations left (`todo = size - i`). -/
def compare_mkldnn_dims_loop (arr1 arr2 : mkldnn_dims_t) (i : Nat) : Nat → Bool
  | 0 => true
  | todo + 1 =>
    if dims_at arr1 i != dims_at arr2 i then false
    else compare_mkldnn_dims_loop arr1 arr2 (i + 1) todo

/-- Source `compare_mkldnn_dims`: the first `size` entries agree. -/
def compare_mkldnn_dims (arr1 arr2 : mkldnn_dims_t) (size : Nat) : Bool :=
  compare_mkldnn_dims_loop arr1 arr2 0 size

/-- Insert `x` into a list ordered by `lt`, after every element that is not
greater than it. -/
def ordered_insert (lt : Nat → Nat → Bool) (x : Nat) : List Nat → List Nat
  | [] => [x]
  | y :: ys => if lt x y then x :: y :: ys else y :: ordered_insert lt x ys

/-- Sort a list of indices by the strict order `lt` (insertion sort). -/
def sort_by (lt : Nat → Nat → Bool) : List Nat → List Nat
  | [] => []
  | x :: xs => ordered_insert lt x (sort_by lt xs)

/-- The call `std::sort(v.begin() + first, v.begin() + last, comp)`: the
elements of positions `first ≤ p < last` are put in order, all other
positions are left alone. -/
def std_sort (v : List Nat) (first last : Nat) (comp : Nat → Nat → Bool) : List Nat :=
  v.take first ++ sort_by comp ((v.take last).drop first) ++ v.drop last

/-- The loop `for (i = 0; i < size; i++) indices[i] = i`, started at `i` with
`todo` iterations left. -/
def fill_indices_loop (indices : List Nat) (i : Nat) : Nat → List Nat
  | 0 => indices
  | todo + 1 => fill_indices_loop (indices.set i i) (i + 1) todo

/-- The final loop of `compare_mkldnn_strides_order` over the two index
vectors, started at `i` with `todo` iterations left. -/
def compare_indices_loop (indices1 indices2 : List Nat) (i : Nat) : Nat → Bool
  | 0 => true
  | todo + 1 =>
    if indices1.getD i 0 != indices2.getD i 0 then false
    else compare_indices_loop indices1 indices2 (i + 1) todo

/-- Source `compare_mkldnn_strides_order`. Both calls of `std::sort` are given
the range `[begin(), begin())`, as in the source. -/
def compare_mkldnn_strides_order (strides1 strides2 : mkldnn_dims_t) (size : Nat) : Bool :=
  let indices1 := fill_indices_loop (List.replicate size 0) 0 size
  let indices2 := fill_indices_loop (List.replicate size 0) 0 size
  let indices1 := std_sort indices1 0 0
    (fun n1 n2 => decide (dims_at strides1 n1 < dims_at strides1 n2))
  let indices2 := std_sort indices2 0 0
    (fun n1 n2 => decide (dims_at strides2 n1 < dims_at strides2 n2))
  compare_indices_loop indices1 indices2 0 size

/-- Source `compare_mkldnn_md_formats`. -/
def compare_mkldnn_md_formats (lhs rhs : mkldnn_memory_desc_t) : Bool :=
  let md1 := lhs
  let md2 := rhs
  if md1.format_kind != md2.format_kind then false
  else if md1.format_kind != mkldnn_format_kind_t.blocked then false
  else if md1.ndims != md2.ndims then false
  else
    let blk1 := md1.blocking
    let blk2 := md2.blocking
    if blk1.inner_nblks != blk2.inner_nblks
        || !compare_mkldnn_dims blk1.inner_blks blk2.inner_blks blk1.inner_nblks
        || !compare_mkldnn_dims blk1.inner_idxs blk2.inner_idxs blk1.inner_nblks then
      false
    else
      compare_mkldnn_strides_order blk1.strides blk2.strides md1.ndims

/-! ### The ordering of dimensions that a stride vector induces -/

/-- The permutation of the dimensions `0 .. size-1` induced by a stride
vector: the dimensions listed by increasing stride (dimensions of equal stride
keep their relative order). This is the notion of the specification, not a
function of the source. -/
def stride_order (strides : mkldnn_dims_t) (size : Nat) : List Nat :=
  sort_by (fun n1 n2 => decide (dims_at strides n1 < dims_at strides n2)) (List.range size)

/-- Two blocking descriptions have the same blocking structure: the same
number of inner blocks, with equal sizes and indices. -/
def same_blocking (a b : mkldnn_blocking_desc_t) : Prop :=
  a.inner_nblks = b.inner_nblks ∧
  ∀ i, i < a.inner_nblks →
    dims_at a.inner_blks i = dims_at b.inner_blks i ∧
    dims_at a.inner_idxs i = dims_at b.inner_idxs i

/-- A plain (not blocked further) descriptor of the blocked format kind with
the given extents and strides, as `mkldnn::memory::desc(dims, dtype, strides)`
builds it. -/
def desc_of_strides (dims strides : mkldnn_dims_t) : mkldnn_memory_desc_t :=
  { ndims := dims.length
    dims := dims
    format_kind := mkldnn_format_kind_t.blocked
    blocking := { strides := strides, inner_nblks := 0, inner_blks := [], inner_idxs := [] } }

/-! ## The MKL-DNN engine as the callbacks see it

The callbacks talk to MKL-DNN through memory objects, primitive descriptors,
primitives and a stream. The library is external: what it answers is a
parameter (`Engine`), what the callbacks ask of it is recorded, in order, in a
trace of events. -/

/-- Where a `mkldnn::memory` keeps its data: in a buffer of the caller (the
`allocatedPtr` of a memref) or in a buffer that the engine allocated for the
memory object. -/
inductive Buffer where
  | caller (ptr : Nat)
  | engine (id : Nat)
deriving DecidableEq, Repr

/-- A `mkldnn::memory`: a descriptor and a data handle. -/
structure memory where
  desc : mkldnn_memory_desc_t
  handle : Buffer
deriving DecidableEq, Repr

/-- The kinds of primitive the callbacks create. -/
inductive PrimKind where
  | reorder
  | convolution_forward
  | pooling_forward
  | pooling_backward
  | softmax_forward
deriving DecidableEq, Repr

/-- The execution argument slots `MKLDNN_ARG_*`. -/
inductive Arg where
  | SRC
  | DST
  | WEIGHTS
  | BIAS
  | WORKSPACE
  | DIFF_SRC
  | DIFF_DST
deriving DecidableEq, Repr

/-- What a callback does to the engine, in the order it does it. -/
inductive Event where
  | alloc (m : memory)
  | primitive (k : PrimKind)
  | execute (k : PrimKind) (exec_args : List (Arg × memory))
  | wait
deriving DecidableEq, Repr

/-- The state a callback runs in: the number of buffers the engine has
allocated so far and the trace of events. -/
structure World where
  allocated : Nat
  trace : List Event
deriving DecidableEq, Repr

/-- The exceptions that leave a callback. -/
inductive Failure where
  | mkldnn_error (message : String)
  | ngraph_error (what : String)
  | unreachable (what : String)
deriving DecidableEq, Repr

/-- The result of running a callback from a state. -/
inductive Outcome (α : Type) where
  | ok (a : α) (w : World)
  | fail (e : Failure) (w : World)
deriving DecidableEq, Repr

/-- A computation of the callbacks: it runs from a state and either returns
or throws. -/
def Callback (α : Type) : Type := World → Outcome α

instance : Monad Callback where
  pure a := fun w => Outcome.ok a w
  bind m f := fun w =>
    match m w with
    | Outcome.ok a w1 => f a w1
    | Outcome.fail e w1 => Outcome.fail e w1

/-- The statement `throw e`. -/
def throw_failure {α : Type} (e : Failure) : Callback α := fun w => Outcome.fail e w

/-- Record an event. -/
def emit (e : Event) : Callback Unit :=
  fun w => Outcome.ok () { w with trace := w.trace ++ [e] }

/-- An answer of the library: a value, or a `mkldnn::error` with its message. -/
def engine_call {α : Type} (r : Except String α) : Callback α :=
  match r with
  | Except.ok a => pure a
  | Except.error message => throw_failure (Failure.mkldnn_error message)

/-- The block `try { body } catch (const mkldnn::error& e)
{ throw ngraph_error(what + std::string(e.message)); }`. -/
def rethrow {α : Type} (what : String) (body : Callback α) : Callback α :=
  fun w =>
    match body w with
    | Outcome.fail (Failure.mkldnn_error message) w1 =>
      Outcome.fail (Failure.ngraph_error (what ++ message)) w1
    | r => r

/-- The MKL-DNN algorithms the callbacks name. -/
inductive algorithm where
  | convolution_direct
  | convolution_auto
  | pooling_max
  | pooling_avg_include_padding
  | pooling_avg_exclude_padding
deriving DecidableEq, Repr

/-- The propagation kinds the callbacks name (`forward_scoring` is
`forward_inference`). -/
inductive prop_kind where
  | forward_training
  | forward_inference
deriving DecidableEq, Repr

/-- The arguments of `mkldnn::convolution_forward::desc`. -/
structure convolution_desc where
  aprop_kind : prop_kind
  aalgorithm : algorithm
  src_desc : mkldnn_memory_desc_t
  weights_desc : mkldnn_memory_desc_t
  bias_desc : mkldnn_memory_desc_t
  dst_desc : mkldnn_memory_desc_t
  strides : mkldnn_dims_t
  dilates : mkldnn_dims_t
  padding_l : mkldnn_dims_t
  padding_r : mkldnn_dims_t
deriving DecidableEq, Repr

/-- What is read from a `convolution_forward::primitive_desc`. -/
structure convolution_pd where
  src_desc : mkldnn_memory_desc_t
  weights_desc : mkldnn_memory_desc_t
  bias_desc : mkldnn_memory_desc_t
  dst_desc : mkldnn_memory_desc_t
deriving DecidableEq, Repr

/-- The arguments of `mkldnn::pooling_forward::desc` (with a propagation
kind) and of `mkldnn::pooling_backward::desc` (without). -/
structure pooling_desc where
  aprop_kind : Option prop_kind
  aalgorithm : algorithm
  src_desc : mkldnn_memory_desc_t
  dst_desc : mkldnn_memory_desc_t
  strides : mkldnn_dims_t
  kernel : mkldnn_dims_t
  padding_l : mkldnn_dims_t
  padding_r : mkldnn_dims_t
deriving DecidableEq, Repr

/-- What is read from a `pooling_forward::primitive_desc`. -/
structure pooling_forward_pd where
  src_desc : mkldnn_memory_desc_t
  dst_desc : mkldnn_memory_desc_t
  workspace_desc : mkldnn_memory_desc_t
deriving DecidableEq, Repr

/-- What is read from a `pooling_backward::primitive_desc`. -/
structure pooling_backward_pd where
  diff_src_desc : mkldnn_memory_desc_t
  diff_dst_desc : mkldnn_memory_desc_t
deriving DecidableEq, Repr

/-- The arguments of `mkldnn::softmax_forward::desc`. -/
structure softmax_desc where
  aprop_kind : prop_kind
  data_desc : mkldnn_memory_desc_t
  softmax_axis : Int
deriving DecidableEq, Repr

/-- What is read from a `softmax_forward::primitive_desc`. -/
structure softmax_pd where
  src_desc : mkldnn_memory_desc_t
  dst_desc : mkldnn_memory_desc_t
deriving DecidableEq, Repr

/-- The answers of the external library: the build flag
`NGRAPH_ENABLE_CPU_CONV_AUTO`, the primitive descriptors it chooses (with the
layouts it prefers) and whether creating a reorder and executing a primitive on
given arguments succeeds. An `Except.error` is a thrown `mkldnn::error`. -/
structure Engine where
  conv_auto : Bool
  convolution_primitive_desc : convolution_desc → Bool → Except String convolution_pd
  pooling_forward_primitive_desc : pooling_desc → Except String pooling_forward_pd
  pooling_backward_primitive_desc :
    pooling_desc → pooling_forward_pd → Except String pooling_backward_pd
  softmax_primitive_desc : softmax_desc → Except String softmax_pd
  reorder_create : mkldnn_memory_desc_t → mkldnn_memory_desc_t → Except String Unit
  execute : PrimKind → List (Arg × memory) → Except String Unit

/-- The constructor `mkldnn::memory{desc, engine}`: the engine allocates the
buffer. -/
def memory_alloc (desc : mkldnn_memory_desc_t) : Callback memory :=
  fun w =>
    let m : memory := { desc := desc, handle := Buffer.engine w.allocated }
    Outcome.ok m { allocated := w.allocated + 1, trace := w.trace ++ [Event.alloc m] }

/-- The constructor `mkldnn::memory{desc, engine, ptr}`: the memory object is
bound to the caller's buffer, nothing is allocated. -/
def memory_bind (desc : mkldnn_memory_desc_t) (ptr : Nat) : memory :=
  { desc := desc, handle := Buffer.caller ptr }

/-- Construction of a primitive from a primitive descriptor. A descriptor
that was default-constructed and never assigned is empty; MKL-DNN refuses to
create a primitive from it. -/
def primitive_create {α : Type} (k : PrimKind) (pd : Option α) : Callback α :=
  match pd with
  | none => throw_failure (Failure.mkldnn_error "could not create a primitive")
  | some d => do
    emit (Event.primitive k)
    pure d

/-- The call `prim.execute(s, exec_args)`. -/
def primitive_execute (eng : Engine) (k : PrimKind) (exec_args : List (Arg × memory)) :
    Callback Unit := do
  engine_call (eng.execute k exec_args)
  emit (Event.execute k exec_args)

/-- The call `s.wait()`. -/
def stream_wait : Callback Unit := emit Event.wait

/-- Source `convert_layout_if_diff`. -/
def convert_layout_if_diff (eng : Engine) (lhs rhs : mkldnn_memory_desc_t) (ptr : Nat) :
    Callback memory :=
  if !compare_mkldnn_md_formats lhs rhs then do
    let reorder_in := memory_bind lhs ptr
    let reorder_out ← memory_alloc rhs
    engine_call (eng.reorder_create reorder_in.desc reorder_out.desc)
    emit (Event.primitive PrimKind.reorder)
    let exec_args := [(Arg.SRC, reorder_in), (Arg.DST, reorder_out)]
    rethrow "Could not run mkdnn primitive " (do
      primitive_execute eng PrimKind.reorder exec_args
      stream_wait)
    pure reorder_out
  else
    pure (memory_bind lhs ptr)

/-- Source `convert_output_layout`. -/
def convert_output_layout (eng : Engine) (reorder_in : memory) (rhs : mkldnn_memory_desc_t)
    (ptr : Nat) : Callback Unit := do
  let reorder_out := memory_bind rhs ptr
  engine_call (eng.reorder_create reorder_in.desc reorder_out.desc)
  emit (Event.primitive PrimKind.reorder)
  let exec_args := [(Arg.SRC, reorder_in), (Arg.DST, reorder_out)]
  rethrow "Could not run mkdnn primitive " (do
    primitive_execute eng PrimKind.reorder exec_args
    stream_wait)

/-- Source `get_conv_algo`. -/
def get_conv_algo (eng : Engine) : algorithm :=
  if eng.conv_auto then algorithm.convolution_auto else algorithm.convolution_direct

/-! ## Memrefs and call-site attributes

`StaticMemRef`, `opAttrs` and the enumerations are declared in
`callback_utils.hpp`, which is not among the sources; they are modelled with
the members the callbacks read. -/

/-- A `StaticMemRef`: the buffer pointer and the array that holds `rank`
extents followed by `rank` strides. -/
structure StaticMemRef where
  allocatedPtr : Nat
  shapeAndStrides : List Int
deriving DecidableEq, Repr

/-- The extents read by the loops `dims[i] = memRef->shapeAndStrides[i]`. -/
def shape_of (memRef : StaticMemRef) (rank : Nat) : mkldnn_dims_t :=
  (List.range rank).map (fun i => dims_at memRef.shapeAndStrides i)

/-- The strides read by the loops
`strides[i] = memRef->shapeAndStrides[rank + i]`. -/
def strides_of (memRef : StaticMemRef) (rank : Nat) : mkldnn_dims_t :=
  (List.range rank).map (fun i => dims_at memRef.shapeAndStrides (rank + i))

/-- The convolution attributes `convAttrs<N>` of a call site. -/
structure convAttrs where
  withRelu : Bool
  windowStrides : List Int
  windowDilation : List Int
  padBelow : List Int
  padAbove : List Int
deriving DecidableEq, Repr

/-- The pooling attributes `poolAttrs<N>` of a call site. -/
structure poolAttrs where
  includePaddingInAvgComputation : Bool
  windowShape : List Int
  windowStrides : List Int
  padBelow : List Int
  padAbove : List Int
deriving DecidableEq, Repr

/-- The broadcast hint of a GEMM call site. `ERROR` stands for every value
other than the four that the callback handles. -/
inductive BroadcastType where
  | NONE
  | ROW
  | COLUMN
  | ROWCOLUMN
  | ERROR
deriving DecidableEq, Repr

/-- The GEMM attributes `gemmAttrs` of a call site. The type `R` stands for
`float`, with exact arithmetic. -/
structure gemmAttrs (R : Type) where
  transposeA : Bool
  transposeB : Bool
  m : Nat
  n : Nat
  k : Nat
  lda : Nat
  ldb : Nat
  ldc : Nat
  alpha : R
  beta : R
  broadcastHint : BroadcastType

/-- An entry `opAttrs` of the attributes table, with the members that the
callbacks read. -/
structure opAttrs (R : Type) where
  convAttrs1d : convAttrs
  convAttrs2d : convAttrs
  convAttrs3d : convAttrs
  poolAttrs2d : poolAttrs
  poolAttrs3d : poolAttrs
  gemmAttrs2d : gemmAttrs R
  intAttr : Int

/-- The operator kinds `OpType` that the callbacks name; `other` stands for
every further enumerator. -/
inductive OpType where
  | AVGPOOL
  | AVGPOOLBACKPROP
  | CONVOLUTIONBIAS
  | GEMM
  | MATMUL
  | MAXPOOL
  | MAXPOOLBACKPROP
  | SOFTMAX
  | other (tag : Nat)
deriving DecidableEq, Repr

/-- The format tags `mkldnn::memory::FORMAT` that the callbacks name. -/
inductive FORMAT where
  | any
  | nchw
  | ncdhw
deriving DecidableEq, Repr

/-- Dense row-major strides of the given extents. -/
def dense_strides : List Int → List Int
  | [] => []
  | _ :: ds => ds.foldl (fun acc d => acc * d) 1 :: dense_strides ds

/-- The constructor `mkldnn::memory::desc(dims, dtype, tag)`. The tag `any`
leaves the layout to the primitive; `nchw` and `ncdhw` give the dense
row-major layout and are refused by MKL-DNN for dims of another rank than 4 and
5 respectively. -/
def desc_of_tag (dims : mkldnn_dims_t) : FORMAT → Except String mkldnn_memory_desc_t
  | FORMAT.any =>
    Except.ok
      { ndims := dims.length
        dims := dims
        format_kind := mkldnn_format_kind_t.any
        blocking := { strides := [], inner_nblks := 0, inner_blks := [], inner_idxs := [] } }
  | FORMAT.nchw =>
    if dims.length = 4 then Except.ok (desc_of_strides dims (dense_strides dims))
    else Except.error "could not initialize a memory descriptor by tag"
  | FORMAT.ncdhw =>
    if dims.length = 5 then Except.ok (desc_of_strides dims (dense_strides dims))
    else Except.error "could not initialize a memory descriptor by tag"

/-! ## The callbacks -/

/-- Source `__mlir_mkldnn_convbias`. -/
def __mlir_mkldnn_convbias {R : Type} (eng : Engine) (getAttrs : Nat → opAttrs R) (rank : Nat)
    (memRefData memRefWeights memRefBias memRefOutput : StaticMemRef) (index : Nat) :
    Callback Unit := do
  let dataDims := shape_of memRefData rank
  let dataStrides := strides_of memRefData rank
  let weightsDims := shape_of memRefWeights rank
  let weightsStrides := strides_of memRefWeights rank
  let biasDims := [dims_at memRefBias.shapeAndStrides 0]
  let resultDims := shape_of memRefOutput rank
  let resultStrides := strides_of memRefOutput rank
  let alg := get_conv_algo eng
  let data_desc ← engine_call (desc_of_tag dataDims FORMAT.any)
  let data_desc_origin := desc_of_strides dataDims dataStrides
  let weights_desc ← engine_call (desc_of_tag weightsDims FORMAT.any)
  let weights_desc_origin := desc_of_strides weightsDims weightsStrides
  let bias_desc ← engine_call (desc_of_tag biasDims FORMAT.any)
  let result_desc ← engine_call (desc_of_tag resultDims FORMAT.any)
  let result_desc_origin := desc_of_strides resultDims resultStrides
  let conv_pd ← (
    if rank == 3 then
      let convAttrs := (getAttrs index).convAttrs1d
      rethrow "Could not create mkldnn conv descriptor " (do
        let conv_desc : convolution_desc :=
          { aprop_kind := prop_kind.forward_inference
            aalgorithm := alg
            src_desc := data_desc
            weights_desc := weights_desc
            bias_desc := bias_desc
            dst_desc := result_desc
            strides := [dims_at convAttrs.windowStrides 0]
            dilates := [dims_at convAttrs.windowDilation 0 - 1]
            padding_l := [dims_at convAttrs.padBelow 0]
            padding_r := [dims_at convAttrs.padAbove 0] }
        let pd ← engine_call (eng.convolution_primitive_desc conv_desc convAttrs.withRelu)
        pure (some pd))
    else if rank == 4 then
      let convAttrs := (getAttrs index).convAttrs2d
      rethrow "Could not create mkldnn conv descriptor " (do
        let conv_desc : convolution_desc :=
          { aprop_kind := prop_kind.forward_inference
            aalgorithm := alg
            src_desc := data_desc
            weights_desc := weights_desc
            bias_desc := bias_desc
            dst_desc := result_desc
            strides := [dims_at convAttrs.windowStrides 0, dims_at convAttrs.windowStrides 1]
            dilates :=
              [dims_at convAttrs.windowDilation 0 - 1, dims_at convAttrs.windowDilation 1 - 1]
            padding_l := [dims_at convAttrs.padBelow 0, dims_at convAttrs.padBelow 1]
            padding_r := [dims_at convAttrs.padAbove 0, dims_at convAttrs.padAbove 1] }
        let pd ← engine_call (eng.convolution_primitive_desc conv_desc convAttrs.withRelu)
        pure (some pd))
    else if rank == 5 then
      let convAttrs := (getAttrs index).convAttrs3d
      rethrow "Could not create mkldnn conv descriptor " (do
        let conv_desc : convolution_desc :=
          { aprop_kind := prop_kind.forward_inference
            aalgorithm := alg
            src_desc := data_desc
            weights_desc := weights_desc
            bias_desc := bias_desc
            dst_desc := result_desc
            strides :=
              [dims_at convAttrs.windowStrides 0, dims_at convAttrs.windowStrides 1,
               dims_at convAttrs.windowStrides 2]
            dilates :=
              [dims_at convAttrs.windowDilation 0 - 1, dims_at convAttrs.windowDilation 1 - 1,
               dims_at convAttrs.windowDilation 2 - 1]
            padding_l :=
              [dims_at convAttrs.padBelow 0, dims_at convAttrs.padBelow 1,
               dims_at convAttrs.padBelow 2]
            padding_r :=
              [dims_at convAttrs.padAbove 0, dims_at convAttrs.padAbove 1,
               dims_at convAttrs.padAbove 2] }
        let pd ← engine_call (eng.convolution_primitive_desc conv_desc convAttrs.withRelu)
        pure (some pd))
    else pure none : Callback (Option convolution_pd))
  let conv_pd ← primitive_create PrimKind.convolution_forward conv_pd
  let data ← convert_layout_if_diff eng data_desc_origin conv_pd.src_desc memRefData.allocatedPtr
  let weights ←
    convert_layout_if_diff eng weights_desc_origin conv_pd.weights_desc
      memRefWeights.allocatedPtr
  let bias := memory_bind conv_pd.bias_desc memRefBias.allocatedPtr
  let (out, need_convert) ← (
    if !compare_mkldnn_md_formats result_desc_origin conv_pd.dst_desc then do
      let out ← memory_alloc conv_pd.dst_desc
      pure (out, true)
    else
      pure (memory_bind conv_pd.dst_desc memRefOutput.allocatedPtr, false)
    : Callback (memory × Bool))
  let exec_args := [(Arg.SRC, data), (Arg.WEIGHTS, weights), (Arg.BIAS, bias), (Arg.DST, out)]
  rethrow "Could not run mkdnn primitive " (do
    primitive_execute eng PrimKind.convolution_forward exec_args
    stream_wait)
  if need_convert then
    convert_output_layout eng out result_desc_origin memRefOutput.allocatedPtr

/-- The average-pooling algorithm of the expression
`includePaddingInAvgComputation ? pooling_avg_include_padding
: pooling_avg_exclude_padding`. -/
def avg_algorithm (pAttrs : poolAttrs) : algorithm :=
  if pAttrs.includePaddingInAvgComputation then algorithm.pooling_avg_include_padding
  else algorithm.pooling_avg_exclude_padding

/-- Source `__mlir_mkldnn_maxpoolbackprop`. -/
def __mlir_mkldnn_maxpoolbackprop {R : Type} (eng : Engine) (getAttrs : Nat → opAttrs R)
    (rank : Nat) (memRefSrc memRefDelta memRefOutput : StaticMemRef) (index : Nat) :
    Callback Unit := do
  let srcDims := shape_of memRefSrc rank
  let srcStrides := strides_of memRefSrc rank
  let deltaDims := shape_of memRefDelta rank
  let deltaStrides := strides_of memRefDelta rank
  let outDims := shape_of memRefOutput rank
  let outStrides := strides_of memRefOutput rank
  let required_format := if rank == 4 then FORMAT.nchw else FORMAT.ncdhw
  let diff_dst_desc ← engine_call (desc_of_tag deltaDims required_format)
  let diff_src_desc ← engine_call (desc_of_tag outDims required_format)
  let src_desc_origin := desc_of_strides srcDims srcStrides
  let diff_dst_desc_origin := desc_of_strides deltaDims deltaStrides
  let diff_src_desc_origin := desc_of_strides outDims outStrides
  let maxpool_pd ← (
    if rank == 4 then
      let pAttrs := (getAttrs index).poolAttrs2d
      rethrow "Could not create mkldnn max pooling descriptor " (do
        let maxpool_desc_f : pooling_desc :=
          { aprop_kind := some prop_kind.forward_training
            aalgorithm := algorithm.pooling_max
            src_desc := diff_src_desc
            dst_desc := diff_dst_desc
            strides := [dims_at pAttrs.windowStrides 0, dims_at pAttrs.windowStrides 1]
            kernel := [dims_at pAttrs.windowShape 0, dims_at pAttrs.windowShape 1]
            padding_l := [dims_at pAttrs.padBelow 0, dims_at pAttrs.padBelow 1]
            padding_r := [dims_at pAttrs.padAbove 0, dims_at pAttrs.padAbove 1] }
        let maxpool_desc_b : pooling_desc :=
          { aprop_kind := none
            aalgorithm := algorithm.pooling_max
            src_desc := diff_src_desc
            dst_desc := diff_dst_desc
            strides := [dims_at pAttrs.windowStrides 0, dims_at pAttrs.windowStrides 1]
            kernel := [dims_at pAttrs.windowShape 0, dims_at pAttrs.windowShape 1]
            padding_l := [dims_at pAttrs.padBelow 0, dims_at pAttrs.padBelow 1]
            padding_r := [dims_at pAttrs.padAbove 0, dims_at pAttrs.padAbove 1] }
        let maxpool_pd_f ← engine_call (eng.pooling_forward_primitive_desc maxpool_desc_f)
        let maxpool_pd_b ←
          engine_call (eng.pooling_backward_primitive_desc maxpool_desc_b maxpool_pd_f)
        pure (some (maxpool_pd_f, maxpool_pd_b)))
    else if rank == 5 then
      let pAttrs := (getAttrs index).poolAttrs3d
      rethrow "Could not create mkldnn max pooling descriptor " (do
        let maxpool_desc_f : pooling_desc :=
          { aprop_kind := some prop_kind.forward_training
            aalgorithm := algorithm.pooling_max
            src_desc := diff_src_desc
            dst_desc := diff_dst_desc
            strides :=
              [dims_at pAttrs.windowStrides 0, dims_at pAttrs.windowStrides 1,
               dims_at pAttrs.windowStrides 2]
            kernel :=
              [dims_at pAttrs.windowShape 0, dims_at pAttrs.windowShape 1,
               dims_at pAttrs.windowShape 2]
            padding_l :=
              [dims_at pAttrs.padBelow 0, dims_at pAttrs.padBelow 1,
               dims_at pAttrs.padBelow 2]
            padding_r :=
              [dims_at pAttrs.padAbove 0, dims_at pAttrs.padAbove 1,
               dims_at pAttrs.padAbove 2] }
        let maxpool_desc_b : pooling_desc :=
          { aprop_kind := none
            aalgorithm := algorithm.pooling_max
            src_desc := diff_src_desc
            dst_desc := diff_dst_desc
            strides :=
              [dims_at pAttrs.windowStrides 0, dims_at pAttrs.windowStrides 1,
               dims_at pAttrs.windowStrides 2]
            kernel :=
              [dims_at pAttrs.windowShape 0, dims_at pAttrs.windowShape 1,
               dims_at pAttrs.windowShape 2]
            padding_l :=
              [dims_at pAttrs.padBelow 0, dims_at pAttrs.padBelow 1,
               dims_at pAttrs.padBelow 2]
            padding_r :=
              [dims_at pAttrs.padAbove 0, dims_at pAttrs.padAbove 1,
               dims_at pAttrs.padAbove 2] }
        let maxpool_pd_f ← engine_call (eng.pooling_forward_primitive_desc maxpool_desc_f)
        let maxpool_pd_b ←
          engine_call (eng.pooling_backward_primitive_desc maxpool_desc_b maxpool_pd_f)
        pure (some (maxpool_pd_f, maxpool_pd_b)))
    else pure none : Callback (Option (pooling_forward_pd × pooling_backward_pd)))
  let (maxpool_pd_f, maxpool_pd_b) ← primitive_create PrimKind.pooling_forward maxpool_pd
  let src_mem ←
    convert_layout_if_diff eng src_desc_origin maxpool_pd_b.diff_src_desc memRefSrc.allocatedPtr
  let dst_mem ← memory_alloc maxpool_pd_b.diff_dst_desc
  let workspace ← memory_alloc maxpool_pd_f.workspace_desc
  emit (Event.primitive PrimKind.pooling_backward)
  let diff_dst ←
    convert_layout_if_diff eng diff_dst_desc_origin maxpool_pd_b.diff_dst_desc
      memRefDelta.allocatedPtr
  let (diff_src, need_convert) ← (
    if !compare_mkldnn_md_formats diff_src_desc_origin maxpool_pd_b.diff_src_desc then do
      let diff_src ← memory_alloc maxpool_pd_b.diff_src_desc
      pure (diff_src, true)
    else
      pure (memory_bind maxpool_pd_b.diff_src_desc memRefOutput.allocatedPtr, false)
    : Callback (memory × Bool))
  let exec_args_f := [(Arg.SRC, src_mem), (Arg.WORKSPACE, workspace), (Arg.DST, dst_mem)]
  let exec_args_b :=
    [(Arg.DIFF_DST, diff_dst), (Arg.WORKSPACE, workspace), (Arg.DIFF_SRC, diff_src)]
  rethrow "Could not run mkdnn primitive " (do
    primitive_execute eng PrimKind.pooling_forward exec_args_f
    stream_wait
    primitive_execute eng PrimKind.pooling_backward exec_args_b
    stream_wait)
  if need_convert then
    convert_output_layout eng diff_src diff_src_desc_origin memRefOutput.allocatedPtr

/-- Source `__mlir_mkldnn_avgpoolbackprop`. -/
def __mlir_mkldnn_avgpoolbackprop {R : Type} (eng : Engine) (getAttrs : Nat → opAttrs R)
    (rank : Nat) (memRefInput memRefOutput : StaticMemRef) (index : Nat) : Callback Unit := do
  let dims := shape_of memRefInput rank
  let strides := strides_of memRefInput rank
  let outDims := shape_of memRefOutput rank
  let outStrides := strides_of memRefOutput rank
  let required_format := if rank == 4 then FORMAT.nchw else FORMAT.ncdhw
  let diff_dst_desc ← engine_call (desc_of_tag dims required_format)
  let diff_src_desc ← engine_call (desc_of_tag outDims required_format)
  let diff_dst_desc_origin := desc_of_strides dims strides
  let diff_src_desc_origin := desc_of_strides outDims outStrides
  let avgpool_pd_b ← (
    if rank == 4 then
      let pAttrs := (getAttrs index).poolAttrs2d
      rethrow "Could not create mkldnn avg pooling descriptor " (do
        let avgpool_desc_f : pooling_desc :=
          { aprop_kind := some prop_kind.forward_training
            aalgorithm := avg_algorithm pAttrs
            src_desc := diff_src_desc
            dst_desc := diff_dst_desc
            strides := [dims_at pAttrs.windowStrides 0, dims_at pAttrs.windowStrides 1]
            kernel := [dims_at pAttrs.windowShape 0, dims_at pAttrs.windowShape 1]
            padding_l := [dims_at pAttrs.padBelow 0, dims_at pAttrs.padBelow 1]
            padding_r := [dims_at pAttrs.padAbove 0, dims_at pAttrs.padAbove 1] }
        let avgpool_desc_b : pooling_desc :=
          { aprop_kind := none
            aalgorithm := avg_algorithm pAttrs
            src_desc := diff_src_desc
            dst_desc := diff_dst_desc
            strides := [dims_at pAttrs.windowStrides 0, dims_at pAttrs.windowStrides 1]
            kernel := [dims_at pAttrs.windowShape 0, dims_at pAttrs.windowShape 1]
            padding_l := [dims_at pAttrs.padBelow 0, dims_at pAttrs.padBelow 1]
            padding_r := [dims_at pAttrs.padAbove 0, dims_at pAttrs.padAbove 1] }
        let avgpool_pd_f ← engine_call (eng.pooling_forward_primitive_desc avgpool_desc_f)
        let avgpool_pd_b ←
          engine_call (eng.pooling_backward_primitive_desc avgpool_desc_b avgpool_pd_f)
        pure (some avgpool_pd_b))
    else if rank == 5 then
      let pAttrs := (getAttrs index).poolAttrs3d
      rethrow "Could not create mkldnn avg pooling descriptor " (do
        let avgpool_desc_f : pooling_desc :=
          { aprop_kind := some prop_kind.forward_training
            aalgorithm := avg_algorithm pAttrs
            src_desc := diff_src_desc
            dst_desc := diff_dst_desc
            strides :=
              [dims_at pAttrs.windowStrides 0, dims_at pAttrs.windowStrides 1,
               dims_at pAttrs.windowStrides 2]
            kernel :=
              [dims_at pAttrs.windowShape 0, dims_at pAttrs.windowShape 1,
               dims_at pAttrs.windowShape 2]
            padding_l :=
              [dims_at pAttrs.padBelow 0, dims_at pAttrs.padBelow 1,
               dims_at pAttrs.padBelow 2]
            padding_r :=
              [dims_at pAttrs.padAbove 0, dims_at pAttrs.padAbove 1,
               dims_at pAttrs.padAbove 2] }
        let avgpool_desc_b : pooling_desc :=
          { aprop_kind := none
            aalgorithm := avg_algorithm pAttrs
            src_desc := diff_src_desc
            dst_desc := diff_dst_desc
            strides :=
              [dims_at pAttrs.windowStrides 0, dims_at pAttrs.windowStrides 1,
               dims_at pAttrs.windowStrides 2]
            kernel :=
              [dims_at pAttrs.windowShape 0, dims_at pAttrs.windowShape 1,
               dims_at pAttrs.windowShape 2]
            padding_l :=
              [dims_at pAttrs.padBelow 0, dims_at pAttrs.padBelow 1,
               dims_at pAttrs.padBelow 2]
            padding_r :=
              [dims_at pAttrs.padAbove 0, dims_at pAttrs.padAbove 1,
               dims_at pAttrs.padAbove 2] }
        let avgpool_pd_f ← engine_call (eng.pooling_forward_primitive_desc avgpool_desc_f)
        let avgpool_pd_b ←
          engine_call (eng.pooling_backward_primitive_desc avgpool_desc_b avgpool_pd_f)
        pure (some avgpool_pd_b))
    else pure none : Callback (Option pooling_backward_pd))
  let avgpool_pd_b ← primitive_create PrimKind.pooling_backward avgpool_pd_b
  let input ←
    convert_layout_if_diff eng diff_dst_desc_origin avgpool_pd_b.diff_dst_desc
      memRefInput.allocatedPtr
  let (out, need_convert) ← (
    if !compare_mkldnn_md_formats diff_src_desc_origin avgpool_pd_b.diff_src_desc then do
      let out ← memory_alloc avgpool_pd_b.diff_src_desc
      pure (out, true)
    else
      pure (memory_bind avgpool_pd_b.diff_src_desc memRefOutput.allocatedPtr, false)
    : Callback (memory × Bool))
  let exec_args := [(Arg.DIFF_DST, input), (Arg.DIFF_SRC, out)]
  rethrow "Could not run mkdnn primitive " (do
    primitive_execute eng PrimKind.pooling_backward exec_args
    stream_wait)
  if need_convert then
    convert_output_layout eng out diff_src_desc_origin memRefOutput.allocatedPtr

/-- Source `__mlir_mkldnn_pooling`, the callback of AvgPool and MaxPool. -/
def __mlir_mkldnn_pooling {R : Type} (eng : Engine) (getAttrs : Nat → opAttrs R) (rank : Nat)
    (memRefInput memRefOutput : StaticMemRef) (index : Nat) (type : OpType) :
    Callback Unit := do
  let dims := shape_of memRefInput rank
  let strides := strides_of memRefInput rank
  let outDims := shape_of memRefOutput rank
  let outStrides := strides_of memRefOutput rank
  let required_format := if rank == 4 then FORMAT.nchw else FORMAT.ncdhw
  let input_desc ← engine_call (desc_of_tag dims required_format)
  let result_desc ← engine_call (desc_of_tag outDims required_format)
  let input_desc_origin := desc_of_strides dims strides
  let result_desc_origin := desc_of_strides outDims outStrides
  let pool_pd ← (
    if rank == 4 then
      let pAttrs := (getAttrs index).poolAttrs2d
      let alg := if type == OpType.MAXPOOL then algorithm.pooling_max else avg_algorithm pAttrs
      rethrow "Could not create mkldnn pooling descriptor " (do
        let pool_desc : pooling_desc :=
          { aprop_kind := some prop_kind.forward_inference
            aalgorithm := alg
            src_desc := input_desc
            dst_desc := result_desc
            strides := [dims_at pAttrs.windowStrides 0, dims_at pAttrs.windowStrides 1]
            kernel := [dims_at pAttrs.windowShape 0, dims_at pAttrs.windowShape 1]
            padding_l := [dims_at pAttrs.padBelow 0, dims_at pAttrs.padBelow 1]
            padding_r := [dims_at pAttrs.padAbove 0, dims_at pAttrs.padAbove 1] }
        let pd ← engine_call (eng.pooling_forward_primitive_desc pool_desc)
        pure (some pd))
    else if rank == 5 then
      let pAttrs := (getAttrs index).poolAttrs3d
      let alg := if type == OpType.MAXPOOL then algorithm.pooling_max else avg_algorithm pAttrs
      rethrow "Could not create mkldnn pooing descriptor " (do
        let pool_desc : pooling_desc :=
          { aprop_kind := some prop_kind.forward_inference
            aalgorithm := alg
            src_desc := input_desc
            dst_desc := result_desc
            strides :=
              [dims_at pAttrs.windowStrides 0, dims_at pAttrs.windowStrides 1,
               dims_at pAttrs.windowStrides 2]
            kernel :=
              [dims_at pAttrs.windowShape 0, dims_at pAttrs.windowShape 1,
               dims_at pAttrs.windowShape 2]
            padding_l :=
              [dims_at pAttrs.padBelow 0, dims_at pAttrs.padBelow 1,
               dims_at pAttrs.padBelow 2]
            padding_r :=
              [dims_at pAttrs.padAbove 0, dims_at pAttrs.padAbove 1,
               dims_at pAttrs.padAbove 2] }
        let pd ← engine_call (eng.pooling_forward_primitive_desc pool_desc)
        pure (some pd))
    else pure none : Callback (Option pooling_forward_pd))
  let pool_pd ← primitive_create PrimKind.pooling_forward pool_pd
  let input ←
    convert_layout_if_diff eng input_desc_origin pool_pd.src_desc memRefInput.allocatedPtr
  let (out, need_convert) ← (
    if !compare_mkldnn_md_formats result_desc_origin pool_pd.dst_desc then do
      let out ← memory_alloc pool_pd.dst_desc
      pure (out, true)
    else
      pure (memory_bind pool_pd.dst_desc memRefOutput.allocatedPtr, false)
    : Callback (memory × Bool))
  let exec_args := [(Arg.SRC, input), (Arg.DST, out)]
  rethrow "Could not run mkdnn primitive " (do
    primitive_execute eng PrimKind.pooling_forward exec_args
    stream_wait)
  if need_convert then
    convert_output_layout eng out result_desc_origin memRefOutput.allocatedPtr

/-- Source `__mlir_mkldnn_softmax`. Its parameter `int index` is only passed to
`getAttrs`, which takes a `size_t`: `index` is the value that `getAttrs`
receives. -/
def __mlir_mkldnn_softmax {R : Type} (eng : Engine) (getAttrs : Nat → opAttrs R) (rank : Nat)
    (memRefInput memRefOutput : StaticMemRef) (index : Nat) : Callback Unit := do
  let dims := shape_of memRefInput rank
  let strides := strides_of memRefInput rank
  let softmax_axis := (getAttrs index).intAttr
  let input_desc := desc_of_strides dims strides
  let softmax_pd ← rethrow "Could not create mkldnn softmax descriptor " (do
    let softmax_desc : softmax_desc :=
      { aprop_kind := prop_kind.forward_inference
        data_desc := input_desc
        softmax_axis := softmax_axis }
    engine_call (eng.softmax_primitive_desc softmax_desc))
  emit (Event.primitive PrimKind.softmax_forward)
  let input := memory_bind softmax_pd.src_desc memRefInput.allocatedPtr
  let out := memory_bind softmax_pd.dst_desc memRefOutput.allocatedPtr
  let exec_args := [(Arg.SRC, input), (Arg.DST, out)]
  rethrow "Could not run mkdnn primitive " (do
    primitive_execute eng PrimKind.softmax_forward exec_args
    stream_wait)

/-! ## Matrix multiplication with bias

`float` is modelled by a commutative ring `R` with exact arithmetic. The
memory of float buffers maps a buffer pointer (the `allocatedPtr` of a memref)
and an offset to the value stored there; distinct pointers are distinct
buffers. -/

/-- The float buffers of the caller: pointer, then offset. -/
abbrev FloatHeap (R : Type) := Nat → Nat → R

/-- The data of a `std::vector<float>`; it is only read inside its size. -/
def vector_data {R : Type} [Zero R] (v : List R) : Nat → R := fun p => v.getD p 0

/-- The BLAS routine `cblas_sgemm` with `Layout::RowMajor` (external library,
reference semantics): on the `M x N` block of `C` with leading dimension `ldc`,
`C := alpha * op(A) * op(B) + beta * C`, where `op(A)` is `M x K` and `op(B)` is
`K x N`; every other position of `C` is left alone. The result is the new
content of the buffer of `C`. The leading dimensions are taken to be ones that
BLAS accepts. -/
def cblas_sgemm {R : Type} [CommRing R] (TransA TransB : Bool) (M N K : Nat) (alpha : R)
    (A : Nat → R) (lda : Nat) (B : Nat → R) (ldb : Nat) (beta : R) (C : Nat → R) (ldc : Nat) :
    Nat → R :=
  fun p =>
    if p / ldc < M ∧ p % ldc < N then
      alpha * Finset.sum (Finset.range K) (fun l =>
        (if TransA then A (l * lda + p / ldc) else A (p / ldc * lda + l)) *
        (if TransB then B (p % ldc * ldb + l) else B (l * ldb + p % ldc)))
      + beta * C p
    else C p

/-- The conversion of a `size_t` to `int`: the value modulo `2^32`, read as a
two's complement number of 32 bits. -/
def int_of_size_t (x : Nat) : Int :=
  if x % 4294967296 < 2147483648 then ((x % 4294967296 : Nat) : Int)
  else ((x % 4294967296 : Nat) : Int) - 4294967296

/-- The conversion of an `int` to `size_t`: the value modulo `2^64`. -/
def size_t_of_int (i : Int) : Nat := (i % 18446744073709551616).toNat

/-- The loop `for (auto i = 0; i < n * n; i += n + 1) identity[i] = 1.0`,
started at `i` with at most `fuel` iterations left. The counter `i` is an
`int` (the type of the literal `0`) and `n` is a `size_t`: the comparison and
the subscript convert `i` to `size_t`, and `i += n + 1` adds in `size_t` and
converts the sum to `int`. -/
def identity_loop {R : Type} [One R] (n : Nat) (identity : List R) (i : Int) : Nat → List R
  | 0 => identity
  | fuel + 1 =>
    if size_t_of_int i < n * n % 18446744073709551616 then
      identity_loop n (identity.set (size_t_of_int i) 1)
        (int_of_size_t ((size_t_of_int i + (n + 1)) % 18446744073709551616)) fuel
    else identity

/-- The vector `identity` of the `NONE` branch after its loop. For `n` below
`2^31` every iteration advances the counter until the loop exits, so `n * n`
iterations are enough for the loop to reach its exit. -/
def identity_vector {R : Type} [Zero R] [One R] (n : Nat) : List R :=
  identity_loop n (List.replicate (n * n % 18446744073709551616) 0) 0
    (n * n % 18446744073709551616)

/-- Source `__mlir_cblas_sgemm_with_bias`. It returns the memory after the
call, or throws. -/
def __mlir_cblas_sgemm_with_bias {R : Type} [CommRing R] (getAttrs : Nat → opAttrs R)
    (memRefmatA memRefmatB memRefmatC memRefmatOut : StaticMemRef) (index : Nat)
    (heap : FloatHeap R) : Except Failure (FloatHeap R) :=
  let gAttrs := (getAttrs index).gemmAttrs2d
  let transposeA := gAttrs.transposeA
  let transposeB := gAttrs.transposeB
  let m := gAttrs.m
  let n := gAttrs.n
  let k := gAttrs.k
  let lda := gAttrs.lda
  let ldb := gAttrs.ldb
  let ldc := gAttrs.ldc
  let alpha := gAttrs.alpha
  let beta := gAttrs.beta
  let broadcastHint := gAttrs.broadcastHint
  let matA := memRefmatA.allocatedPtr
  let matB := memRefmatB.allocatedPtr
  let matC := memRefmatC.allocatedPtr
  let matOut := memRefmatOut.allocatedPtr
  let heap := Function.update heap matOut
    (cblas_sgemm transposeA transposeB m n k alpha (heap matA) (max 1 lda) (heap matB)
      (max 1 ldb) 0 (heap matOut) (max 1 ldc))
  if broadcastHint = BroadcastType.ROW then
    let ones : List R := List.replicate m 1
    Except.ok (Function.update heap matOut
      (cblas_sgemm false false m n 1 beta (vector_data ones) 1 (heap matC) (max 1 n) 1
        (heap matOut) (max 1 ldc)))
  else if broadcastHint = BroadcastType.COLUMN then
    let ones : List R := List.replicate n 1
    Except.ok (Function.update heap matOut
      (cblas_sgemm false false m n 1 beta (heap matC) 1 (vector_data ones) (max 1 n) 1
        (heap matOut) (max 1 ldc)))
  else if broadcastHint = BroadcastType.ROWCOLUMN then
    let ones : List R := List.replicate m 1
    let bias : List R := List.replicate n (heap matC 0)
    Except.ok (Function.update heap matOut
      (cblas_sgemm false false m n 1 beta (vector_data ones) 1 (vector_data bias) (max 1 n) 1
        (heap matOut) (max 1 ldc)))
  else if broadcastHint = BroadcastType.NONE then
    let identity : List R := identity_vector n
    Except.ok (Function.update heap matOut
      (cblas_sgemm false false m n n beta (heap matC) (max 1 n) (vector_data identity)
        (max 1 n) 1 (heap matOut) (max 1 ldc)))
  else
    Except.error (Failure.unreachable "Unsupported broadcast")

/-- The matrix `op(X)` of a row-major contiguous operand stored in `buf`: the
`rows x cols` matrix stored in `buf` itself, or, when `trans` is set, the
transpose of the `cols x rows` matrix stored in `buf`. This is the reading of
the specification. -/
def op_matrix {R : Type} (trans : Bool) (rows cols : Nat) (buf : Nat → R) :
    Matrix (Fin rows) (Fin cols) R :=
  fun i j => if trans then buf (j.val * rows + i.val) else buf (i.val * cols + j.val)

/-- The rows of the row-major contiguous `rows x cols` matrix stored in `buf`. -/
def read_matrix {R : Type} (buf : Nat → R) (rows cols : Nat) : List (List R) :=
  (List.range rows).map (fun i => (List.range cols).map (fun j => buf (i * cols + j)))

/-- The memory of scenario B: `A = [[1,2,3],[4,5,6]]` at pointer 1,
`B = [[1,0],[0,1],[1,1]]` at pointer 2, the bias row `[1,1]` at pointer 3 and
the output buffer, with content `out0`, at pointer 4. -/
def scenario_B_heap (out0 : Nat → Int) : FloatHeap Int :=
  fun ptr =>
    if ptr = 1 then vector_data [1, 2, 3, 4, 5, 6]
    else if ptr = 2 then vector_data [1, 0, 0, 1, 1, 1]
    else if ptr = 3 then vector_data [1, 1]
    else out0

/-- The memref of a buffer pointer, for the GEMM callback (which reads only
the pointer). -/
def memref_at (ptr : Nat) : StaticMemRef := { allocatedPtr := ptr, shapeAndStrides := [] }

/-! ## Reading a trace -/

/-- The event is the execution of a reorder whose destination is a buffer of
the caller. -/
def is_output_reorder : Event → Bool
  | Event.execute PrimKind.reorder exec_args =>
    match exec_args.lookup Arg.DST with
    | some m =>
      match m.handle with
      | Buffer.caller _ => true
      | Buffer.engine _ => false
    | none => false
  | _ => false

/-- The event is the execution of a primitive of kind `k`. -/
def is_execute_of (k : PrimKind) : Event → Bool
  | Event.execute k2 _ => k2 == k
  | _ => false

/-- The event executes a primitive with buffer `b` in one of the argument
slots that a primitive writes (`DST`, `DIFF_SRC`, `WORKSPACE`). -/
def writes_to (b : Buffer) : Event → Bool
  | Event.execute _ exec_args =>
    exec_args.any (fun am =>
      (am.1 == Arg.DST || am.1 == Arg.DIFF_SRC || am.1 == Arg.WORKSPACE) && am.2.handle == b)
  | _ => false

/-- An event that belongs to the preparation of the execution of a primitive
of kind `k`: it is neither a reorder into a buffer of the caller nor an
execution of a primitive of kind `k`. -/
def side_event (k : PrimKind) (e : Event) : Prop :=
  is_output_reorder e = false ∧ is_execute_of k e = false

/-- A computation that records no event: when it returns, the state is the
one it started from. -/
def silent {α : Type} (m : Callback α) : Prop :=
  ∀ w a w', m w = Outcome.ok a w' → w' = w

/-- The events of one reorder from `src` into `dst`: the reorder primitive is
created, executed on the two memories, and the stream is waited for. -/
def reorder_events (src dst : memory) : List Event :=
  [Event.primitive PrimKind.reorder,
   Event.execute PrimKind.reorder [(Arg.SRC, src), (Arg.DST, dst)],
   Event.wait]

/-- The shape of the events of a callback whose primitive `k` delivers its
result in the argument slot `dst_arg`, for a caller's output buffer `out_ptr`
with origin descriptor `origin` and a primitive whose destination descriptor
is `natural`. The primitive is executed once, on a destination memory `dst`
of descriptor `natural`. If `origin` and `natural` are layout-equivalent for
`compare_mkldnn_md_formats`, `dst` is the caller's buffer and nothing follows
the execution. If they are not, `dst` is a buffer allocated by the engine, and
the execution is followed by one reorder from `dst` into the caller's buffer
under `origin`. Before the execution no reorder writes into a buffer of the
caller. -/
def output_negotiated (k : PrimKind) (dst_arg : Arg) (origin natural : mkldnn_memory_desc_t)
    (out_ptr : Nat) (events : List Event) : Prop :=
  ∃ (before : List Event) (exec_args : List (Arg × memory)) (dst : memory),
    (∀ e, e ∈ before → is_output_reorder e = false ∧ is_execute_of k e = false) ∧
    exec_args.lookup dst_arg = some dst ∧
    dst.desc = natural ∧
    (compare_mkldnn_md_formats origin natural = true →
      dst.handle = Buffer.caller out_ptr ∧
      events = before ++ [Event.execute k exec_args, Event.wait]) ∧
    (compare_mkldnn_md_formats origin natural = false →
      (∃ id, dst.handle = Buffer.engine id) ∧ Event.alloc dst ∈ before ∧
      events = before ++ [Event.execute k exec_args, Event.wait] ++
        reorder_events dst (memory_bind origin out_ptr))

/-- An engine that reports no error: it has a primitive descriptor for every
request and creates and executes every primitive. -/
def cooperative (eng : Engine) : Prop :=
  (∀ d relu, ∃ pd, eng.convolution_primitive_desc d relu = Except.ok pd) ∧
  (∀ d, ∃ pd, eng.pooling_forward_primitive_desc d = Except.ok pd) ∧
  (∀ d pd_f, ∃ pd, eng.pooling_backward_primitive_desc d pd_f = Except.ok pd) ∧
  (∀ a b, eng.reorder_create a b = Except.ok ()) ∧
  (∀ k exec_args, eng.execute k exec_args = Except.ok ())

/-- A computation that returns from every state, with a value that has the
property `P`. -/
def returns_with {α : Type} (P : α → Prop) (m : Callback α) : Prop :=
  ∀ w, ∃ a w', m w = Outcome.ok a w' ∧ P a

/-- Layout equivalence as the specification defines it: equal rank, equal
blocking structure, and strides that induce the same ordering of the
dimensions. -/
def layout_equivalent (a b : mkldnn_memory_desc_t) : Bool :=
  a.ndims == b.ndims &&
  a.blocking.inner_nblks == b.blocking.inner_nblks &&
  compare_mkldnn_dims a.blocking.inner_blks b.blocking.inner_blks a.blocking.inner_nblks &&
  compare_mkldnn_dims a.blocking.inner_idxs b.blocking.inner_idxs a.blocking.inner_nblks &&
  stride_order a.blocking.strides a.ndims == stride_order b.blocking.strides b.ndims

/-- The output side of the layout negotiation, read with the layout
equivalence of the specification: when the caller's origin output descriptor
is not layout-equivalent to the primitive's destination descriptor `natural`,
the events contain the allocation of a temporary buffer and the execution of a
reorder from it into the caller's output buffer under `origin`. -/
def output_reformatted (origin natural : mkldnn_memory_desc_t) (out_ptr : Nat)
    (events : List Event) : Prop :=
  layout_equivalent origin natural = false →
    ∃ tmp, Event.alloc tmp ∈ events ∧
      Event.execute PrimKind.reorder [(Arg.SRC, tmp), (Arg.DST, memory_bind origin out_ptr)]
        ∈ events

/-! ## Sample data for concrete runs -/

/-- The world a callback leaves, whether it returned or threw. -/
def final_world {α : Type} : Outcome α → World
  | Outcome.ok _ w => w
  | Outcome.fail _ w => w

/-- A blocked descriptor with one inner block of 8 on dimension 1, in the
manner of the `nChw8c` layout that MKL-DNN prefers for convolutions. -/
def blocked_8c (dims : mkldnn_dims_t) : mkldnn_memory_desc_t :=
  { ndims := dims.length
    dims := dims
    format_kind := mkldnn_format_kind_t.blocked
    blocking :=
      { strides := dense_strides dims, inner_nblks := 1, inner_blks := [8], inner_idxs := [1] } }

/-- An engine that reports no error. Its convolution prefers the layout
`blocked_8c` for data, weights and result; its pooling and softmax primitives
keep the descriptors they are given. -/
def sample_engine : Engine :=
  { conv_auto := false
    convolution_primitive_desc := fun cd _ =>
      Except.ok
        { src_desc := blocked_8c cd.src_desc.dims
          weights_desc := blocked_8c cd.weights_desc.dims
          bias_desc := desc_of_strides cd.bias_desc.dims [1]
          dst_desc := blocked_8c cd.dst_desc.dims }
    pooling_forward_primitive_desc := fun pd =>
      Except.ok { src_desc := pd.src_desc, dst_desc := pd.dst_desc, workspace_desc := pd.dst_desc }
    pooling_backward_primitive_desc := fun pd _ =>
      Except.ok { diff_src_desc := pd.src_desc, diff_dst_desc := pd.dst_desc }
    softmax_primitive_desc := fun sd =>
      Except.ok { src_desc := sd.data_desc, dst_desc := sd.data_desc }
    reorder_create := fun _ _ => Except.ok ()
    execute := fun _ _ => Except.ok () }

/-- Attributes of a 2-d call site: window 2x2, strides 1, no dilation, no
padding. -/
def sample_attrs : opAttrs Int :=
  { convAttrs1d :=
      { withRelu := false, windowStrides := [1], windowDilation := [1], padBelow := [0],
        padAbove := [0] }
    convAttrs2d :=
      { withRelu := true, windowStrides := [1, 1], windowDilation := [1, 1], padBelow := [0, 0],
        padAbove := [0, 0] }
    convAttrs3d :=
      { withRelu := false, windowStrides := [1, 1, 1], windowDilation := [1, 1, 1],
        padBelow := [0, 0, 0], padAbove := [0, 0, 0] }
    poolAttrs2d :=
      { includePaddingInAvgComputation := false, windowShape := [2, 2], windowStrides := [2, 2],
        padBelow := [0, 0], padAbove := [0, 0] }
    poolAttrs3d :=
      { includePaddingInAvgComputation := false, windowShape := [2, 2, 2],
        windowStrides := [2, 2, 2], padBelow := [0, 0, 0], padAbove := [0, 0, 0] }
    gemmAttrs2d :=
      { transposeA := false, transposeB := false, m := 2, n := 2, k := 3, lda := 3, ldb := 2,
        ldc := 2, alpha := 1, beta := 1, broadcastHint := BroadcastType.ROW }
    intAttr := 1 }

/-- The attributes `sample_attrs` with another broadcast hint at the GEMM
call site. -/
def sample_attrs_with (hint : BroadcastType) : opAttrs Int :=
  { sample_attrs with
    gemmAttrs2d := { sample_attrs.gemmAttrs2d with broadcastHint := hint } }

/-- A dense `1x8x4x4` tensor at address 100. -/
def sample_data : StaticMemRef :=
  { allocatedPtr := 100, shapeAndStrides := [1, 8, 4, 4, 128, 16, 4, 1] }

/-- A dense `8x8x3x3` tensor at address 200. -/
def sample_weights : StaticMemRef :=
  { allocatedPtr := 200, shapeAndStrides := [8, 8, 3, 3, 72, 9, 3, 1] }

/-- A vector of 8 elements at address 300. -/
def sample_bias : StaticMemRef :=
  { allocatedPtr := 300, shapeAndStrides := [8, 1] }

/-- A dense `1x8x2x2` tensor at address 400. -/
def sample_output : StaticMemRef :=
  { allocatedPtr := 400, shapeAndStrides := [1, 8, 2, 2, 32, 4, 2, 1] }

/-- A dense row-major `2x3` matrix at address 500. -/
def sample_row_major : StaticMemRef :=
  { allocatedPtr := 500, shapeAndStrides := [2, 3, 3, 1] }

/-- A dense column-major `2x3` matrix at address 600. -/
def sample_column_major : StaticMemRef :=
  { allocatedPtr := 600, shapeAndStrides := [2, 3, 1, 2] }

/-- A dense `1x8x4x4` tensor at address 700, the output of the backprop
callbacks for a source of the shape of `sample_data`. -/
def sample_diff_src : StaticMemRef :=
  { allocatedPtr := 700, shapeAndStrides := [1, 8, 4, 4, 128, 16, 4, 1] }

/-- The state before a callback: nothing allocated, nothing done. -/
def empty_world : World := { allocated := 0, trace := [] }

/-! ## The entry points of the native dispatch -/

/-- The attributes of a GEMM call site with `m = 1`, `n = 46341`, `k = 1`,
contiguous operands, `alpha = beta = 1` and a full bias matrix (`NONE`). -/
def large_gemm_attrs : opAttrs Int :=
  { sample_attrs with
    gemmAttrs2d :=
      { transposeA := false, transposeB := false, m := 1, n := 46341, k := 1, lda := 1,
        ldb := 46341, ldc := 46341, alpha := 1, beta := 1,
        broadcastHint := BroadcastType.NONE } }

/-- A memory whose buffer at pointer 3 (the bias) holds 1 everywhere and
whose other buffers hold 0. -/
def bias_of_ones_heap : FloatHeap Int := fun ptr _ => if ptr = 3 then 1 else 0

/-! ## Reading the requests made to the engine -/

/-- The failure is an exception that a statement of the callbacks throws (an
`ngraph_error`, or the check failure of `NGRAPH_UNREACHABLE`), as opposed to a
`mkldnn::error` that leaves the library and passes through the callback. -/
def thrown_by_callback : Failure → Bool
  | Failure.mkldnn_error _ => false
  | Failure.ngraph_error _ => true
  | Failure.unreachable _ => true

/-- The descriptor `mkldnn::memory::desc(dims, dtype, FORMAT::any)`. -/
def any_format_desc (dims : mkldnn_dims_t) : mkldnn_memory_desc_t :=
  { ndims := dims.length
    dims := dims
    format_kind := mkldnn_format_kind_t.any
    blocking := { strides := [], inner_nblks := 0, inner_blks := [], inner_idxs := [] } }

/-- The convolution attributes of a call site for tensors of the given rank:
the 1-d attributes for rank 3, the 2-d attributes for rank 4, the 3-d
attributes for rank 5. -/
def conv_attrs_of_rank {R : Type} (attrs : opAttrs R) (rank : Nat) : convAttrs :=
  if rank = 3 then attrs.convAttrs1d
  else if rank = 4 then attrs.convAttrs2d
  else attrs.convAttrs3d

/-- The convolution descriptor with which, by the specification, the
primitive descriptor of a convolution+bias of the given rank is asked for: the
four vectors have `rank - 2` components, taken one by one from the attributes
of the call site, the dilation being lowered by one. -/
def conv_request {R : Type} (eng : Engine) (getAttrs : Nat → opAttrs R) (rank : Nat)
    (memRefData memRefWeights memRefBias memRefOutput : StaticMemRef) (index : Nat) :
    convolution_desc :=
  { aprop_kind := prop_kind.forward_inference
    aalgorithm := get_conv_algo eng
    src_desc := any_format_desc (shape_of memRefData rank)
    weights_desc := any_format_desc (shape_of memRefWeights rank)
    bias_desc := any_format_desc [dims_at memRefBias.shapeAndStrides 0]
    dst_desc := any_format_desc (shape_of memRefOutput rank)
    strides := (List.range (rank - 2)).map
      (fun i => dims_at (conv_attrs_of_rank (getAttrs index) rank).windowStrides i)
    dilates := (List.range (rank - 2)).map
      (fun i => dims_at (conv_attrs_of_rank (getAttrs index) rank).windowDilation i - 1)
    padding_l := (List.range (rank - 2)).map
      (fun i => dims_at (conv_attrs_of_rank (getAttrs index) rank).padBelow i)
    padding_r := (List.range (rank - 2)).map
      (fun i => dims_at (conv_attrs_of_rank (getAttrs index) rank).padAbove i) }

/-- An engine like `sample_engine` whose convolution answers only the request
`request`, made with the flag `relu`, and refuses every other one. -/
def engine_answering_only (request : convolution_desc) (relu : Bool) : Engine :=
  { sample_engine with
    convolution_primitive_desc := fun cd r =>
      if cd = request ∧ r = relu then sample_engine.convolution_primitive_desc cd r
      else Except.error "unexpected request" }

/-! ## The graph and the opset-1 downgrade pass

A shallow embedding of `src/ngraph/pass/opset1_downgrade.cpp`. The node
classes, the table of operators `op_tbl.hpp` and `replace_node` belong to
parts of nGraph that are not among the sources; the table is a parameter, the
rest is modelled with what the pass reads and builds. -/

/-- A `Shape`: the extents of a tensor. -/
abbrev Shape := List Nat

/-- A `PartialShape`: of dynamic rank (`none`), or a list of dimensions each of
which is static (`some d`) or dynamic (`none`). -/
abbrev PartialShape := Option (List (Option Nat))

/-- The method `PartialShape::is_static`: the rank and every dimension are
static. -/
def is_static (pshape : PartialShape) : Bool :=
  match pshape with
  | none => false
  | some dims => dims.all (fun d => d.isSome)

/-- The method `PartialShape::to_shape`, called on static shapes only. -/
def to_shape (pshape : PartialShape) : Shape :=
  match pshape with
  | none => []
  | some dims => dims.map (fun d => d.getD 0)

/-- The partial shape of a static shape. -/
def static_pshape (shape : Shape) : PartialShape := some (shape.map some)

/-- An `Output<Node>`: a node of the graph, by its identifier, and the index
of one of its outputs. -/
structure Output where
  node : Nat
  index : Nat
deriving DecidableEq, Repr

/-- The padding modes `op::PadMode`. -/
inductive PadMode where
  | CONSTANT
  | EDGE
  | REFLECT
  | SYMMETRIC
deriving DecidableEq, Repr

/-- The operator of a node, with the attributes that the pass reads or sets.
`other` stands for a node of any further class, with its description, its
version and the partial shape of its output. -/
inductive Op where
  | Parameter
  | Constant (values : List Int)
  | Result
  | Pad_v0 (padding_below padding_above : List Int) (pad_mode : PadMode)
  | Pad_v1 (pads_begin pads_end : List Int) (pad_mode : PadMode)
  | Product_v0
  | ReduceProd_v1 (keep_dims : Bool)
  | Sum_v0
  | ReduceSum_v1 (keep_dims : Bool)
  | Reshape (input_order : List Nat) (output_shape : Shape)
  | other (description : String) (version : Nat)
deriving DecidableEq, Repr

/-- The method `Node::description`: the name of the operator. The version-1
classes `op::v1::Pad`, `op::v1::ReduceProd` and `op::v1::ReduceSum` carry the
names `Pad`, `Product` and `Sum` of their version-0 counterparts. -/
def Op.description : Op → String
  | Op.Parameter => "Parameter"
  | Op.Constant _ => "Constant"
  | Op.Result => "Result"
  | Op.Pad_v0 _ _ _ => "Pad"
  | Op.Pad_v1 _ _ _ => "Pad"
  | Op.Product_v0 => "Product"
  | Op.ReduceProd_v1 _ => "Product"
  | Op.Sum_v0 => "Sum"
  | Op.ReduceSum_v1 _ => "Sum"
  | Op.Reshape _ _ => "Reshape"
  | Op.other description _ => description

/-- The method `Node::get_version`. -/
def Op.get_version : Op → Nat
  | Op.Pad_v1 _ _ _ => 1
  | Op.ReduceProd_v1 _ => 1
  | Op.ReduceSum_v1 _ => 1
  | Op.other _ version => version
  | _ => 0

/-- A node: its operator, the sources of its inputs, and the partial shape
of its output (every operator here has one output), as the node computed it
when it was built. -/
structure Node where
  op : Op
  inputs : List Output
  output_pshape : PartialShape
deriving DecidableEq, Repr

/-- A graph: an arena of nodes addressed by identifier (the position in the
list). A slot is empty once its node has been taken out of the graph. -/
structure Graph where
  nodes : List (Option Node)
deriving DecidableEq, Repr

/-- The node with a given identifier, if it is in the graph. -/
def Graph.node (g : Graph) (id : Nat) : Option Node := (g.nodes.getD id none)

/-- The exceptions that leave the pass, one per site where the pass or a
function it calls throws. -/
inductive PassError where
  /-- `NGRAPH_CHECK(op_version == 1, "Op version 1 transformation pass failed
  for ", *node, ", only op version 1 operations expected. Op version ",
  op_version, " found.")`: the version mismatch. -/
  | op_version_check (node : Nat) (op_version : Nat)
  /-- `throw unsupported_op(...)` of `get_typeid`: the unsupported operator. -/
  | unsupported_op (what : String)
  /-- `NGRAPH_CHECK(tmp->reduction_axes_constant(), ...)`. -/
  | reduction_axes_not_constant (node : Nat)
  /-- `NGRAPH_CHECK(output_pshape.is_static(), ...)`: a static shape is
  required. -/
  | output_shape_dynamic (node : Nat)
  /-- `replace_node` on a result node. -/
  | result_replaced (node : Nat)
  /-- `node->input(i)` with no input `i`. -/
  | out_of_range
  /-- Use of a null pointer: the identifier is not a node of the graph, or a
  `dynamic_cast` gave no object of the expected class. -/
  | null_pointer
deriving DecidableEq, Repr

/-- The enumeration `OP_TYPEID`: the macro `NGRAPH_OP(a, b) a,` gives one
enumerator for every entry of `op_tbl.hpp`, named after the operator. -/
structure OP_TYPEID where
  name : String
deriving DecidableEq, Repr

/-- The enumerator `OP_TYPEID::Pad`. -/
def OP_TYPEID.Pad : OP_TYPEID := { name := "Pad" }

/-- The enumerator `OP_TYPEID::Product`. -/
def OP_TYPEID.Product : OP_TYPEID := { name := "Product" }

/-- The enumerator `OP_TYPEID::Sum`. -/
def OP_TYPEID.Sum : OP_TYPEID := { name := "Sum" }

/-- Source `typeid_map`: the macro `NGRAPH_OP(a, b) {#a, OP_TYPEID::a},`
gives one entry for every operator name of `op_tbl.hpp` (the parameter
`op_tbl`), from the name to the enumerator of that name. -/
def typeid_map (op_tbl : List String) : List (String × OP_TYPEID) :=
  op_tbl.map (fun a => (a, { name := a }))

/-- Source `get_typeid`. -/
def get_typeid (op_tbl : List String) (node : Node) : Except PassError OP_TYPEID :=
  match (typeid_map op_tbl).lookup node.op.description with
  | some type_id => Except.ok type_id
  | none => Except.error (PassError.unsupported_op ("Unsupported op '" ++ node.op.description ++ "'"))

/-- The expression `node->input(i).get_source_output()`. -/
def input_source (node : Node) (i : Nat) : Except PassError Output :=
  match node.inputs.get? i with
  | some o => Except.ok o
  | none => Except.error PassError.out_of_range

/-- The values of a constant as axes (`size_t`). -/
def axis_value (v : Int) : Nat := (v % 18446744073709551616).toNat

/-- Insertion into an `AxisSet` (a `std::set<size_t>`): the elements stay in
ascending order, without repetition. -/
def axis_set_insert (a : Nat) : List Nat → List Nat
  | [] => [a]
  | b :: bs =>
    if a < b then a :: b :: bs
    else if a = b then b :: bs
    else b :: axis_set_insert a bs

/-- The `AxisSet` of a vector of axes, listed in ascending order (the order
in which a range-based `for` visits it). -/
def axis_set (axes : List Nat) : List Nat :=
  axes.foldl (fun s a => axis_set_insert a s) []

/-- The constant that feeds input `i` of a node, if the source of that input
is a constant. -/
def constant_input (g : Graph) (node : Node) (i : Nat) : Option (List Int) :=
  match node.inputs.get? i with
  | none => none
  | some o =>
    match g.node o.node with
    | some { op := Op.Constant values, inputs := _, output_pshape := _ } => some values
    | _ => none

/-- The method `reduction_axes_constant` of a reduction: the source of input 1
is a constant. -/
def reduction_axes_constant (g : Graph) (node : Node) : Bool :=
  (constant_input g node 1).isSome

/-- The method `get_reduction_axes` of a reduction: the axes held by the
constant of input 1, empty when that input is not a constant. -/
def get_reduction_axes (g : Graph) (node : Node) : List Nat :=
  match constant_input g node 1 with
  | some values => axis_set (values.map axis_value)
  | none => []

/-- The partial shape of the source of an input. -/
def source_pshape (g : Graph) (o : Output) : PartialShape :=
  match g.node o.node with
  | some n => n.output_pshape
  | none => none

/-- Modelled from the spec: the shape that a reduction without kept
dimensions infers for its output (its shape inference is not among the
sources). The reduced axes are taken out of the shape of the data; the shape is
dynamic when the rank of the data is dynamic or the axes are not constant. -/
def infer_reduction (data : PartialShape) (axes : Option (List Nat)) : PartialShape :=
  match data, axes with
  | some dims, some reduction_axes =>
    some (((List.range dims.length).filter (fun i => !reduction_axes.contains i)).map
      (fun i => (dims.getD i none)))
  | _, _ => none

/-- Modelled from the spec: the shape that a version-0 padding infers for its
output (its shape inference is not among the sources): every extent of the
data grows by the padding below and the padding above of its axis. -/
def infer_pad (data : PartialShape) (padding_below padding_above : List Int) : PartialShape :=
  match data with
  | some dims =>
    some ((List.range dims.length).map (fun i =>
      match dims.getD i none with
      | some d => some ((padding_below.getD i 0 + (d : Int) + padding_above.getD i 0).toNat)
      | none => none))
  | none => none

/-- The partial shape that a node built by the pass computes for its output,
from its operator and the sources of its inputs. -/
def infer_output_pshape (g : Graph) (op : Op) (inputs : List Output) : PartialShape :=
  let data : PartialShape :=
    match inputs.get? 0 with
    | some o => source_pshape g o
    | none => none
  let probe : Node := { op := op, inputs := inputs, output_pshape := none }
  let axes : Option (List Nat) :=
    if reduction_axes_constant g probe then some (get_reduction_axes g probe) else none
  match op with
  | Op.Pad_v0 padding_below padding_above _ => infer_pad data padding_below padding_above
  | Op.Product_v0 => infer_reduction data axes
  | Op.Sum_v0 => infer_reduction data axes
  | Op.ReduceProd_v1 false => infer_reduction data axes
  | Op.ReduceSum_v1 false => infer_reduction data axes
  | Op.Reshape _ output_shape => static_pshape output_shape
  | _ => none

/-- The call `make_shared<Class>(inputs..., attributes...)`: a node is built,
computes the shape of its output, and gets the next free identifier. It is not
yet used by any node. Construction is taken to succeed (the node that the pass
replaces went through the same validation). -/
def make_node (g : Graph) (op : Op) (inputs : List Output) : Graph × Nat :=
  ({ nodes := g.nodes ++
      [some { op := op, inputs := inputs, output_pshape := infer_output_pshape g op inputs }] },
   g.nodes.length)

/-- The redirection of the inputs of a node from the outputs of `target` to
the outputs of `replacement` of the same index. -/
def redirect (target replacement : Nat) (n : Node) : Node :=
  { n with
    inputs := n.inputs.map (fun o =>
      if o.node = target then { node := replacement, index := o.index } else o) }

/-- Modelled from the spec: `replace_node(target, replacement)` of
`graph_util` (not among the sources). Every reference to an output of
`target` is redirected to the output of `replacement` of the same index, and
`target` leaves the graph. A result node cannot be replaced. -/
def replace_node (g : Graph) (target replacement : Nat) : Except PassError Graph :=
  match g.node target with
  | none => Except.error PassError.null_pointer
  | some t =>
    if t.op = Op.Result then Except.error (PassError.result_replaced target)
    else
      Except.ok
        { nodes := (g.nodes.map (fun slot => slot.map (redirect target replacement))).set
            target none }

/-- The call `reshaped_output_shape.insert(reshaped_output_shape.begin() +
axis, 1)`, for an axis that is not beyond the end of the vector. -/
def vector_insert (v : Shape) (axis : Nat) (value : Nat) : Shape :=
  v.take axis ++ value :: v.drop axis

/-- The function `get_default_order`: the axes `0, 1, ..., rank - 1`. -/
def get_default_order (shape : Shape) : List Nat := List.range shape.length

/-- Source `pass::Opset1Downgrade::run_on_node`, on the node `node` of the
graph `g`. It returns the flag `modified` and the graph after the call, or
throws. -/
def run_on_node (op_tbl : List String) (g : Graph) (node : Nat) :
    Except PassError (Bool × Graph) :=
  match g.node node with
  | none => Except.error PassError.null_pointer
  | some n =>
    let modified := false
    let op_version := n.op.get_version
    if op_version = 0 then Except.ok (modified, g)
    else if op_version ≠ 1 then Except.error (PassError.op_version_check node op_version)
    else do
      let type_id ← get_typeid op_tbl n
      if type_id = OP_TYPEID.Pad then
        match n.op with
        | Op.Pad_v1 pads_begin pads_end pad_mode => do
          let input0 ← input_source n 0
          let input3 ← input_source n 3
          let (g1, replacement_node) :=
            make_node g (Op.Pad_v0 pads_begin pads_end pad_mode) [input0, input3]
          let g2 ← replace_node g1 node replacement_node
          pure (true, g2)
        | _ => Except.error PassError.null_pointer
      else if type_id = OP_TYPEID.Product then do
        let input0 ← input_source n 0
        let input1 ← input_source n 1
        let (g1, replacement_node) := make_node g Op.Product_v0 [input0, input1]
        match n.op with
        | Op.ReduceProd_v1 keep_dims =>
          if keep_dims then
            if !reduction_axes_constant g n then
              Except.error (PassError.reduction_axes_not_constant node)
            else
              let output_pshape := source_pshape g1 { node := replacement_node, index := 0 }
              if !is_static output_pshape then
                Except.error (PassError.output_shape_dynamic node)
              else do
                let output_shape := to_shape output_pshape
                let reshaped_output_shape :=
                  (get_reduction_axes g n).foldl (fun shape axis => vector_insert shape axis 1)
                    output_shape
                let (g2, reshaped_product) :=
                  make_node g1 (Op.Reshape (get_default_order output_shape) reshaped_output_shape)
                    [{ node := replacement_node, index := 0 }]
                let g3 ← replace_node g2 node reshaped_product
                pure (true, g3)
          else do
            let g2 ← replace_node g1 node replacement_node
            pure (true, g2)
        | _ => Except.error PassError.null_pointer
      else if type_id = OP_TYPEID.Sum then do
        let keep_dims := false
        let input0 ← input_source n 0
        let input1 ← input_source n 1
        let (g1, replacement_node) := make_node g (Op.ReduceSum_v1 keep_dims) [input0, input1]
        let g2 ← replace_node g1 node replacement_node
        pure (true, g2)
      else
        Except.ok (modified, g)

/-- How a call of the pass leaves: it returns a value or throws, and in both
cases the graph is the one that the call leaves behind, with every splice that
was made before the exit. -/
inductive PassOutcome (α : Type) where
  | ok (a : α) (g : Graph)
  | fail (e : PassError) (g : Graph)

/-- What the caller of the pass gets: the value and the graph, or the
exception alone. -/
def PassOutcome.to_except {α : Type} : PassOutcome α → Except PassError (α × Graph)
  | PassOutcome.ok a g => Except.ok (a, g)
  | PassOutcome.fail e _ => Except.error e

/-- A call that can throw, made while the graph is `g`: the rest `k` runs on
its value, or its exception leaves the pass with the graph `g`. -/
def try_at {α β : Type} (g : Graph) (r : Except PassError α) (k : α → PassOutcome β) :
    PassOutcome β :=
  match r with
  | Except.ok a => k a
  | Except.error e => PassOutcome.fail e g

/-- Source `pass::Opset1Downgrade::run_on_node` as a step on the graph `g`
that holds the node `node`: the same statements as `run_on_node`, with the
graph at the exit kept also when the call throws. A node that the call has
built and not spliced in (`make_shared` without `replace_node`) is in the
arena at the exit, in the place of no node. -/
def Opset1Downgrade.run_on_node (op_tbl : List String) (node : Nat) (g : Graph) :
    PassOutcome Bool :=
  match g.node node with
  | none => PassOutcome.fail PassError.null_pointer g
  | some n =>
    let modified := false
    let op_version := n.op.get_version
    if op_version = 0 then PassOutcome.ok modified g
    else if op_version ≠ 1 then
      PassOutcome.fail (PassError.op_version_check node op_version) g
    else
      try_at g (get_typeid op_tbl n) (fun type_id =>
        if type_id = OP_TYPEID.Pad then
          match n.op with
          | Op.Pad_v1 pads_begin pads_end pad_mode =>
            try_at g (input_source n 0) (fun input0 =>
              try_at g (input_source n 3) (fun input3 =>
                let (g1, replacement_node) :=
                  make_node g (Op.Pad_v0 pads_begin pads_end pad_mode) [input0, input3]
                try_at g1 (replace_node g1 node replacement_node) (fun g2 =>
                  PassOutcome.ok true g2)))
          | _ => PassOutcome.fail PassError.null_pointer g
        else if type_id = OP_TYPEID.Product then
          try_at g (input_source n 0) (fun input0 =>
            try_at g (input_source n 1) (fun input1 =>
              let (g1, replacement_node) := make_node g Op.Product_v0 [input0, input1]
              match n.op with
              | Op.ReduceProd_v1 keep_dims =>
                if keep_dims then
                  if !reduction_axes_constant g n then
                    PassOutcome.fail (PassError.reduction_axes_not_constant node) g1
                  else
                    let output_pshape :=
                      source_pshape g1 { node := replacement_node, index := 0 }
                    if !is_static output_pshape then
                      PassOutcome.fail (PassError.output_shape_dynamic node) g1
                    else
                      let output_shape := to_shape output_pshape
                      let reshaped_output_shape :=
                        (get_reduction_axes g n).foldl
                          (fun shape axis => vector_insert shape axis 1) output_shape
                      let (g2, reshaped_product) :=
                        make_node g1
                          (Op.Reshape (get_default_order output_shape) reshaped_output_shape)
                          [{ node := replacement_node, index := 0 }]
                      try_at g2 (replace_node g2 node reshaped_product) (fun g3 =>
                        PassOutcome.ok true g3)
                else
                  try_at g1 (replace_node g1 node replacement_node) (fun g2 =>
                    PassOutcome.ok true g2)
              | _ => PassOutcome.fail PassError.null_pointer g1))
        else if type_id = OP_TYPEID.Sum then
          let keep_dims := false
          try_at g (input_source n 0) (fun input0 =>
            try_at g (input_source n 1) (fun input1 =>
              let (g1, replacement_node) :=
                make_node g (Op.ReduceSum_v1 keep_dims) [input0, input1]
              try_at g1 (replace_node g1 node replacement_node) (fun g2 =>
                PassOutcome.ok true g2)))
        else
          PassOutcome.ok modified g)

/-- The identifiers of the nodes of a graph. -/
def node_ids (g : Graph) : List Nat :=
  (List.range g.nodes.length).filter (fun id => (g.node id).isSome)

/-- The pass on a list of nodes, one after the other: the flags that
`run_on_node` returned and the graph at the end. -/
def run_on_nodes (op_tbl : List String) : List Nat → Graph → Except PassError (List Bool × Graph)
  | [], g => Except.ok ([], g)
  | node :: rest, g => do
    let (modified, g1) ← run_on_node op_tbl g node
    let (flags, g2) ← run_on_nodes op_tbl rest g1
    pure (modified :: flags, g2)

/-- Modelled from the spec: the pass on a graph (the pass manager that calls
`run_on_node` is not among the sources). It walks every node that the graph
holds when the pass starts. -/
def downgrade (op_tbl : List String) (g : Graph) : Except PassError (List Bool × Graph) :=
  run_on_nodes op_tbl (node_ids g) g

/-- The nodes that a call has added to the graph `g`, in the graph `g'` after
the call: the replacement subgraph. -/
def added_nodes (g g' : Graph) : List (Option Node) := g'.nodes.drop g.nodes.length

/-! ### Sample graphs -/

/-- A table of operators with the three operators of the pass and two
others. -/
def sample_op_tbl : List String := ["Pad", "Product", "Sum", "VariadicSplit", "Reshape"]

/-- The graph of scenario C: a parameter of the given partial shape (node 0),
the constant axes `[1]` (node 1), a version-1 reduce-sum with `keep_dims` set
and output shape `output` over them (node 2), and a result (node 3). -/
def scenario_C_graph (input output : PartialShape) : Graph :=
  { nodes :=
      [some { op := Op.Parameter, inputs := [], output_pshape := input },
       some { op := Op.Constant [1], inputs := [], output_pshape := static_pshape [1] },
       some { op := Op.ReduceSum_v1 true
              inputs := [{ node := 0, index := 0 }, { node := 1, index := 0 }]
              output_pshape := output },
       some { op := Op.Result, inputs := [{ node := 2, index := 0 }], output_pshape := output }] }

/-- The graph of scenario C with a reduce-product in the place of the
reduce-sum. -/
def product_graph (input output : PartialShape) : Graph :=
  { nodes :=
      [some { op := Op.Parameter, inputs := [], output_pshape := input },
       some { op := Op.Constant [1], inputs := [], output_pshape := static_pshape [1] },
       some { op := Op.ReduceProd_v1 true
              inputs := [{ node := 0, index := 0 }, { node := 1, index := 0 }]
              output_pshape := output },
       some { op := Op.Result, inputs := [{ node := 2, index := 0 }], output_pshape := output }] }

/-- A graph with a version-1 node of an operator that the pass does not
translate: a parameter (node 0), a constant axis (node 1), constant lengths
(node 2), a version-1 `VariadicSplit` over them (node 3) and a result
(node 4). -/
def variadic_split_graph : Graph :=
  { nodes :=
      [some { op := Op.Parameter, inputs := [], output_pshape := static_pshape [2, 6] },
       some { op := Op.Constant [1], inputs := [], output_pshape := static_pshape [] },
       some { op := Op.Constant [2, 4], inputs := [], output_pshape := static_pshape [2] },
       some { op := Op.other "VariadicSplit" 1
              inputs := [{ node := 0, index := 0 }, { node := 1, index := 0 },
                { node := 2, index := 0 }]
              output_pshape := static_pshape [2, 2] },
       some { op := Op.Result, inputs := [{ node := 3, index := 0 }]
              output_pshape := static_pshape [2, 2] }] }

/-- A graph with a node of a version that is neither 0 nor 1: a parameter
(node 0), a node named `Pad` of version 2 over it (node 1) and a result. -/
def version_2_graph : Graph :=
  { nodes :=
      [some { op := Op.Parameter, inputs := [], output_pshape := static_pshape [2, 3] },
       some { op := Op.other "Pad" 2, inputs := [{ node := 0, index := 0 }]
              output_pshape := static_pshape [2, 3] },
       some { op := Op.Result, inputs := [{ node := 1, index := 0 }]
              output_pshape := static_pshape [2, 3] }] }

/-- A graph with a version-1 node whose name is in no table: a parameter
(node 0), a version-1 node named `Frobnicate` over it (node 1) and a
result. -/
def unregistered_graph : Graph :=
  { nodes :=
      [some { op := Op.Parameter, inputs := [], output_pshape := static_pshape [2, 3] },
       some { op := Op.other "Frobnicate" 1, inputs := [{ node := 0, index := 0 }]
              output_pshape := static_pshape [2, 3] },
       some { op := Op.Result, inputs := [{ node := 1, index := 0 }]
              output_pshape := static_pshape [2, 3] }] }

/-- A graph of version-0 nodes only: a parameter, constant axes, a version-0
sum over them and a result. -/
def version_0_graph : Graph :=
  { nodes :=
      [some { op := Op.Parameter, inputs := [], output_pshape := static_pshape [2, 3] },
       some { op := Op.Constant [1], inputs := [], output_pshape := static_pshape [1] },
       some { op := Op.Sum_v0
              inputs := [{ node := 0, index := 0 }, { node := 1, index := 0 }]
              output_pshape := static_pshape [2] },
       some { op := Op.Result, inputs := [{ node := 2, index := 0 }]
              output_pshape := static_pshape [2] }] }

/-- The graph of `product_graph` for the shapes `{2,3}` and `{2,1}` after the
pass has run on its reduce-product: a version-0 product (node 4) followed by a
reshape to `{2,1}` (node 5), which feeds the result. -/
def downgraded_product_graph : Graph :=
  { nodes :=
      [some { op := Op.Parameter, inputs := [], output_pshape := static_pshape [2, 3] },
       some { op := Op.Constant [1], inputs := [], output_pshape := static_pshape [1] },
       none,
       some { op := Op.Result, inputs := [{ node := 5, index := 0 }]
              output_pshape := static_pshape [2, 1] },
       some { op := Op.Product_v0
              inputs := [{ node := 0, index := 0 }, { node := 1, index := 0 }]
              output_pshape := static_pshape [2] },
       some { op := Op.Reshape [0] [2, 1], inputs := [{ node := 4, index := 0 }]
              output_pshape := static_pshape [2, 1] }] }

/-! ## The interpreter backend

A shallow embedding of `src/ngraph/runtime/interpreter/int_backend.cpp`. The
archive reader `cpio::Reader` and the class `INTExecutable` are not among the
sources: the reader is given by what its two methods return, and the
constructor of the executable from a serialized model is a parameter. -/

/-- An entry of an archive as `cpio::FileInfo` describes it: its name and
where its content lies in the stream. -/
structure FileInfo where
  name : String
  offset : Nat
  size : Nat
deriving DecidableEq, Repr

/-- A `cpio::Reader` on a stream: the entries that `get_file_info` lists, in
the order of the archive, and the content that `read` returns for an entry,
as the string that `string(buffer.data(), buffer.size())` makes of it. -/
structure Reader where
  file_info : List FileInfo
  read : FileInfo → String

/-- The loop `for (const cpio::FileInfo& info : file_info) if (info.get_name()
== name) { ...; break; }`: the entry for which the body runs, the first one of
that name. -/
def first_named (name : String) : List FileInfo → Option FileInfo
  | [] => none
  | info :: rest => if info.name = name then some info else first_named name rest

/-- A run of `load`: the entries it has read, the serialized models it has
passed to the constructor of `INTExecutable`, and what it returns: a pointer
to an executable, the null pointer (`none`), or the exception that left it. -/
structure LoadRun (E X : Type) where
  reads : List FileInfo
  constructions : List String
  exec : Except E (Option X)

/-- Source `runtime::interpreter::INTBackend::load`. The parameter
`INTExecutable` is the constructor `INTExecutable(model_string)`, which gives
an executable or throws. -/
def INTBackend.load {E X : Type} (INTExecutable : String → Except E X) (reader : Reader) :
    LoadRun E X :=
  let file_info := reader.file_info
  let found := first_named "save_info" file_info
  let save_info : String :=
    match found with
    | some info => reader.read info
    | none => ""
  let reads : List FileInfo :=
    match found with
    | some info => [info]
    | none => []
  if save_info = "INTERPRETER Save File 1.0" then
    match first_named "model" file_info with
    | some info =>
      let model_string := reader.read info
      { reads := reads ++ [info]
        constructions := [model_string]
        exec := (INTExecutable model_string).map some }
    | none => { reads := reads, constructions := [], exec := Except.ok none }
  else
    { reads := reads, constructions := [], exec := Except.ok none }

/-- The class `INTBackend`: its member `m_unsupported_op_name_list`, a
`std::set<std::string>`, given by the names it holds. -/
structure INTBackend where
  m_unsupported_op_name_list : List String
deriving DecidableEq, Repr

/-- Source constructor `INTBackend::INTBackend()`: the set of names is
empty. -/
def INTBackend.INTBackend_default : INTBackend := { m_unsupported_op_name_list := [] }

/-- Source constructor `INTBackend::INTBackend(const vector<string>&)`: the
set of names is built from the range of the vector. -/
def INTBackend.INTBackend_list (unsupported_op_name_list : List String) : INTBackend :=
  { m_unsupported_op_name_list := unsupported_op_name_list }

/-- Source `runtime::interpreter::INTBackend::is_supported`: the name of the
operator of the node is not found in the set. -/
def INTBackend.is_supported (this : INTBackend) (node : Node) : Bool :=
  !(this.m_unsupported_op_name_list.contains node.op.description)

/-! ### Sample archives -/

/-- A constructor of executables for the samples: the executable is the
serialized model it was built from, and the text `garbage` cannot be
deserialized. -/
def sample_INTExecutable (model_string : String) : Except String String :=
  if model_string = "garbage" then Except.error "deserialization failed"
  else Except.ok model_string

/-- The content of the sample archives: the entry at offset 0 holds the
marker of the interpreter, the entry at offset 1 another marker, the entries
at offsets 2 and 3 two models, the entry at offset 4 a model that cannot be
deserialized. -/
def sample_read (info : FileInfo) : String :=
  match info.offset with
  | 0 => "INTERPRETER Save File 1.0"
  | 1 => "CPU Save File 1.0"
  | 2 => "first model"
  | 3 => "second model"
  | 4 => "garbage"
  | _ => ""

/-- An archive with the marker and two models, and a second marker entry. -/
def sample_archive : Reader :=
  { file_info :=
      [{ name := "save_info", offset := 0, size := 25 },
       { name := "model", offset := 2, size := 11 },
       { name := "save_info", offset := 1, size := 17 },
       { name := "model", offset := 3, size := 12 }]
    read := sample_read }

/-- An archive with no entry named `save_info`. -/
def archive_without_marker : Reader :=
  { file_info := [{ name := "model", offset := 2, size := 11 }]
    read := sample_read }

/-- An archive whose marker is that of another backend. -/
def archive_with_other_marker : Reader :=
  { file_info :=
      [{ name := "save_info", offset := 1, size := 17 },
       { name := "model", offset := 2, size := 11 }]
    read := sample_read }

/-- An archive with the marker and no entry named `model`. -/
def archive_without_model : Reader :=
  { file_info := [{ name := "save_info", offset := 0, size := 25 }]
    read := sample_read }

/-- An archive with the marker and a model that cannot be deserialized. -/
def archive_with_garbage : Reader :=
  { file_info :=
      [{ name := "save_info", offset := 0, size := 25 },
       { name := "model", offset := 4, size := 7 }]
    read := sample_read }

/-- A graph with a version-1 `Pad`: a parameter of shape `{2,3}` (node 0), the
constants of `pads_begin`, `pads_end` and of the pad value (nodes 1, 2, 3), the
version-1 `Pad` over them (node 4) and a result (node 5). -/
def pad_graph : Graph :=
  { nodes :=
      [some { op := Op.Parameter, inputs := [], output_pshape := static_pshape [2, 3] },
       some { op := Op.Constant [1, 0], inputs := [], output_pshape := static_pshape [2] },
       some { op := Op.Constant [0, 1], inputs := [], output_pshape := static_pshape [2] },
       some { op := Op.Constant [0], inputs := [], output_pshape := static_pshape [] },
       some { op := Op.Pad_v1 [1, 0] [0, 1] PadMode.CONSTANT
              inputs := [{ node := 0, index := 0 }, { node := 1, index := 0 },
                { node := 2, index := 0 }, { node := 3, index := 0 }]
              output_pshape := static_pshape [3, 4] },
       some { op := Op.Result, inputs := [{ node := 4, index := 0 }]
              output_pshape := static_pshape [3, 4] }] }

/-- A graph with a version-1 reduce-product whose axes are not constant: two
parameters (nodes 0 and 1), the reduce-product with `keep_dims` as given over
them (node 2) and a result (node 3). -/
def product_of_parameter_axes_graph (keep_dims : Bool) : Graph :=
  { nodes :=
      [some { op := Op.Parameter, inputs := [], output_pshape := static_pshape [2, 3] },
       some { op := Op.Parameter, inputs := [], output_pshape := static_pshape [1] },
       some { op := Op.ReduceProd_v1 keep_dims
              inputs := [{ node := 0, index := 0 }, { node := 1, index := 0 }]
              output_pshape := none },
       some { op := Op.Result, inputs := [{ node := 2, index := 0 }], output_pshape := none }] }

/-- The shape `S` with the axes of `removed` taken out and the extent 1 at
the axes of `ones`: what the reshaped output shape of the reduce-product case
holds while the axes are inserted (a notion of the proofs, not a function of
the source). -/
def partial_keep_dims (S : Shape) (ones removed : List Nat) : Shape :=
  ((List.range S.length).filter (fun i => !removed.contains i)).map
    (fun i => if i ∈ ones then 1 else S.getD i 0)

/-! ## Evaluation of a graph on concrete inputs

The kernels of the interpreter are not among the sources; the reductions and
the reshape are evaluated here as the specification describes them, to compare
a node with what the pass puts in its place. -/

/-- A concrete tensor: its shape and its elements in row-major order. -/
structure Tensor where
  shape : Shape
  data : List Int
deriving DecidableEq, Repr

/-- The coordinates of the elements of a shape, in row-major order. -/
def coordinates : Shape → List (List Nat)
  | [] => [[]]
  | n :: rest => (List.range n).flatMap (fun i => (coordinates rest).map (fun c => i :: c))

/-- Modelled from the spec: the reduction of a tensor over a set of axes by
the operation `f` (the reduction kernels and the shape inference of the
reductions are not among the sources). An element of the output gathers the
elements of the input that agree with it outside the reduced axes. With
`keep_dims` the reduced axes stay in the output shape with extent 1; without
it they are taken out of the shape. -/
def reduce (f : Int → Int → Int) (init : Int) (keep_dims : Bool) (axes : List Nat)
    (arg : Tensor) : Tensor :=
  let rank := arg.shape.length
  let kept := (List.range rank).filter (fun i => !axes.contains i)
  let out_shape : Shape :=
    if keep_dims then
      (List.range rank).map (fun i => if axes.contains i then 1 else arg.shape.getD i 0)
    else kept.map (fun i => arg.shape.getD i 0)
  let project : List Nat → List Nat := fun c =>
    if keep_dims then (List.range rank).map (fun i => if axes.contains i then 0 else c.getD i 0)
    else kept.map (fun i => c.getD i 0)
  let entries := (coordinates arg.shape).zip arg.data
  { shape := out_shape
    data := (coordinates out_shape).map (fun oc =>
      ((entries.filter (fun e => project e.1 == oc)).map (fun e => e.2)).foldl f init) }

/-- Modelled from the spec: the value of an output of a graph on concrete
values of its parameters (the interpreter is not among the sources), for the
operators that the reduce cases of the pass read and build: parameters,
constants, sums and products of both versions, and the reshape in default
order. The recursion follows the inputs for at most `fuel` nodes. -/
def evaluate (g : Graph) (parameters : Nat → Option Tensor) : Nat → Output → Option Tensor
  | 0, _ => none
  | fuel + 1, o =>
    match g.node o.node with
    | none => none
    | some n =>
      let args := n.inputs.map (evaluate g parameters fuel)
      match n.op, args with
      | Op.Parameter, _ => parameters o.node
      | Op.Constant values, _ => some { shape := to_shape n.output_pshape, data := values }
      | Op.Sum_v0, [some data, some axes] =>
        some (reduce (fun x y => x + y) 0 false (axis_set (axes.data.map axis_value)) data)
      | Op.ReduceSum_v1 keep_dims, [some data, some axes] =>
        some (reduce (fun x y => x + y) 0 keep_dims (axis_set (axes.data.map axis_value)) data)
      | Op.Product_v0, [some data, some axes] =>
        some (reduce (fun x y => x * y) 1 false (axis_set (axes.data.map axis_value)) data)
      | Op.ReduceProd_v1 keep_dims, [some data, some axes] =>
        some (reduce (fun x y => x * y) 1 keep_dims (axis_set (axes.data.map axis_value)) data)
      | Op.Reshape input_order output_shape, [some data] =>
        if input_order = List.range data.shape.length then
          some { shape := output_shape, data := data.data }
        else none
      | _, _ => none

/-- The value that a result node of a graph receives: the value of the source
of its input. -/
def evaluate_result (g : Graph) (parameters : Nat → Option Tensor) (fuel : Nat) (result : Nat) :
    Option Tensor :=
  match g.node result with
  | some { op := Op.Result, inputs := [o], output_pshape := _ } => evaluate g parameters fuel o
  | _ => none

/-- The concrete input of the samples: the tensor `[[1,2,3],[4,5,6]]` for
the parameter of node 0. -/
def sample_parameters (node : Nat) : Option Tensor :=
  if node = 0 then some { shape := [2, 3], data := [1, 2, 3, 4, 5, 6] } else none

/-! ## Theorems -/

/-! ### Layout equivalence -/

theorem compare_mkldnn_dims_loop_iff (arr1 arr2 : mkldnn_dims_t) (todo : Nat) :
    ∀ i, compare_mkldnn_dims_loop arr1 arr2 i todo = true ↔
      ∀ j, j < todo → dims_at arr1 (i + j) = dims_at arr2 (i + j) := by
  induction todo with
  | zero => intro i; simp [compare_mkldnn_dims_loop]
  | succ n ih =>
    intro i
    simp only [compare_mkldnn_dims_loop]
    by_cases h : dims_at arr1 i = dims_at arr2 i
    · simp only [h, bne_self_eq_false, Bool.false_eq_true, if_false, ih]
      constructor
      · intro hall j hj
        cases j with
        | zero => simpa using h
        | succ j =>
          have := hall j (by omega)
          simpa [Nat.add_assoc, Nat.add_comm 1 j] using this
      · intro hall j hj
        have := hall (j + 1) (by omega)
        simpa [Nat.add_assoc, Nat.add_comm 1 j] using this
    · have hne : (dims_at arr1 i != dims_at arr2 i) = true := by simpa using h
      simp only [hne, if_true, Bool.false_eq_true, false_iff]
      intro hall
      exact h (by simpa using hall 0 (by omega))

theorem compare_mkldnn_dims_iff (arr1 arr2 : mkldnn_dims_t) (size : Nat) :
    compare_mkldnn_dims arr1 arr2 size = true ↔
      ∀ j, j < size → dims_at arr1 j = dims_at arr2 j := by
  simpa [compare_mkldnn_dims] using compare_mkldnn_dims_loop_iff arr1 arr2 size 0

theorem compare_indices_loop_self (indices : List Nat) (todo : Nat) :
    ∀ i, compare_indices_loop indices indices i todo = true := by
  induction todo with
  | zero => intro i; rfl
  | succ n ih => intro i; simp [compare_indices_loop, ih]

theorem std_sort_empty_range (v : List Nat) (comp : Nat → Nat → Bool) :
    std_sort v 0 0 comp = v := by
  simp [std_sort, sort_by]

/-- As written, with both sorts over an empty range, the stride comparison
accepts every pair of stride vectors. -/
theorem compare_mkldnn_strides_order_eq_true (strides1 strides2 : mkldnn_dims_t) (size : Nat) :
    compare_mkldnn_strides_order strides1 strides2 size = true := by
  simp [compare_mkldnn_strides_order, std_sort_empty_range, compare_indices_loop_self]

/-- What `compare_mkldnn_md_formats` decides: both descriptors are blocked, of
the same number of dimensions and of the same blocking structure. -/
theorem compare_mkldnn_md_formats_iff (a b : mkldnn_memory_desc_t) :
    compare_mkldnn_md_formats a b = true ↔
      a.format_kind = mkldnn_format_kind_t.blocked ∧
      b.format_kind = mkldnn_format_kind_t.blocked ∧
      a.ndims = b.ndims ∧ same_blocking a.blocking b.blocking := by
  simp only [compare_mkldnn_md_formats, same_blocking, compare_mkldnn_strides_order_eq_true]
  by_cases hk : a.format_kind = b.format_kind
  · by_cases hb : a.format_kind = mkldnn_format_kind_t.blocked
    · by_cases hn : a.ndims = b.ndims
      · by_cases hi : a.blocking.inner_nblks = b.blocking.inner_nblks
        · have hb2 : b.format_kind = mkldnn_format_kind_t.blocked := hk ▸ hb
          simp [hk, hb2, hn, hi, compare_mkldnn_dims_iff, forall_and, imp_and]
        · simp [hk, hb, hn, hi]
      · simp [hk, hb, hn]
    · simp [hk, hb]
      intro h; exact absurd (hk.trans h) hb
  · simp [hk]
    intro h1 h2; exact absurd (h1.trans h2.symm) hk

/-- Scaling a stride vector by a positive factor keeps the ordering of
dimensions it induces. -/
theorem stride_order_scale (strides : mkldnn_dims_t) (c : Int) (hc : 0 < c) (size : Nat) :
    stride_order (strides.map (fun s => c * s)) size = stride_order strides size := by
  have hat : ∀ i, dims_at (strides.map (fun s => c * s)) i = c * dims_at strides i := by
    intro i
    simp only [dims_at, List.getD_eq_getElem?_getD, List.getElem?_map]
    cases strides[i]? <;> simp
  have hlt : (fun n1 n2 => decide (dims_at (strides.map (fun s => c * s)) n1 <
        dims_at (strides.map (fun s => c * s)) n2)) =
      (fun n1 n2 => decide (dims_at strides n1 < dims_at strides n2)) := by
    funext n1 n2
    rw [hat, hat]
    congr 1
    exact propext (mul_lt_mul_left hc)
  simp only [stride_order, hlt]

/-- C1 (the code at the failing input): the strides `[6,1]` and `[1,6]` induce
different orderings of the two dimensions, yet `compare_mkldnn_md_formats`
returns true on the two descriptors. -/
theorem C1_transposed_strides_accepted :
    stride_order [6, 1] 2 ≠ stride_order [1, 6] 2 ∧
    compare_mkldnn_md_formats (desc_of_strides [6, 6] [6, 1]) (desc_of_strides [6, 6] [1, 6])
      = true := by
  decide

/-- C2: for blocked descriptors of equal rank and equal blocking structure
whose stride vectors induce the same ordering of the dimensions,
`compare_mkldnn_md_formats` returns true, whatever the absolute stride values. -/
theorem C2_same_order_equivalent (a b : mkldnn_memory_desc_t)
    (hka : a.format_kind = mkldnn_format_kind_t.blocked)
    (hkb : b.format_kind = mkldnn_format_kind_t.blocked)
    (hnd : a.ndims = b.ndims)
    (hblk : same_blocking a.blocking b.blocking)
    (_hord : stride_order a.blocking.strides a.ndims = stride_order b.blocking.strides b.ndims) :
    compare_mkldnn_md_formats a b = true :=
  (compare_mkldnn_md_formats_iff a b).mpr ⟨hka, hkb, hnd, hblk⟩

/-- C2 at the strides `[6,1]` and `[600,100]`. -/
theorem C2_same_order_equivalent_witness :
    stride_order [6, 1] 2 = stride_order [600, 100] 2 ∧
    compare_mkldnn_md_formats (desc_of_strides [4, 6] [6, 1])
      (desc_of_strides [4, 6] [600, 100]) = true :=
  ⟨by decide,
   C2_same_order_equivalent (desc_of_strides [4, 6] [6, 1]) (desc_of_strides [4, 6] [600, 100])
     rfl rfl rfl ⟨rfl, fun i hi => absurd hi (Nat.not_lt_zero i)⟩ (by decide)⟩

/-- C3 (counterexample): a descriptor of format kind `any` is not
layout-equivalent to itself. -/
theorem C3_not_reflexive_on_any :
    compare_mkldnn_md_formats
      { ndims := 2, dims := [2, 3], format_kind := mkldnn_format_kind_t.any,
        blocking := { strides := [], inner_nblks := 0, inner_blks := [], inner_idxs := [] } }
      { ndims := 2, dims := [2, 3], format_kind := mkldnn_format_kind_t.any,
        blocking := { strides := [], inner_nblks := 0, inner_blks := [], inner_idxs := [] } }
      = false := by
  decide

/-- C3 (amended): `compare_mkldnn_md_formats d d` is true exactly for the
descriptors `d` of the blocked format kind, of any rank and blocking; for
every other format kind it is false. -/
theorem C3_reflexive_iff_blocked (d : mkldnn_memory_desc_t) :
    compare_mkldnn_md_formats d d = true ↔ d.format_kind = mkldnn_format_kind_t.blocked := by
  rw [compare_mkldnn_md_formats_iff]
  constructor
  · intro h; exact h.1
  · intro h; exact ⟨h, h, rfl, rfl, fun _ _ => ⟨rfl, rfl⟩⟩

/-! ### Running the callbacks -/

theorem bind_ok_iff {α β : Type} (m : Callback α) (f : α → Callback β) (w w' : World) (b : β) :
    (m >>= f) w = Outcome.ok b w' ↔
      ∃ a w1, m w = Outcome.ok a w1 ∧ f a w1 = Outcome.ok b w' := by
  show (match m w with
    | Outcome.ok a w1 => f a w1
    | Outcome.fail e w1 => Outcome.fail e w1) = _ ↔ _
  cases h : m w with
  | ok a w1 =>
    constructor
    · intro hf; exact ⟨a, w1, rfl, hf⟩
    · rintro ⟨a2, w2, h2, hf⟩
      cases h2; exact hf
  | fail e w1 => simp

theorem pure_ok_iff {α : Type} (a b : α) (w w' : World) :
    (pure a : Callback α) w = Outcome.ok b w' ↔ a = b ∧ w = w' := by
  show Outcome.ok a w = _ ↔ _
  simp

theorem rethrow_ok_iff {α : Type} (what : String) (body : Callback α) (w w' : World) (a : α) :
    rethrow what body w = Outcome.ok a w' ↔ body w = Outcome.ok a w' := by
  unfold rethrow
  cases h : body w with
  | ok a1 w1 => simp
  | fail e w1 => cases e <;> simp

theorem engine_call_ok_iff {α : Type} (r : Except String α) (w w' : World) (a : α) :
    engine_call r w = Outcome.ok a w' ↔ r = Except.ok a ∧ w = w' := by
  cases r with
  | ok a1 => simp [engine_call, pure_ok_iff]
  | error e => simp [engine_call, throw_failure]

theorem emit_ok_iff (e : Event) (w w' : World) (u : Unit) :
    emit e w = Outcome.ok u w' ↔ { w with trace := w.trace ++ [e] } = w' := by
  simp [emit]

theorem memory_alloc_ok_iff (desc : mkldnn_memory_desc_t) (w w' : World) (m : memory) :
    memory_alloc desc w = Outcome.ok m w' ↔
      m = { desc := desc, handle := Buffer.engine w.allocated } ∧
      w' = { allocated := w.allocated + 1,
             trace := w.trace ++
               [Event.alloc { desc := desc, handle := Buffer.engine w.allocated }] } := by
  simp [memory_alloc, eq_comm]

theorem primitive_create_ok_iff {α : Type} (k : PrimKind) (pd : Option α) (w w' : World) (d : α) :
    primitive_create k pd w = Outcome.ok d w' ↔
      pd = some d ∧ w' = { w with trace := w.trace ++ [Event.primitive k] } := by
  cases pd with
  | none => simp [primitive_create, throw_failure]
  | some d0 =>
    simp only [primitive_create, bind_ok_iff, emit_ok_iff, pure_ok_iff, Option.some.injEq]
    constructor
    · rintro ⟨_, w1, h1, h2, h3⟩
      exact ⟨h2, by rw [← h3, ← h1]⟩
    · rintro ⟨h1, h2⟩
      exact ⟨(), _, rfl, h1, h2.symm⟩

theorem primitive_execute_ok_iff (eng : Engine) (k : PrimKind) (exec_args : List (Arg × memory))
    (w w' : World) (u : Unit) :
    primitive_execute eng k exec_args w = Outcome.ok u w' ↔
      eng.execute k exec_args = Except.ok () ∧
      w' = { w with trace := w.trace ++ [Event.execute k exec_args] } := by
  simp only [primitive_execute, bind_ok_iff, engine_call_ok_iff, emit_ok_iff]
  constructor
  · rintro ⟨_, w1, ⟨h1, h2⟩, h3⟩
    exact ⟨h1, by rw [← h3, ← h2]⟩
  · rintro ⟨h1, h2⟩
    exact ⟨(), w, ⟨h1, rfl⟩, h2.symm⟩

theorem stream_wait_ok_iff (w w' : World) (u : Unit) :
    stream_wait w = Outcome.ok u w' ↔ w' = { w with trace := w.trace ++ [Event.wait] } := by
  simp only [stream_wait, emit_ok_iff]
  exact eq_comm

theorem run_reorder_ok_iff (eng : Engine) (src dst : memory) (w w' : World) (u : Unit) :
    (do
      engine_call (eng.reorder_create src.desc dst.desc)
      emit (Event.primitive PrimKind.reorder)
      rethrow "Could not run mkdnn primitive " (do
        primitive_execute eng PrimKind.reorder [(Arg.SRC, src), (Arg.DST, dst)]
        stream_wait) : Callback Unit) w = Outcome.ok u w' ↔
      eng.reorder_create src.desc dst.desc = Except.ok () ∧
      eng.execute PrimKind.reorder [(Arg.SRC, src), (Arg.DST, dst)] = Except.ok () ∧
      w' = { w with trace := w.trace ++ reorder_events src dst } := by
  simp only [bind_ok_iff, engine_call_ok_iff, emit_ok_iff, rethrow_ok_iff,
    primitive_execute_ok_iff, stream_wait_ok_iff, reorder_events]
  constructor
  · rintro ⟨_, w1, ⟨h1, h2⟩, _, w2, h3, _, w3, ⟨h4, h5⟩, h6⟩
    subst h2 h3 h5 h6
    exact ⟨h1, h4, by simp⟩
  · rintro ⟨h1, h2, h3⟩
    exact ⟨(), w, ⟨h1, rfl⟩, (), _, rfl, (), _, ⟨h2, rfl⟩, by simp [h3]⟩

theorem convert_output_layout_ok_iff (eng : Engine) (reorder_in : memory)
    (rhs : mkldnn_memory_desc_t) (ptr : Nat) (w w' : World) (u : Unit) :
    convert_output_layout eng reorder_in rhs ptr w = Outcome.ok u w' ↔
      eng.reorder_create reorder_in.desc rhs = Except.ok () ∧
      eng.execute PrimKind.reorder [(Arg.SRC, reorder_in), (Arg.DST, memory_bind rhs ptr)]
        = Except.ok () ∧
      w' = { w with trace := w.trace ++ reorder_events reorder_in (memory_bind rhs ptr) } := by
  exact run_reorder_ok_iff eng reorder_in (memory_bind rhs ptr) w w' u

theorem convert_layout_if_diff_ok_iff (eng : Engine) (lhs rhs : mkldnn_memory_desc_t)
    (ptr : Nat) (w w' : World) (m : memory) :
    convert_layout_if_diff eng lhs rhs ptr w = Outcome.ok m w' ↔
      (compare_mkldnn_md_formats lhs rhs = true ∧ m = memory_bind lhs ptr ∧ w' = w) ∨
      (compare_mkldnn_md_formats lhs rhs = false ∧
        eng.reorder_create lhs rhs = Except.ok () ∧
        eng.execute PrimKind.reorder
          [(Arg.SRC, memory_bind lhs ptr),
           (Arg.DST, { desc := rhs, handle := Buffer.engine w.allocated })] = Except.ok () ∧
        m = { desc := rhs, handle := Buffer.engine w.allocated } ∧
        w' = { allocated := w.allocated + 1
               trace := w.trace ++
                 Event.alloc { desc := rhs, handle := Buffer.engine w.allocated } ::
                 reorder_events (memory_bind lhs ptr)
                   { desc := rhs, handle := Buffer.engine w.allocated } }) := by
  unfold convert_layout_if_diff
  cases hc : compare_mkldnn_md_formats lhs rhs with
  | true =>
    simp only [Bool.not_true, Bool.false_eq_true, if_false, pure_ok_iff]
    constructor
    · rintro ⟨h1, h2⟩; exact Or.inl ⟨trivial, h1.symm, h2.symm⟩
    · rintro (⟨_, h1, h2⟩ | ⟨h0, _⟩)
      · exact ⟨h1.symm, h2.symm⟩
      · exact absurd h0 (by decide)
  | false =>
    simp only [Bool.not_false, if_true, bind_ok_iff, memory_alloc_ok_iff, pure_ok_iff,
      engine_call_ok_iff, emit_ok_iff, rethrow_ok_iff, primitive_execute_ok_iff,
      stream_wait_ok_iff, reorder_events, memory_bind]
    constructor
    · rintro ⟨m0, w0, ⟨hm0, hw0⟩, _, w1, ⟨h1, h2⟩, _, w2, h3, _, w3, ⟨_, w4, ⟨h4, h5⟩, h6⟩,
        h7, h8⟩
      subst hm0 hw0 h2 h3 h5 h6 h7 h8
      exact Or.inr ⟨trivial, h1, h4, rfl, by simp⟩
    · rintro (⟨h0, _⟩ | ⟨_, h1, h2, h3, h4⟩)
      · exact absurd h0 (by decide)
      · subst h3 h4
        exact ⟨_, _, ⟨rfl, rfl⟩, (), _, ⟨h1, rfl⟩, (), _, rfl, (), _, ⟨(), _, ⟨h2, rfl⟩, rfl⟩,
          rfl, by simp⟩

theorem silent_pure {α : Type} (a : α) : silent (pure a : Callback α) := by
  intro w b w' h
  exact ((pure_ok_iff a b w w').mp h).2.symm

theorem silent_engine_call {α : Type} (r : Except String α) : silent (engine_call r) := by
  intro w b w' h
  exact ((engine_call_ok_iff r w w' b).mp h).2.symm

theorem silent_rethrow {α : Type} (what : String) (body : Callback α) (hb : silent body) :
    silent (rethrow what body) := by
  intro w b w' h
  exact hb w b w' ((rethrow_ok_iff what body w w' b).mp h)

theorem silent_bind {α β : Type} (m : Callback α) (f : α → Callback β) (hm : silent m)
    (hf : ∀ a, silent (f a)) : silent (m >>= f) := by
  intro w b w' h
  obtain ⟨a, w1, h1, h2⟩ := (bind_ok_iff m f w w' b).mp h
  have e1 := hm w a w1 h1
  subst e1
  exact hf a w1 b w' h2

theorem silent_ite {α : Type} (c : Prop) [Decidable c] (m1 m2 : Callback α) (h1 : silent m1)
    (h2 : silent m2) : silent (if c then m1 else m2) := by
  by_cases hc : c
  · simpa [hc] using h1
  · simpa [hc] using h2

theorem convert_layout_if_diff_trace (eng : Engine) (lhs rhs : mkldnn_memory_desc_t) (ptr : Nat)
    (w w' : World) (m : memory) (k : PrimKind) (hk : k ≠ PrimKind.reorder)
    (h : convert_layout_if_diff eng lhs rhs ptr w = Outcome.ok m w') :
    ∃ evs, w'.trace = w.trace ++ evs ∧ ∀ e, e ∈ evs → side_event k e := by
  rcases (convert_layout_if_diff_ok_iff eng lhs rhs ptr w w' m).mp h with
    ⟨_, _, hw⟩ | ⟨_, _, _, _, hw⟩
  · exact ⟨[], by simp [hw], by simp⟩
  · refine ⟨_, by rw [hw], ?_⟩
    intro e he
    simp only [reorder_events, List.mem_cons, List.mem_singleton, List.not_mem_nil,
      or_false] at he
    have hk2 : (PrimKind.reorder == k) = false := by
      cases k <;> first | rfl | exact absurd rfl hk
    rcases he with rfl | rfl | rfl | rfl <;>
      simp [side_event, is_output_reorder, is_execute_of, List.lookup, hk2,
        show (Arg.DST == Arg.SRC) = false from rfl]

/-- The end of a callback with output negotiation: the destination memory is
chosen, the primitive is executed, and the result is reordered when needed. -/
theorem output_tail_negotiated (eng : Engine) (k : PrimKind) (dst_arg : Arg)
    (origin natural : mkldnn_memory_desc_t) (out_ptr : Nat)
    (exec_args : List (Arg × memory)) (before0 mid : List Event) (t0 : List Event)
    (p : memory × Bool) (w4 w5 w6 w' : World)
    (hpre : w4.trace = t0 ++ before0)
    (hside0 : ∀ e, e ∈ before0 → side_event k e)
    (hdecide : (if (!compare_mkldnn_md_formats origin natural) = true then
        (do
          let out ← memory_alloc natural
          pure (out, true))
        else pure (memory_bind natural out_ptr, false) : Callback (memory × Bool)) w4
        = Outcome.ok p w5)
    (hargs : exec_args.lookup dst_arg = some p.1)
    (hmid : ∀ e, e ∈ mid → side_event k e)
    (hexec : w6.trace = w5.trace ++ mid ++ [Event.execute k exec_args, Event.wait])
    (hconv : (if p.2 = true then convert_output_layout eng p.1 origin out_ptr
        else pure PUnit.unit) w6 = Outcome.ok () w') :
    ∃ events, w'.trace = t0 ++ events ∧
      output_negotiated k dst_arg origin natural out_ptr events := by
  cases hc : compare_mkldnn_md_formats origin natural with
  | true =>
    simp only [hc, Bool.not_true, Bool.false_eq_true, if_false, pure_ok_iff] at hdecide
    obtain ⟨hp, hw5⟩ := hdecide
    subst hp hw5
    simp only [Bool.false_eq_true, if_false, pure_ok_iff, true_and] at hconv
    subst hconv
    refine ⟨before0 ++ mid ++ [Event.execute k exec_args, Event.wait], ?_, ?_⟩
    · rw [hexec, hpre]; simp
    · refine ⟨before0 ++ mid, exec_args, memory_bind natural out_ptr, ?_, hargs, rfl, ?_, ?_⟩
      · intro e he
        rcases List.mem_append.mp he with h1 | h1
        · exact hside0 e h1
        · exact hmid e h1
      · intro _; exact ⟨rfl, rfl⟩
      · intro hf
        rw [hc] at hf
        exact absurd hf (by decide)
  | false =>
    simp only [hc, Bool.not_false, if_true, bind_ok_iff, memory_alloc_ok_iff,
      pure_ok_iff] at hdecide
    obtain ⟨out, w5b, ⟨hout, hw5b⟩, hp, hw5⟩ := hdecide
    subst hp hw5 hw5b
    simp only [if_true, convert_output_layout_ok_iff] at hconv
    obtain ⟨_, _, hw'⟩ := hconv
    refine ⟨before0 ++ [Event.alloc out] ++ mid ++ [Event.execute k exec_args, Event.wait] ++
      reorder_events out (memory_bind origin out_ptr), ?_, ?_⟩
    · rw [hw', hexec]; simp [hpre, hout]
    · refine ⟨before0 ++ [Event.alloc out] ++ mid, exec_args, out, ?_, hargs, by rw [hout],
        ?_, ?_⟩
      · intro e he
        rcases List.mem_append.mp he with h1 | h1
        · rcases List.mem_append.mp h1 with h2 | h2
          · exact hside0 e h2
          · rw [List.mem_singleton.mp h2]
            exact ⟨rfl, rfl⟩
        · exact hmid e h1
      · intro ht
        rw [hc] at ht
        exact absurd ht (by decide)
      · intro _
        refine ⟨⟨w4.allocated, by rw [hout]⟩, by simp, rfl⟩

theorem silent_apply {α : Type} {m : Callback α} (hs : silent m) {w w' : World} {a : α}
    (h : m w = Outcome.ok a w') : w' = w :=
  hs w a w' h

theorem execute_wait_ok_iff (eng : Engine) (what : String) (k : PrimKind)
    (exec_args : List (Arg × memory)) (w w' : World) (u : Unit) :
    rethrow what (do
      primitive_execute eng k exec_args
      stream_wait) w = Outcome.ok u w' ↔
    eng.execute k exec_args = Except.ok () ∧
    w' = { w with trace := w.trace ++ [Event.execute k exec_args, Event.wait] } := by
  simp only [rethrow_ok_iff, bind_ok_iff, primitive_execute_ok_iff, stream_wait_ok_iff]
  constructor
  · rintro ⟨_, w1, ⟨h1, h2⟩, h3⟩
    subst h2 h3
    exact ⟨h1, by simp⟩
  · rintro ⟨h1, h2⟩
    exact ⟨(), _, ⟨h1, rfl⟩, by simp [h2]⟩

theorem convbias_output_negotiated {R : Type} (eng : Engine) (getAttrs : Nat → opAttrs R)
    (rank : Nat) (memRefData memRefWeights memRefBias memRefOutput : StaticMemRef) (index : Nat)
    (w w' : World)
    (h : __mlir_mkldnn_convbias eng getAttrs rank memRefData memRefWeights memRefBias
      memRefOutput index w = Outcome.ok () w') :
    (rank = 3 ∨ rank = 4 ∨ rank = 5) ∧
    ∃ pd,
      eng.convolution_primitive_desc
          (conv_request eng getAttrs rank memRefData memRefWeights memRefBias memRefOutput index)
          (conv_attrs_of_rank (getAttrs index) rank).withRelu = Except.ok pd ∧
      ∃ events, w'.trace = w.trace ++ events ∧
        output_negotiated PrimKind.convolution_forward Arg.DST
          (desc_of_strides (shape_of memRefOutput rank) (strides_of memRefOutput rank))
          pd.dst_desc memRefOutput.allocatedPtr events := by
  simp only [__mlir_mkldnn_convbias, bind_ok_iff, engine_call_ok_iff,
    primitive_create_ok_iff, execute_wait_ok_iff] at h
  obtain ⟨d1, w1, ⟨hd1, rfl⟩, d2, w2, ⟨hd2, rfl⟩, d3, w3, ⟨hd3, rfl⟩, d4, w4, ⟨hd4, rfl⟩,
    opd, w5, hpd, pd, w6, ⟨hsome, hw6⟩, data, w7, hdata, weights, w8, hweights, p, w9,
    hdecide, u, w10, ⟨-, hw10⟩, hconv⟩ := h
  have hw5 : w5 = w := by
    refine silent_apply ?_ hpd
    repeat' first
      | apply silent_ite
      | apply silent_rethrow
      | apply silent_bind
      | apply silent_pure
      | apply silent_engine_call
      | intro _
  subst hw5
  simp only [desc_of_tag, Except.ok.injEq] at hd1 hd2 hd3 hd4
  subst hd1 hd2 hd3 hd4 hsome
  have hans : (rank = 3 ∨ rank = 4 ∨ rank = 5) ∧
      eng.convolution_primitive_desc
        (conv_request eng getAttrs rank memRefData memRefWeights memRefBias memRefOutput index)
        (conv_attrs_of_rank (getAttrs index) rank).withRelu = Except.ok pd := by
    by_cases h3 : rank = 3
    · subst h3
      simp only [beq_self_eq_true, if_true, rethrow_ok_iff, bind_ok_iff, engine_call_ok_iff,
        pure_ok_iff, Option.some.injEq] at hpd
      obtain ⟨pd1, w1, ⟨hans, -⟩, hpd1, -⟩ := hpd
      subst hpd1
      refine ⟨Or.inl rfl, ?_⟩
      simpa [conv_request, conv_attrs_of_rank, any_format_desc, List.range_succ] using hans
    · by_cases h4 : rank = 4
      · subst h4
        simp only [beq_self_eq_true, if_true, rethrow_ok_iff, bind_ok_iff, engine_call_ok_iff,
          pure_ok_iff, Option.some.injEq, show ((4 : Nat) == 3) = false from rfl,
          Bool.false_eq_true, if_false] at hpd
        obtain ⟨pd1, w1, ⟨hans, -⟩, hpd1, -⟩ := hpd
        subst hpd1
        refine ⟨Or.inr (Or.inl rfl), ?_⟩
        simpa [conv_request, conv_attrs_of_rank, any_format_desc, List.range_succ] using hans
      · by_cases h5 : rank = 5
        · subst h5
          simp only [beq_self_eq_true, if_true, rethrow_ok_iff, bind_ok_iff,
            engine_call_ok_iff, pure_ok_iff, Option.some.injEq,
            show ((5 : Nat) == 3) = false from rfl, show ((5 : Nat) == 4) = false from rfl,
            Bool.false_eq_true, if_false] at hpd
          obtain ⟨pd1, w1, ⟨hans, -⟩, hpd1, -⟩ := hpd
          subst hpd1
          refine ⟨Or.inr (Or.inr rfl), ?_⟩
          simpa [conv_request, conv_attrs_of_rank, any_format_desc, List.range_succ]
            using hans
        · have e3 : (rank == 3) = false := by simpa using h3
          have e4 : (rank == 4) = false := by simpa using h4
          have e5 : (rank == 5) = false := by simpa using h5
          simp only [e3, e4, e5, Bool.false_eq_true, if_false, pure_ok_iff] at hpd
          exact absurd hpd.1 (by simp)
  refine ⟨hans.1, pd, hans.2, ?_⟩
  obtain ⟨evs1, ht7, hs1⟩ := convert_layout_if_diff_trace eng _ _ _ _ _ _
    PrimKind.convolution_forward (by decide) hdata
  obtain ⟨evs2, ht8, hs2⟩ := convert_layout_if_diff_trace eng _ _ _ _ _ _
    PrimKind.convolution_forward (by decide) hweights
  refine output_tail_negotiated eng PrimKind.convolution_forward Arg.DST _ _ _
    [(Arg.SRC, data), (Arg.WEIGHTS, weights),
     (Arg.BIAS, memory_bind pd.bias_desc memRefBias.allocatedPtr), (Arg.DST, p.1)]
    ([Event.primitive PrimKind.convolution_forward] ++ evs1 ++ evs2) [] w5.trace p w8 w9 w10 w'
    ?_ ?_ hdecide ?_ ?_ ?_ hconv
  · rw [ht8, ht7, hw6]; simp
  · intro e he
    rcases List.mem_append.mp he with h1 | h1
    · rcases List.mem_append.mp h1 with h2 | h2
      · rw [List.mem_singleton.mp h2]; exact ⟨rfl, rfl⟩
      · exact hs1 e h2
    · exact hs2 e h1
  · rfl
  · intro e he; exact absurd he (List.not_mem_nil e)
  · rw [hw10]; simp

theorem pooling_output_negotiated {R : Type} (eng : Engine) (getAttrs : Nat → opAttrs R)
    (rank : Nat) (memRefInput memRefOutput : StaticMemRef) (index : Nat) (type : OpType)
    (w w' : World)
    (h : __mlir_mkldnn_pooling eng getAttrs rank memRefInput memRefOutput index type w
      = Outcome.ok () w') :
    (rank = 4 ∨ rank = 5) ∧
    ∃ request pd, eng.pooling_forward_primitive_desc request = Except.ok pd ∧
      ∃ events, w'.trace = w.trace ++ events ∧
        output_negotiated PrimKind.pooling_forward Arg.DST
          (desc_of_strides (shape_of memRefOutput rank) (strides_of memRefOutput rank))
          pd.dst_desc memRefOutput.allocatedPtr events := by
  simp only [__mlir_mkldnn_pooling, bind_ok_iff, engine_call_ok_iff,
    primitive_create_ok_iff, execute_wait_ok_iff] at h
  obtain ⟨d1, w1, ⟨-, rfl⟩, d2, w2, ⟨-, rfl⟩, opd, w5, hpd,
    pd, w6, ⟨hsome, hw6⟩, input, w7, hinput, p, w9, hdecide, u, w10,
    ⟨-, hw10⟩, hconv⟩ := h
  have hw5 : w5 = w := by
    refine silent_apply ?_ hpd
    repeat' first
      | apply silent_ite
      | apply silent_rethrow
      | apply silent_bind
      | apply silent_pure
      | apply silent_engine_call
      | intro _
  subst hw5 hsome
  have hans : (rank = 4 ∨ rank = 5) ∧
      ∃ request, eng.pooling_forward_primitive_desc request = Except.ok pd := by
    by_cases h4 : rank = 4
    · subst h4
      simp only [beq_self_eq_true, if_true, rethrow_ok_iff, bind_ok_iff, engine_call_ok_iff,
        pure_ok_iff, Option.some.injEq] at hpd
      obtain ⟨pd1, w1, ⟨hans, -⟩, hpd1, -⟩ := hpd
      subst hpd1
      exact ⟨Or.inl rfl, _, hans⟩
    · by_cases h5 : rank = 5
      · subst h5
        simp only [beq_self_eq_true, if_true, rethrow_ok_iff, bind_ok_iff, engine_call_ok_iff,
          pure_ok_iff, Option.some.injEq, show ((5 : Nat) == 4) = false from rfl,
          Bool.false_eq_true, if_false] at hpd
        obtain ⟨pd1, w1, ⟨hans, -⟩, hpd1, -⟩ := hpd
        subst hpd1
        exact ⟨Or.inr rfl, _, hans⟩
      · have e4 : (rank == 4) = false := by simpa using h4
        have e5 : (rank == 5) = false := by simpa using h5
        simp only [e4, e5, Bool.false_eq_true, if_false, pure_ok_iff] at hpd
        exact absurd hpd.1 (by simp)
  obtain ⟨hrank, request, hrequest⟩ := hans
  refine ⟨hrank, request, pd, hrequest, ?_⟩
  obtain ⟨evs1, ht7, hs1⟩ := convert_layout_if_diff_trace eng _ _ _ _ _ _
    PrimKind.pooling_forward (by decide) hinput
  refine output_tail_negotiated eng PrimKind.pooling_forward Arg.DST _ _ _
    [(Arg.SRC, input), (Arg.DST, p.1)]
    ([Event.primitive PrimKind.pooling_forward] ++ evs1) [] w5.trace p w7 w9 w10 w'
    ?_ ?_ hdecide ?_ ?_ ?_ hconv
  · rw [ht7, hw6]; simp
  · intro e he
    rcases List.mem_append.mp he with h2 | h2
    · rw [List.mem_singleton.mp h2]; exact ⟨rfl, rfl⟩
    · exact hs1 e h2
  · rfl
  · intro e he; exact absurd he (List.not_mem_nil e)
  · rw [hw10]; simp

theorem avgpoolbackprop_output_negotiated {R : Type} (eng : Engine) (getAttrs : Nat → opAttrs R)
    (rank : Nat) (memRefInput memRefOutput : StaticMemRef) (index : Nat)
    (w w' : World)
    (h : __mlir_mkldnn_avgpoolbackprop eng getAttrs rank memRefInput memRefOutput index w
      = Outcome.ok () w') :
    (rank = 4 ∨ rank = 5) ∧
    ∃ request_f request_b pd_f pd,
      eng.pooling_forward_primitive_desc request_f = Except.ok pd_f ∧
      eng.pooling_backward_primitive_desc request_b pd_f = Except.ok pd ∧
      ∃ events, w'.trace = w.trace ++ events ∧
        output_negotiated PrimKind.pooling_backward Arg.DIFF_SRC
          (desc_of_strides (shape_of memRefOutput rank) (strides_of memRefOutput rank))
          pd.diff_src_desc memRefOutput.allocatedPtr events := by
  simp only [__mlir_mkldnn_avgpoolbackprop, bind_ok_iff, engine_call_ok_iff,
    primitive_create_ok_iff, execute_wait_ok_iff] at h
  obtain ⟨d1, w1, ⟨-, rfl⟩, d2, w2, ⟨-, rfl⟩, opd, w5, hpd,
    pd, w6, ⟨hsome, hw6⟩, input, w7, hinput, p, w9, hdecide, u, w10,
    ⟨-, hw10⟩, hconv⟩ := h
  have hw5 : w5 = w := by
    refine silent_apply ?_ hpd
    repeat' first
      | apply silent_ite
      | apply silent_rethrow
      | apply silent_bind
      | apply silent_pure
      | apply silent_engine_call
      | intro _
  subst hw5 hsome
  have hans : (rank = 4 ∨ rank = 5) ∧
      ∃ request_f request_b pd_f,
        eng.pooling_forward_primitive_desc request_f = Except.ok pd_f ∧
        eng.pooling_backward_primitive_desc request_b pd_f = Except.ok pd := by
    by_cases h4 : rank = 4
    · subst h4
      simp only [beq_self_eq_true, if_true, rethrow_ok_iff, bind_ok_iff, engine_call_ok_iff,
        pure_ok_iff, Option.some.injEq] at hpd
      obtain ⟨pd_f, w1, ⟨hf, -⟩, pd1, w2, ⟨hb, -⟩, hpd1, -⟩ := hpd
      subst hpd1
      exact ⟨Or.inl rfl, _, _, pd_f, hf, hb⟩
    · by_cases h5 : rank = 5
      · subst h5
        simp only [beq_self_eq_true, if_true, rethrow_ok_iff, bind_ok_iff, engine_call_ok_iff,
          pure_ok_iff, Option.some.injEq, show ((5 : Nat) == 4) = false from rfl,
          Bool.false_eq_true, if_false] at hpd
        obtain ⟨pd_f, w1, ⟨hf, -⟩, pd1, w2, ⟨hb, -⟩, hpd1, -⟩ := hpd
        subst hpd1
        exact ⟨Or.inr rfl, _, _, pd_f, hf, hb⟩
      · have e4 : (rank == 4) = false := by simpa using h4
        have e5 : (rank == 5) = false := by simpa using h5
        simp only [e4, e5, Bool.false_eq_true, if_false, pure_ok_iff] at hpd
        exact absurd hpd.1 (by simp)
  obtain ⟨hrank, request_f, request_b, pd_f, hf, hb⟩ := hans
  refine ⟨hrank, request_f, request_b, pd_f, pd, hf, hb, ?_⟩
  obtain ⟨evs1, ht7, hs1⟩ := convert_layout_if_diff_trace eng _ _ _ _ _ _
    PrimKind.pooling_backward (by decide) hinput
  refine output_tail_negotiated eng PrimKind.pooling_backward Arg.DIFF_SRC _ _ _
    [(Arg.DIFF_DST, input), (Arg.DIFF_SRC, p.1)]
    ([Event.primitive PrimKind.pooling_backward] ++ evs1) [] w5.trace p w7 w9 w10 w'
    ?_ ?_ hdecide ?_ ?_ ?_ hconv
  · rw [ht7, hw6]; simp
  · intro e he
    rcases List.mem_append.mp he with h2 | h2
    · rw [List.mem_singleton.mp h2]; exact ⟨rfl, rfl⟩
    · exact hs1 e h2
  · rfl
  · intro e he; exact absurd he (List.not_mem_nil e)
  · rw [hw10]; simp

theorem maxpoolbackprop_output_negotiated {R : Type} (eng : Engine)
    (getAttrs : Nat → opAttrs R) (rank : Nat) (memRefSrc memRefDelta memRefOutput : StaticMemRef)
    (index : Nat) (w w' : World)
    (h : __mlir_mkldnn_maxpoolbackprop eng getAttrs rank memRefSrc memRefDelta memRefOutput
      index w = Outcome.ok () w') :
    (rank = 4 ∨ rank = 5) ∧
    ∃ request_f request_b pd_f pd,
      eng.pooling_forward_primitive_desc request_f = Except.ok pd_f ∧
      eng.pooling_backward_primitive_desc request_b pd_f = Except.ok pd ∧
      ∃ events, w'.trace = w.trace ++ events ∧
        output_negotiated PrimKind.pooling_backward Arg.DIFF_SRC
          (desc_of_strides (shape_of memRefOutput rank) (strides_of memRefOutput rank))
          pd.diff_src_desc memRefOutput.allocatedPtr events := by
  simp only [__mlir_mkldnn_maxpoolbackprop, bind_ok_iff, engine_call_ok_iff,
    primitive_create_ok_iff, memory_alloc_ok_iff, emit_ok_iff] at h
  obtain ⟨d1, w1, ⟨-, rfl⟩, d2, w2, ⟨-, rfl⟩, opd, w5, hpd,
    pd, w6, ⟨hsome, hw6⟩, src_mem, w7, hsrc, dst_mem, w8, ⟨hdst, hw8⟩, workspace, w9,
    ⟨hws, hw9⟩, u1, w10, hw10, diff_dst, w11, hdiff, p, w12, hdecide, u2, w13, hexec,
    hconv⟩ := h
  have hw5 : w5 = w := by
    refine silent_apply ?_ hpd
    repeat' first
      | apply silent_ite
      | apply silent_rethrow
      | apply silent_bind
      | apply silent_pure
      | apply silent_engine_call
      | intro _
  subst hw5 hsome
  have hans : (rank = 4 ∨ rank = 5) ∧
      ∃ request_f request_b,
        eng.pooling_forward_primitive_desc request_f = Except.ok pd.1 ∧
        eng.pooling_backward_primitive_desc request_b pd.1 = Except.ok pd.2 := by
    by_cases h4 : rank = 4
    · subst h4
      simp only [beq_self_eq_true, if_true, rethrow_ok_iff, bind_ok_iff, engine_call_ok_iff,
        pure_ok_iff, Option.some.injEq] at hpd
      obtain ⟨pd_f, w1, ⟨hf, -⟩, pd1, w2, ⟨hb, -⟩, hpd1, -⟩ := hpd
      subst hpd1
      exact ⟨Or.inl rfl, _, _, hf, hb⟩
    · by_cases h5 : rank = 5
      · subst h5
        simp only [beq_self_eq_true, if_true, rethrow_ok_iff, bind_ok_iff, engine_call_ok_iff,
          pure_ok_iff, Option.some.injEq, show ((5 : Nat) == 4) = false from rfl,
          Bool.false_eq_true, if_false] at hpd
        obtain ⟨pd_f, w1, ⟨hf, -⟩, pd1, w2, ⟨hb, -⟩, hpd1, -⟩ := hpd
        subst hpd1
        exact ⟨Or.inr rfl, _, _, hf, hb⟩
      · have e4 : (rank == 4) = false := by simpa using h4
        have e5 : (rank == 5) = false := by simpa using h5
        simp only [e4, e5, Bool.false_eq_true, if_false, pure_ok_iff] at hpd
        exact absurd hpd.1 (by simp)
  obtain ⟨hrank, request_f, request_b, hf, hb⟩ := hans
  refine ⟨hrank, request_f, request_b, pd.1, pd.2, hf, hb, ?_⟩
  simp only [rethrow_ok_iff, bind_ok_iff, primitive_execute_ok_iff, stream_wait_ok_iff] at hexec
  obtain ⟨_, v1, ⟨-, hv1⟩, _, v2, hv2, _, v3, ⟨-, hv3⟩, hv4⟩ := hexec
  obtain ⟨evs1, ht7, hs1⟩ := convert_layout_if_diff_trace eng _ _ _ _ _ _
    PrimKind.pooling_backward (by decide) hsrc
  obtain ⟨evs2, ht11, hs2⟩ := convert_layout_if_diff_trace eng _ _ _ _ _ _
    PrimKind.pooling_backward (by decide) hdiff
  refine output_tail_negotiated eng PrimKind.pooling_backward Arg.DIFF_SRC _ _ _
    [(Arg.DIFF_DST, diff_dst), (Arg.WORKSPACE, workspace), (Arg.DIFF_SRC, p.1)]
    ([Event.primitive PrimKind.pooling_forward] ++ evs1 ++
      [Event.alloc dst_mem, Event.alloc workspace, Event.primitive PrimKind.pooling_backward] ++
      evs2)
    [Event.execute PrimKind.pooling_forward
        [(Arg.SRC, src_mem), (Arg.WORKSPACE, workspace), (Arg.DST, dst_mem)], Event.wait]
    w5.trace p w11 w12 w13 w' ?_ ?_ hdecide ?_ ?_ ?_ hconv
  · rw [ht11, ← hw10, hw9, hw8, ht7, hw6, hdst, hws]
    simp only [List.append_assoc, List.singleton_append, List.cons_append, List.nil_append, hw8]
  · intro e he
    rcases List.mem_append.mp he with h1 | h1
    · rcases List.mem_append.mp h1 with h2 | h2
      · rcases List.mem_append.mp h2 with h3 | h3
        · rw [List.mem_singleton.mp h3]; exact ⟨rfl, rfl⟩
        · exact hs1 e h3
      · simp only [List.mem_cons, List.mem_singleton, List.not_mem_nil, or_false] at h2
        rcases h2 with rfl | rfl | rfl <;> exact ⟨rfl, rfl⟩
    · exact hs2 e h1
  · rfl
  · intro e he
    simp only [List.mem_cons, List.mem_singleton, List.not_mem_nil, or_false] at he
    rcases he with rfl | rfl <;> exact ⟨rfl, rfl⟩
  · rw [hv4, hv3, hv2, hv1]; simp

/-! ### Runs that return -/

theorem returns_with_pure {α : Type} (P : α → Prop) (a : α) (h : P a) :
    returns_with P (pure a : Callback α) :=
  fun w => ⟨a, w, rfl, h⟩

theorem returns_with_bind {α β : Type} (P : α → Prop) (Q : β → Prop) (m : Callback α)
    (f : α → Callback β) (hm : returns_with P m) (hf : ∀ a, P a → returns_with Q (f a)) :
    returns_with Q (m >>= f) := by
  intro w
  obtain ⟨a, w1, h1, hp⟩ := hm w
  obtain ⟨b, w2, h2, hq⟩ := hf a hp w1
  exact ⟨b, w2, (bind_ok_iff m f w w2 b).mpr ⟨a, w1, h1, h2⟩, hq⟩

theorem returns_with_engine_call {α : Type} (r : Except String α) (h : ∃ a, r = Except.ok a) :
    returns_with (fun _ => True) (engine_call r) := by
  intro w
  obtain ⟨a, ha⟩ := h
  exact ⟨a, w, (engine_call_ok_iff r w w a).mpr ⟨ha, rfl⟩, trivial⟩

theorem returns_with_rethrow {α : Type} (P : α → Prop) (what : String) (body : Callback α)
    (h : returns_with P body) : returns_with P (rethrow what body) := by
  intro w
  obtain ⟨a, w1, h1, hp⟩ := h w
  exact ⟨a, w1, (rethrow_ok_iff what body w w1 a).mpr h1, hp⟩

theorem returns_with_ite {α : Type} (P : α → Prop) (c : Prop) [Decidable c]
    (m1 m2 : Callback α) (h1 : returns_with P m1) (h2 : returns_with P m2) :
    returns_with P (if c then m1 else m2) := by
  by_cases hc : c
  · simpa [hc] using h1
  · simpa [hc] using h2

theorem returns_with_memory_alloc (desc : mkldnn_memory_desc_t) :
    returns_with (fun _ => True) (memory_alloc desc) :=
  fun _ => ⟨_, _, rfl, trivial⟩

theorem returns_with_emit (e : Event) : returns_with (fun _ => True) (emit e) :=
  fun _ => ⟨_, _, rfl, trivial⟩

theorem returns_with_primitive_create {α : Type} (k : PrimKind) (d : α) :
    returns_with (fun _ => True) (primitive_create k (some d)) :=
  fun w => ⟨d, _, (primitive_create_ok_iff k (some d) w _ d).mpr ⟨rfl, rfl⟩, trivial⟩

theorem returns_with_primitive_execute (eng : Engine)
    (hex : ∀ k exec_args, eng.execute k exec_args = Except.ok ()) (k : PrimKind)
    (exec_args : List (Arg × memory)) :
    returns_with (fun _ => True) (primitive_execute eng k exec_args) :=
  fun w => ⟨(), _, (primitive_execute_ok_iff eng k exec_args w _ ()).mpr
    ⟨hex k exec_args, rfl⟩, trivial⟩

theorem returns_with_execute_wait (eng : Engine)
    (hex : ∀ k exec_args, eng.execute k exec_args = Except.ok ()) (what : String)
    (k : PrimKind) (exec_args : List (Arg × memory)) :
    returns_with (fun _ => True) (rethrow what (do
      primitive_execute eng k exec_args
      stream_wait)) :=
  fun w => ⟨(), _, (execute_wait_ok_iff eng what k exec_args w _ ()).mpr
    ⟨hex k exec_args, rfl⟩, trivial⟩

theorem returns_with_convert_output_layout (eng : Engine)
    (hre : ∀ a b, eng.reorder_create a b = Except.ok ())
    (hex : ∀ k exec_args, eng.execute k exec_args = Except.ok ())
    (reorder_in : memory) (rhs : mkldnn_memory_desc_t) (ptr : Nat) :
    returns_with (fun _ => True) (convert_output_layout eng reorder_in rhs ptr) :=
  fun w => ⟨(), _, (convert_output_layout_ok_iff eng reorder_in rhs ptr w _ ()).mpr
    ⟨hre _ _, hex _ _, rfl⟩, trivial⟩

theorem returns_with_convert_layout_if_diff (eng : Engine)
    (hre : ∀ a b, eng.reorder_create a b = Except.ok ())
    (hex : ∀ k exec_args, eng.execute k exec_args = Except.ok ())
    (lhs rhs : mkldnn_memory_desc_t) (ptr : Nat) :
    returns_with (fun _ => True) (convert_layout_if_diff eng lhs rhs ptr) := by
  intro w
  cases hcmp : compare_mkldnn_md_formats lhs rhs with
  | true =>
    exact ⟨_, _, (convert_layout_if_diff_ok_iff eng lhs rhs ptr w _ _).mpr
      (Or.inl ⟨hcmp, rfl, rfl⟩), trivial⟩
  | false =>
    exact ⟨_, _, (convert_layout_if_diff_ok_iff eng lhs rhs ptr w _ _).mpr
      (Or.inr ⟨hcmp, hre _ _, hex _ _, rfl, rfl⟩), trivial⟩

theorem returns_with_output_choice (origin natural : mkldnn_memory_desc_t) (out_ptr : Nat) :
    returns_with (fun _ => True)
      (if (!compare_mkldnn_md_formats origin natural) = true then
        (do
          let out ← memory_alloc natural
          pure (out, true))
        else pure (memory_bind natural out_ptr, false) : Callback (memory × Bool)) :=
  returns_with_ite _ _ _ _
    (returns_with_bind (fun _ => True) _ _ _ (returns_with_memory_alloc natural)
      (fun _ _ => returns_with_pure _ _ trivial))
    (returns_with_pure _ _ trivial)

theorem returns_with_output_reorder (eng : Engine)
    (hre : ∀ a b, eng.reorder_create a b = Except.ok ())
    (hex : ∀ k exec_args, eng.execute k exec_args = Except.ok ()) (p : memory × Bool)
    (origin : mkldnn_memory_desc_t) (out_ptr : Nat) :
    returns_with (fun _ => True)
      (if p.2 = true then convert_output_layout eng p.1 origin out_ptr else pure PUnit.unit) :=
  returns_with_ite _ _ _ _ (returns_with_convert_output_layout eng hre hex _ _ _)
    (returns_with_pure _ _ trivial)

theorem returns_with_engine_call_eq {α : Type} (r : Except String α) (a : α)
    (h : r = Except.ok a) : returns_with (fun x => x = a) (engine_call r) :=
  fun w => ⟨a, w, (engine_call_ok_iff r w w a).mpr ⟨h, rfl⟩, rfl⟩

theorem convbias_returns {R : Type} (eng : Engine) (getAttrs : Nat → opAttrs R) (rank : Nat)
    (hrank : rank = 3 ∨ rank = 4 ∨ rank = 5)
    (memRefData memRefWeights memRefBias memRefOutput : StaticMemRef) (index : Nat)
    (hpd : ∃ pd, eng.convolution_primitive_desc
      (conv_request eng getAttrs rank memRefData memRefWeights memRefBias memRefOutput index)
      (conv_attrs_of_rank (getAttrs index) rank).withRelu = Except.ok pd)
    (hre : ∀ a b, eng.reorder_create a b = Except.ok ())
    (hex : ∀ k exec_args, eng.execute k exec_args = Except.ok ()) :
    returns_with (fun _ => True)
      (__mlir_mkldnn_convbias eng getAttrs rank memRefData memRefWeights memRefBias
        memRefOutput index) := by
  have hone : ∀ d relu, (∃ pd, eng.convolution_primitive_desc d relu = Except.ok pd) →
      returns_with (fun o => ∃ pd, o = some pd)
      (rethrow "Could not create mkldnn conv descriptor " (do
        let pd ← engine_call (eng.convolution_primitive_desc d relu)
        pure (some pd))) := fun d relu h =>
    returns_with_rethrow _ _ _
      (returns_with_bind (fun _ => True) _ _ _ (returns_with_engine_call _ h)
        (fun pd _ => returns_with_pure _ _ ⟨pd, rfl⟩))
  simp only [__mlir_mkldnn_convbias]
  refine returns_with_bind _ _ _ _ (returns_with_engine_call_eq _ _ rfl) ?_
  rintro d1 rfl
  refine returns_with_bind _ _ _ _ (returns_with_engine_call_eq _ _ rfl) ?_
  rintro d2 rfl
  refine returns_with_bind _ _ _ _ (returns_with_engine_call_eq _ _ rfl) ?_
  rintro d3 rfl
  refine returns_with_bind _ _ _ _ (returns_with_engine_call_eq _ _ rfl) ?_
  rintro d4 rfl
  refine returns_with_bind (fun o => ∃ pd, o = some pd) _ _ _ ?_ ?_
  · rcases hrank with h | h | h <;> subst h
    · simp only [beq_self_eq_true, if_true]
      refine hone _ _ ?_
      simpa [conv_request, conv_attrs_of_rank, any_format_desc, List.range_succ] using hpd
    · simp only [beq_self_eq_true, if_true, show ((4 : Nat) == 3) = false from rfl,
        Bool.false_eq_true, if_false]
      refine hone _ _ ?_
      simpa [conv_request, conv_attrs_of_rank, any_format_desc, List.range_succ] using hpd
    · simp only [beq_self_eq_true, if_true, show ((5 : Nat) == 3) = false from rfl,
        show ((5 : Nat) == 4) = false from rfl, Bool.false_eq_true, if_false]
      refine hone _ _ ?_
      simpa [conv_request, conv_attrs_of_rank, any_format_desc, List.range_succ] using hpd
  · rintro o ⟨pd, rfl⟩
    refine returns_with_bind (fun _ => True) _ _ _ (returns_with_primitive_create _ pd)
      (fun conv_pd _ => ?_)
    refine returns_with_bind (fun _ => True) _ _ _
      (returns_with_convert_layout_if_diff eng hre hex _ _ _) (fun data _ => ?_)
    refine returns_with_bind (fun _ => True) _ _ _
      (returns_with_convert_layout_if_diff eng hre hex _ _ _) (fun weights _ => ?_)
    refine returns_with_bind (fun _ => True) _ _ _ (returns_with_output_choice _ _ _)
      (fun p _ => ?_)
    refine returns_with_bind (fun _ => True) _ _ _ (returns_with_execute_wait eng hex _ _ _)
      (fun _ _ => ?_)
    exact returns_with_output_reorder eng hre hex p _ _

theorem pooling_returns {R : Type} (eng : Engine)
    (hpf : ∀ d, ∃ pd, eng.pooling_forward_primitive_desc d = Except.ok pd)
    (hre : ∀ a b, eng.reorder_create a b = Except.ok ())
    (hex : ∀ k exec_args, eng.execute k exec_args = Except.ok ())
    (getAttrs : Nat → opAttrs R) (rank : Nat) (hrank : rank = 4 ∨ rank = 5)
    (memRefInput memRefOutput : StaticMemRef) (index : Nat) (type : OpType) :
    returns_with (fun _ => True)
      (__mlir_mkldnn_pooling eng getAttrs rank memRefInput memRefOutput index type) := by
  have hone : ∀ what d, returns_with (fun o => ∃ pd, o = some pd)
      (rethrow what (do
        let pd ← engine_call (eng.pooling_forward_primitive_desc d)
        pure (some pd))) := fun what d =>
    returns_with_rethrow _ _ _
      (returns_with_bind (fun _ => True) _ _ _ (returns_with_engine_call _ (hpf d))
        (fun pd _ => returns_with_pure _ _ ⟨pd, rfl⟩))
  have htag : ∀ memRef : StaticMemRef, ∃ a,
      desc_of_tag (shape_of memRef rank) (if (rank == 4) = true then FORMAT.nchw else FORMAT.ncdhw)
        = Except.ok a := by
    intro memRef
    have hlen : (shape_of memRef rank).length = rank := by simp [shape_of]
    rcases hrank with h | h <;> subst h
    · exact ⟨desc_of_strides (shape_of memRef 4) (dense_strides (shape_of memRef 4)),
        by simp [desc_of_tag, hlen]⟩
    · exact ⟨desc_of_strides (shape_of memRef 5) (dense_strides (shape_of memRef 5)),
        by simp [desc_of_tag, hlen]⟩
  simp only [__mlir_mkldnn_pooling]
  refine returns_with_bind (fun _ => True) _ _ _ (returns_with_engine_call _ (htag _))
    (fun d1 _ => ?_)
  refine returns_with_bind (fun _ => True) _ _ _ (returns_with_engine_call _ (htag _))
    (fun d2 _ => ?_)
  refine returns_with_bind (fun o => ∃ pd, o = some pd) _ _ _ ?_ ?_
  · rcases hrank with h | h <;> subst h
    · simp only [beq_self_eq_true, if_true]
      exact hone _ _
    · simp only [beq_self_eq_true, if_true, show ((5 : Nat) == 4) = false from rfl,
        Bool.false_eq_true, if_false]
      exact hone _ _
  · rintro o ⟨pd, rfl⟩
    refine returns_with_bind (fun _ => True) _ _ _ (returns_with_primitive_create _ pd)
      (fun pool_pd _ => ?_)
    refine returns_with_bind (fun _ => True) _ _ _
      (returns_with_convert_layout_if_diff eng hre hex _ _ _) (fun input _ => ?_)
    refine returns_with_bind (fun _ => True) _ _ _ (returns_with_output_choice _ _ _)
      (fun p _ => ?_)
    refine returns_with_bind (fun _ => True) _ _ _ (returns_with_execute_wait eng hex _ _ _)
      (fun _ _ => ?_)
    exact returns_with_output_reorder eng hre hex p _ _

theorem avgpoolbackprop_returns {R : Type} (eng : Engine)
    (hpf : ∀ d, ∃ pd, eng.pooling_forward_primitive_desc d = Except.ok pd)
    (hpb : ∀ d pd_f, ∃ pd, eng.pooling_backward_primitive_desc d pd_f = Except.ok pd)
    (hre : ∀ a b, eng.reorder_create a b = Except.ok ())
    (hex : ∀ k exec_args, eng.execute k exec_args = Except.ok ())
    (getAttrs : Nat → opAttrs R) (rank : Nat) (hrank : rank = 4 ∨ rank = 5)
    (memRefInput memRefOutput : StaticMemRef) (index : Nat) :
    returns_with (fun _ => True)
      (__mlir_mkldnn_avgpoolbackprop eng getAttrs rank memRefInput memRefOutput index) := by
  have hone : ∀ what d_f d_b, returns_with (fun o => ∃ pd, o = some pd)
      (rethrow what (do
        let pd_f ← engine_call (eng.pooling_forward_primitive_desc d_f)
        let pd_b ← engine_call (eng.pooling_backward_primitive_desc d_b pd_f)
        pure (some pd_b))) := fun what d_f d_b =>
    returns_with_rethrow _ _ _
      (returns_with_bind (fun _ => True) _ _ _ (returns_with_engine_call _ (hpf d_f))
        (fun pd_f _ =>
          returns_with_bind (fun _ => True) _ _ _
            (returns_with_engine_call _ (hpb d_b pd_f))
            (fun pd_b _ => returns_with_pure _ _ ⟨pd_b, rfl⟩)))
  have htag : ∀ memRef : StaticMemRef, ∃ a,
      desc_of_tag (shape_of memRef rank) (if (rank == 4) = true then FORMAT.nchw else FORMAT.ncdhw)
        = Except.ok a := by
    intro memRef
    have hlen : (shape_of memRef rank).length = rank := by simp [shape_of]
    rcases hrank with h | h <;> subst h
    · exact ⟨desc_of_strides (shape_of memRef 4) (dense_strides (shape_of memRef 4)),
        by simp [desc_of_tag, hlen]⟩
    · exact ⟨desc_of_strides (shape_of memRef 5) (dense_strides (shape_of memRef 5)),
        by simp [desc_of_tag, hlen]⟩
  simp only [__mlir_mkldnn_avgpoolbackprop]
  refine returns_with_bind (fun _ => True) _ _ _ (returns_with_engine_call _ (htag _))
    (fun d1 _ => ?_)
  refine returns_with_bind (fun _ => True) _ _ _ (returns_with_engine_call _ (htag _))
    (fun d2 _ => ?_)
  refine returns_with_bind (fun o => ∃ pd, o = some pd) _ _ _ ?_ ?_
  · rcases hrank with h | h <;> subst h
    · simp only [beq_self_eq_true, if_true]
      exact hone _ _ _
    · simp only [beq_self_eq_true, if_true, show ((5 : Nat) == 4) = false from rfl,
        Bool.false_eq_true, if_false]
      exact hone _ _ _
  · rintro o ⟨pd, rfl⟩
    refine returns_with_bind (fun _ => True) _ _ _ (returns_with_primitive_create _ pd)
      (fun pool_pd _ => ?_)
    refine returns_with_bind (fun _ => True) _ _ _
      (returns_with_convert_layout_if_diff eng hre hex _ _ _) (fun input _ => ?_)
    refine returns_with_bind (fun _ => True) _ _ _ (returns_with_output_choice _ _ _)
      (fun p _ => ?_)
    refine returns_with_bind (fun _ => True) _ _ _ (returns_with_execute_wait eng hex _ _ _)
      (fun _ _ => ?_)
    exact returns_with_output_reorder eng hre hex p _ _

theorem maxpoolbackprop_returns {R : Type} (eng : Engine)
    (hpf : ∀ d, ∃ pd, eng.pooling_forward_primitive_desc d = Except.ok pd)
    (hpb : ∀ d pd_f, ∃ pd, eng.pooling_backward_primitive_desc d pd_f = Except.ok pd)
    (hre : ∀ a b, eng.reorder_create a b = Except.ok ())
    (hex : ∀ k exec_args, eng.execute k exec_args = Except.ok ())
    (getAttrs : Nat → opAttrs R) (rank : Nat) (hrank : rank = 4 ∨ rank = 5)
    (memRefSrc memRefDelta memRefOutput : StaticMemRef) (index : Nat) :
    returns_with (fun _ => True)
      (__mlir_mkldnn_maxpoolbackprop eng getAttrs rank memRefSrc memRefDelta memRefOutput
        index) := by
  have hone : ∀ what d_f d_b, returns_with (fun o => ∃ pd, o = some pd)
      (rethrow what (do
        let pd_f ← engine_call (eng.pooling_forward_primitive_desc d_f)
        let pd_b ← engine_call (eng.pooling_backward_primitive_desc d_b pd_f)
        pure (some (pd_f, pd_b)))) := fun what d_f d_b =>
    returns_with_rethrow _ _ _
      (returns_with_bind (fun _ => True) _ _ _ (returns_with_engine_call _ (hpf d_f))
        (fun pd_f _ =>
          returns_with_bind (fun _ => True) _ _ _
            (returns_with_engine_call _ (hpb d_b pd_f))
            (fun pd_b _ => returns_with_pure _ _ ⟨(pd_f, pd_b), rfl⟩)))
  have htag : ∀ memRef : StaticMemRef, ∃ a,
      desc_of_tag (shape_of memRef rank) (if (rank == 4) = true then FORMAT.nchw else FORMAT.ncdhw)
        = Except.ok a := by
    intro memRef
    have hlen : (shape_of memRef rank).length = rank := by simp [shape_of]
    rcases hrank with h | h <;> subst h
    · exact ⟨desc_of_strides (shape_of memRef 4) (dense_strides (shape_of memRef 4)),
        by simp [desc_of_tag, hlen]⟩
    · exact ⟨desc_of_strides (shape_of memRef 5) (dense_strides (shape_of memRef 5)),
        by simp [desc_of_tag, hlen]⟩
  simp only [__mlir_mkldnn_maxpoolbackprop]
  refine returns_with_bind (fun _ => True) _ _ _ (returns_with_engine_call _ (htag _))
    (fun d1 _ => ?_)
  refine returns_with_bind (fun _ => True) _ _ _ (returns_with_engine_call _ (htag _))
    (fun d2 _ => ?_)
  refine returns_with_bind (fun o => ∃ pd, o = some pd) _ _ _ ?_ ?_
  · rcases hrank with h | h <;> subst h
    · simp only [beq_self_eq_true, if_true]
      exact hone _ _ _
    · simp only [beq_self_eq_true, if_true, show ((5 : Nat) == 4) = false from rfl,
        Bool.false_eq_true, if_false]
      exact hone _ _ _
  · rintro o ⟨pd, rfl⟩
    refine returns_with_bind (fun _ => True) _ _ _ (returns_with_primitive_create _ pd)
      (fun pool_pd _ => ?_)
    refine returns_with_bind (fun _ => True) _ _ _
      (returns_with_convert_layout_if_diff eng hre hex _ _ _) (fun src_mem _ => ?_)
    refine returns_with_bind (fun _ => True) _ _ _ (returns_with_memory_alloc _)
      (fun dst_mem _ => ?_)
    refine returns_with_bind (fun _ => True) _ _ _ (returns_with_memory_alloc _)
      (fun workspace _ => ?_)
    refine returns_with_bind (fun _ => True) _ _ _ (returns_with_emit _) (fun _ _ => ?_)
    refine returns_with_bind (fun _ => True) _ _ _
      (returns_with_convert_layout_if_diff eng hre hex _ _ _) (fun diff_dst _ => ?_)
    refine returns_with_bind (fun _ => True) _ _ _ (returns_with_output_choice _ _ _)
      (fun p _ => ?_)
    refine returns_with_bind (fun _ => True) _ _ _ ?_ (fun _ _ => ?_)
    · refine returns_with_rethrow _ _ _ ?_
      refine returns_with_bind (fun _ => True) _ _ _
        (returns_with_primitive_execute eng hex _ _) (fun _ _ => ?_)
      refine returns_with_bind (fun _ => True) _ _ _ (returns_with_emit _) (fun _ _ => ?_)
      refine returns_with_bind (fun _ => True) _ _ _
        (returns_with_primitive_execute eng hex _ _) (fun _ _ => ?_)
      exact returns_with_emit _
    · exact returns_with_output_reorder eng hre hex p _ _

/-! ### Layout negotiation -/

/-- C4: `convert_layout_if_diff` on descriptors that `compare_mkldnn_md_formats`
accepts returns a memory bound to the caller's pointer and leaves the state as
it was (no buffer allocated, no reorder executed). On descriptors that it
rejects, with an engine that creates and executes the reorder, it allocates
one new buffer of descriptor `rhs`, executes one reorder from the caller's
buffer under `lhs` into it, waits, and returns the new buffer; no event writes
into a buffer of the caller. -/
theorem C4_input_negotiation (eng : Engine) (lhs rhs : mkldnn_memory_desc_t) (ptr : Nat)
    (w : World) :
    (compare_mkldnn_md_formats lhs rhs = true →
      convert_layout_if_diff eng lhs rhs ptr w = Outcome.ok (memory_bind lhs ptr) w) ∧
    (compare_mkldnn_md_formats lhs rhs = false →
      eng.reorder_create lhs rhs = Except.ok () →
      eng.execute PrimKind.reorder
        [(Arg.SRC, memory_bind lhs ptr),
         (Arg.DST, { desc := rhs, handle := Buffer.engine w.allocated })] = Except.ok () →
      convert_layout_if_diff eng lhs rhs ptr w =
        Outcome.ok { desc := rhs, handle := Buffer.engine w.allocated }
          { allocated := w.allocated + 1
            trace := w.trace ++
              [Event.alloc { desc := rhs, handle := Buffer.engine w.allocated },
               Event.primitive PrimKind.reorder,
               Event.execute PrimKind.reorder
                 [(Arg.SRC, { desc := lhs, handle := Buffer.caller ptr }),
                  (Arg.DST, { desc := rhs, handle := Buffer.engine w.allocated })],
               Event.wait] } ∧
      ∀ e p, e ∈ Event.alloc { desc := rhs, handle := Buffer.engine w.allocated } ::
          reorder_events (memory_bind lhs ptr)
            { desc := rhs, handle := Buffer.engine w.allocated } →
        writes_to (Buffer.caller p) e = false) := by
  constructor
  · intro hc
    exact (convert_layout_if_diff_ok_iff eng lhs rhs ptr w w (memory_bind lhs ptr)).mpr
      (Or.inl ⟨hc, rfl, rfl⟩)
  · intro hc hcreate hexec
    constructor
    · exact (convert_layout_if_diff_ok_iff eng lhs rhs ptr w _ _).mpr
        (Or.inr ⟨hc, hcreate, hexec, rfl, rfl⟩)
    · intro e p he
      simp only [reorder_events, List.mem_cons, List.mem_singleton, List.not_mem_nil,
        or_false] at he
      rcases he with rfl | rfl | rfl | rfl <;>
        simp [writes_to, memory_bind]

/-- C4 on a dense `1x8x4x4` buffer at address 100 and the layout `blocked_8c`:
one buffer is allocated and one reorder is executed into it. -/
theorem C4_input_negotiation_witness :
    convert_layout_if_diff sample_engine (desc_of_strides [1, 8, 4, 4] [128, 16, 4, 1])
        (blocked_8c [1, 8, 4, 4]) 100 empty_world =
      Outcome.ok { desc := blocked_8c [1, 8, 4, 4], handle := Buffer.engine 0 }
        { allocated := 1
          trace :=
            [Event.alloc { desc := blocked_8c [1, 8, 4, 4], handle := Buffer.engine 0 },
             Event.primitive PrimKind.reorder,
             Event.execute PrimKind.reorder
               [(Arg.SRC,
                  { desc := desc_of_strides [1, 8, 4, 4] [128, 16, 4, 1],
                    handle := Buffer.caller 100 }),
                (Arg.DST, { desc := blocked_8c [1, 8, 4, 4], handle := Buffer.engine 0 })],
             Event.wait] } :=
  ((C4_input_negotiation sample_engine (desc_of_strides [1, 8, 4, 4] [128, 16, 4, 1])
    (blocked_8c [1, 8, 4, 4]) 100 empty_world).2 (by decide) rfl rfl).1

/-- C5: in each of the callbacks of convolution+bias, pooling forward,
max-pool backprop and avg-pool backprop, with an engine that reports no error
and a rank the callback handles, the run returns; and every run that returns
has obtained a primitive descriptor from the engine and executed the primitive
once, on a destination memory that has the destination descriptor of that
primitive descriptor (`dst_desc`, for the backprops `diff_src_desc`). When
`compare_mkldnn_md_formats` rejects the pair of the caller's origin output
descriptor and that destination descriptor, the destination is a buffer
allocated by the engine and the execution is followed by exactly one reorder of
that buffer into the caller's output pointer under the origin descriptor; when
it accepts the pair, the destination is the caller's output pointer and no
reorder into a caller's buffer runs. -/
theorem C5_output_negotiation {R : Type} (eng : Engine) (getAttrs : Nat → opAttrs R)
    (rank : Nat) (memRef0 memRef1 memRef2 memRefOutput : StaticMemRef) (index : Nat)
    (type : OpType) (w w' : World) :
    (cooperative eng → (rank = 3 ∨ rank = 4 ∨ rank = 5) →
      ∃ w1, __mlir_mkldnn_convbias eng getAttrs rank memRef0 memRef1 memRef2 memRefOutput
        index w = Outcome.ok () w1) ∧
    (__mlir_mkldnn_convbias eng getAttrs rank memRef0 memRef1 memRef2 memRefOutput index w
        = Outcome.ok () w' →
      ∃ pd,
        eng.convolution_primitive_desc
            (conv_request eng getAttrs rank memRef0 memRef1 memRef2 memRefOutput index)
            (conv_attrs_of_rank (getAttrs index) rank).withRelu = Except.ok pd ∧
        ∃ events, w'.trace = w.trace ++ events ∧
          output_negotiated PrimKind.convolution_forward Arg.DST
            (desc_of_strides (shape_of memRefOutput rank) (strides_of memRefOutput rank))
            pd.dst_desc memRefOutput.allocatedPtr events) ∧
    (cooperative eng → (rank = 4 ∨ rank = 5) →
      ∃ w1, __mlir_mkldnn_pooling eng getAttrs rank memRef0 memRefOutput index type w
        = Outcome.ok () w1) ∧
    (__mlir_mkldnn_pooling eng getAttrs rank memRef0 memRefOutput index type w
        = Outcome.ok () w' →
      ∃ request pd, eng.pooling_forward_primitive_desc request = Except.ok pd ∧
        ∃ events, w'.trace = w.trace ++ events ∧
          output_negotiated PrimKind.pooling_forward Arg.DST
            (desc_of_strides (shape_of memRefOutput rank) (strides_of memRefOutput rank))
            pd.dst_desc memRefOutput.allocatedPtr events) ∧
    (cooperative eng → (rank = 4 ∨ rank = 5) →
      ∃ w1, __mlir_mkldnn_maxpoolbackprop eng getAttrs rank memRef0 memRef1 memRefOutput index w
        = Outcome.ok () w1) ∧
    (__mlir_mkldnn_maxpoolbackprop eng getAttrs rank memRef0 memRef1 memRefOutput index w
        = Outcome.ok () w' →
      ∃ request_f request_b pd_f pd,
        eng.pooling_forward_primitive_desc request_f = Except.ok pd_f ∧
        eng.pooling_backward_primitive_desc request_b pd_f = Except.ok pd ∧
        ∃ events, w'.trace = w.trace ++ events ∧
          output_negotiated PrimKind.pooling_backward Arg.DIFF_SRC
            (desc_of_strides (shape_of memRefOutput rank) (strides_of memRefOutput rank))
            pd.diff_src_desc memRefOutput.allocatedPtr events) ∧
    (cooperative eng → (rank = 4 ∨ rank = 5) →
      ∃ w1, __mlir_mkldnn_avgpoolbackprop eng getAttrs rank memRef0 memRefOutput index w
        = Outcome.ok () w1) ∧
    (__mlir_mkldnn_avgpoolbackprop eng getAttrs rank memRef0 memRefOutput index w
        = Outcome.ok () w' →
      ∃ request_f request_b pd_f pd,
        eng.pooling_forward_primitive_desc request_f = Except.ok pd_f ∧
        eng.pooling_backward_primitive_desc request_b pd_f = Except.ok pd ∧
        ∃ events, w'.trace = w.trace ++ events ∧
          output_negotiated PrimKind.pooling_backward Arg.DIFF_SRC
            (desc_of_strides (shape_of memRefOutput rank) (strides_of memRefOutput rank))
            pd.diff_src_desc memRefOutput.allocatedPtr events) := by
  refine ⟨?_, ?_, ?_, ?_, ?_, ?_, ?_, ?_⟩
  · intro hc hrank
    obtain ⟨_, w1, h, -⟩ :=
      convbias_returns eng getAttrs rank hrank memRef0 memRef1 memRef2 memRefOutput index
        (hc.1 _ _) hc.2.2.2.1 hc.2.2.2.2 w
    exact ⟨w1, h⟩
  · intro h
    exact (convbias_output_negotiated eng getAttrs rank memRef0 memRef1 memRef2 memRefOutput
      index w w' h).2
  · intro hc hrank
    obtain ⟨_, w1, h, -⟩ :=
      pooling_returns eng hc.2.1 hc.2.2.2.1 hc.2.2.2.2 getAttrs rank hrank memRef0
        memRefOutput index type w
    exact ⟨w1, h⟩
  · intro h
    exact (pooling_output_negotiated eng getAttrs rank memRef0 memRefOutput index type w w'
      h).2
  · intro hc hrank
    obtain ⟨_, w1, h, -⟩ :=
      maxpoolbackprop_returns eng hc.2.1 hc.2.2.1 hc.2.2.2.1 hc.2.2.2.2 getAttrs rank hrank
        memRef0 memRef1 memRefOutput index w
    exact ⟨w1, h⟩
  · intro h
    exact (maxpoolbackprop_output_negotiated eng getAttrs rank memRef0 memRef1 memRefOutput
      index w w' h).2
  · intro hc hrank
    obtain ⟨_, w1, h, -⟩ :=
      avgpoolbackprop_returns eng hc.2.1 hc.2.2.1 hc.2.2.2.1 hc.2.2.2.2 getAttrs rank hrank
        memRef0 memRefOutput index w
    exact ⟨w1, h⟩
  · intro h
    exact (avgpoolbackprop_output_negotiated eng getAttrs rank memRef0 memRefOutput index w w'
      h).2

/-- C5 on `sample_engine`, which reports no error, at rank 4: a convolution
whose primitive prefers `blocked_8c` (the output is reordered), a max pooling,
a max-pool backprop and an avg-pool backprop whose primitives keep the dense
layout (the output is written in place). Each run returns and has the shape of
the negotiation. -/
theorem C5_output_negotiation_witness :
    ((∃ w1, __mlir_mkldnn_convbias sample_engine (fun _ => sample_attrs) 4 sample_data
        sample_weights sample_bias sample_output 0 empty_world = Outcome.ok () w1) ∧
     (∃ pd,
        sample_engine.convolution_primitive_desc
            (conv_request sample_engine (fun _ => sample_attrs) 4 sample_data sample_weights
              sample_bias sample_output 0)
            (conv_attrs_of_rank ((fun _ => sample_attrs) 0) 4).withRelu = Except.ok pd ∧
        ∃ events,
          (final_world (__mlir_mkldnn_convbias sample_engine (fun _ => sample_attrs) 4
            sample_data sample_weights sample_bias sample_output 0 empty_world)).trace
            = empty_world.trace ++ events ∧
          output_negotiated PrimKind.convolution_forward Arg.DST
            (desc_of_strides (shape_of sample_output 4) (strides_of sample_output 4))
            pd.dst_desc sample_output.allocatedPtr events)) ∧
    ((∃ w1, __mlir_mkldnn_pooling sample_engine (fun _ => sample_attrs) 4 sample_data
        sample_output 0 OpType.MAXPOOL empty_world = Outcome.ok () w1) ∧
     (∃ request pd, sample_engine.pooling_forward_primitive_desc request = Except.ok pd ∧
        ∃ events,
          (final_world (__mlir_mkldnn_pooling sample_engine (fun _ => sample_attrs) 4
            sample_data sample_output 0 OpType.MAXPOOL empty_world)).trace
            = empty_world.trace ++ events ∧
          output_negotiated PrimKind.pooling_forward Arg.DST
            (desc_of_strides (shape_of sample_output 4) (strides_of sample_output 4))
            pd.dst_desc sample_output.allocatedPtr events)) ∧
    ((∃ w1, __mlir_mkldnn_maxpoolbackprop sample_engine (fun _ => sample_attrs) 4 sample_data
        sample_output sample_diff_src 0 empty_world = Outcome.ok () w1) ∧
     (∃ request_f request_b pd_f pd,
        sample_engine.pooling_forward_primitive_desc request_f = Except.ok pd_f ∧
        sample_engine.pooling_backward_primitive_desc request_b pd_f = Except.ok pd ∧
        ∃ events,
          (final_world (__mlir_mkldnn_maxpoolbackprop sample_engine (fun _ => sample_attrs) 4
            sample_data sample_output sample_diff_src 0 empty_world)).trace
            = empty_world.trace ++ events ∧
          output_negotiated PrimKind.pooling_backward Arg.DIFF_SRC
            (desc_of_strides (shape_of sample_diff_src 4) (strides_of sample_diff_src 4))
            pd.diff_src_desc sample_diff_src.allocatedPtr events)) ∧
    ((∃ w1, __mlir_mkldnn_avgpoolbackprop sample_engine (fun _ => sample_attrs) 4
        sample_output sample_diff_src 0 empty_world = Outcome.ok () w1) ∧
     (∃ request_f request_b pd_f pd,
        sample_engine.pooling_forward_primitive_desc request_f = Except.ok pd_f ∧
        sample_engine.pooling_backward_primitive_desc request_b pd_f = Except.ok pd ∧
        ∃ events,
          (final_world (__mlir_mkldnn_avgpoolbackprop sample_engine (fun _ => sample_attrs) 4
            sample_output sample_diff_src 0 empty_world)).trace
            = empty_world.trace ++ events ∧
          output_negotiated PrimKind.pooling_backward Arg.DIFF_SRC
            (desc_of_strides (shape_of sample_diff_src 4) (strides_of sample_diff_src 4))
            pd.diff_src_desc sample_diff_src.allocatedPtr events)) :=
  have hc : cooperative sample_engine :=
    ⟨fun _ _ => ⟨_, rfl⟩, fun _ => ⟨_, rfl⟩, fun _ _ => ⟨_, rfl⟩, fun _ _ => rfl,
      fun _ _ => rfl⟩
  ⟨⟨(C5_output_negotiation sample_engine (fun _ => sample_attrs) 4 sample_data sample_weights
        sample_bias sample_output 0 OpType.MAXPOOL empty_world empty_world).1 hc
        (Or.inr (Or.inl rfl)),
    (C5_output_negotiation sample_engine (fun _ => sample_attrs) 4 sample_data sample_weights
        sample_bias sample_output 0 OpType.MAXPOOL empty_world _).2.1 (by decide)⟩,
   ⟨(C5_output_negotiation sample_engine (fun _ => sample_attrs) 4 sample_data sample_weights
        sample_bias sample_output 0 OpType.MAXPOOL empty_world empty_world).2.2.1 hc
        (Or.inl rfl),
    (C5_output_negotiation sample_engine (fun _ => sample_attrs) 4 sample_data sample_weights
        sample_bias sample_output 0 OpType.MAXPOOL empty_world _).2.2.2.1 (by decide)⟩,
   ⟨(C5_output_negotiation sample_engine (fun _ => sample_attrs) 4 sample_data sample_output
        sample_bias sample_diff_src 0 OpType.MAXPOOL empty_world empty_world).2.2.2.2.1 hc
        (Or.inl rfl),
    (C5_output_negotiation sample_engine (fun _ => sample_attrs) 4 sample_data sample_output
        sample_bias sample_diff_src 0 OpType.MAXPOOL empty_world _).2.2.2.2.2.1 (by decide)⟩,
   ⟨(C5_output_negotiation sample_engine (fun _ => sample_attrs) 4 sample_output sample_output
        sample_bias sample_diff_src 0 OpType.MAXPOOL empty_world empty_world).2.2.2.2.2.2.1 hc
        (Or.inl rfl),
    (C5_output_negotiation sample_engine (fun _ => sample_attrs) 4 sample_output sample_output
        sample_bias sample_diff_src 0 OpType.MAXPOOL empty_world _).2.2.2.2.2.2.2
        (by decide)⟩⟩

/-- C6 (counterexample): softmax of a row-major `2x3` input into a
column-major `2x3` output. The caller's output descriptor is not
layout-equivalent to the destination descriptor of the primitive (which is the
input descriptor), and yet the run neither allocates a buffer nor executes a
reorder: the negotiation of the output is not carried out. -/
theorem C6_softmax_output_not_reformatted :
    ¬ output_reformatted
        (desc_of_strides (shape_of sample_column_major 2) (strides_of sample_column_major 2))
        (desc_of_strides (shape_of sample_row_major 2) (strides_of sample_row_major 2))
        sample_column_major.allocatedPtr
        (final_world (__mlir_mkldnn_softmax sample_engine (fun _ => sample_attrs) 2
          sample_row_major sample_column_major 0 empty_world)).trace := by
  intro h
  obtain ⟨tmp, h1, _⟩ := h (by decide)
  have ht : (final_world (__mlir_mkldnn_softmax sample_engine (fun _ => sample_attrs) 2
      sample_row_major sample_column_major 0 empty_world)).trace =
      [Event.primitive PrimKind.softmax_forward,
       Event.execute PrimKind.softmax_forward
         [(Arg.SRC, memory_bind (desc_of_strides [2, 3] [3, 1]) 500),
          (Arg.DST, memory_bind (desc_of_strides [2, 3] [3, 1]) 600)],
       Event.wait] := by
    decide
  rw [ht] at h1
  simp at h1

/-- C6 (amended): the softmax callback negotiates no layout. It builds one
descriptor, from the extents and strides of the caller's input, asks for the
softmax primitive of that descriptor, binds the source and the destination of
the primitive to the caller's input and output pointers, and executes it once.
With an engine that reports no error the run returns, has allocated no buffer
and has executed no reorder; of the output memref only the pointer is read. -/
theorem C6_softmax_binds_directly {R : Type} (eng : Engine) (getAttrs : Nat → opAttrs R)
    (rank : Nat) (memRefInput memRefOutput : StaticMemRef) (index : Nat) (w : World)
    (pd : softmax_pd)
    (hpd : eng.softmax_primitive_desc
      { aprop_kind := prop_kind.forward_inference
        data_desc := desc_of_strides (shape_of memRefInput rank) (strides_of memRefInput rank)
        softmax_axis := (getAttrs index).intAttr } = Except.ok pd)
    (hexec : eng.execute PrimKind.softmax_forward
      [(Arg.SRC, memory_bind pd.src_desc memRefInput.allocatedPtr),
       (Arg.DST, memory_bind pd.dst_desc memRefOutput.allocatedPtr)] = Except.ok ()) :
    __mlir_mkldnn_softmax eng getAttrs rank memRefInput memRefOutput index w =
      Outcome.ok ()
        { allocated := w.allocated
          trace := w.trace ++
            [Event.primitive PrimKind.softmax_forward,
             Event.execute PrimKind.softmax_forward
               [(Arg.SRC, memory_bind pd.src_desc memRefInput.allocatedPtr),
                (Arg.DST, memory_bind pd.dst_desc memRefOutput.allocatedPtr)],
             Event.wait] } := by
  simp only [__mlir_mkldnn_softmax, bind_ok_iff, rethrow_ok_iff, engine_call_ok_iff,
    emit_ok_iff, primitive_execute_ok_iff, stream_wait_ok_iff]
  exact ⟨pd, w, ⟨hpd, rfl⟩, (), _, rfl, (), _, ⟨hexec, rfl⟩, by simp⟩

/-- C6 (amended) on the row-major input and the column-major output. -/
theorem C6_softmax_binds_directly_witness :
    __mlir_mkldnn_softmax sample_engine (fun _ => sample_attrs) 2 sample_row_major
        sample_column_major 0 empty_world =
      Outcome.ok ()
        { allocated := 0
          trace :=
            [Event.primitive PrimKind.softmax_forward,
             Event.execute PrimKind.softmax_forward
               [(Arg.SRC, memory_bind (desc_of_strides [2, 3] [3, 1]) 500),
                (Arg.DST, memory_bind (desc_of_strides [2, 3] [3, 1]) 600)],
             Event.wait] } :=
  C6_softmax_binds_directly sample_engine (fun _ => sample_attrs) 2 sample_row_major
    sample_column_major 0 empty_world
    { src_desc := desc_of_strides [2, 3] [3, 1], dst_desc := desc_of_strides [2, 3] [3, 1] }
    rfl rfl

/-! ### Matrix multiplication with bias -/

theorem block_position (i j n : Nat) (hj : j < n) :
    (i * n + j) / n = i ∧ (i * n + j) % n = j := by
  have hn : 0 < n := by omega
  constructor
  · rw [Nat.add_comm, Nat.add_mul_div_right _ _ hn, Nat.div_eq_of_lt hj, Nat.zero_add]
  · rw [Nat.add_comm, Nat.add_mul_mod_self_right, Nat.mod_eq_of_lt hj]

/-- The value that `cblas_sgemm` leaves at row `i`, column `j` of the block. -/
theorem cblas_sgemm_block {R : Type} [CommRing R] (tA tB : Bool) (M N K : Nat) (alpha : R)
    (A : Nat → R) (lda : Nat) (B : Nat → R) (ldb : Nat) (beta : R) (C : Nat → R)
    (i j : Nat) (hi : i < M) (hj : j < N) :
    cblas_sgemm tA tB M N K alpha A lda B ldb beta C (max 1 N) (i * N + j) =
      alpha * Finset.sum (Finset.range K) (fun l =>
        (if tA then A (l * lda + i) else A (i * lda + l)) *
        (if tB then B (j * ldb + l) else B (l * ldb + j)))
      + beta * C (i * N + j) := by
  have hN : max 1 N = N := by omega
  obtain ⟨hd, hm⟩ := block_position i j N hj
  simp only [cblas_sgemm, hN, hd, hm, hi, hj, and_self, if_true]

theorem vector_data_replicate {R : Type} [Zero R] (n : Nat) (a : R) (p : Nat) (hp : p < n) :
    vector_data (List.replicate n a) p = a := by
  simp [vector_data, List.getD_eq_getElem?_getD, List.getElem?_replicate, hp]

/-- The product of the operand matrices, as the sum that `cblas_sgemm` forms
for contiguous operands. -/
theorem op_matrix_mul_apply {R : Type} [CommRing R] (tA tB : Bool) (m n k : Nat)
    (A B : Nat → R) (i : Fin m) (j : Fin n) :
    (op_matrix tA m k A * op_matrix tB k n B) i j =
      Finset.sum (Finset.range k) (fun l =>
        (if tA then A (l * max 1 (if tA then m else k) + i.val)
          else A (i.val * max 1 (if tA then m else k) + l)) *
        (if tB then B (j.val * max 1 (if tB then k else n) + l)
          else B (l * max 1 (if tB then k else n) + j.val))) := by
  rw [Matrix.mul_apply, Finset.sum_range]
  apply Finset.sum_congr rfl
  intro l _
  have hm : max 1 m = m := by have := i.isLt; omega
  have hn : max 1 n = n := by have := j.isLt; omega
  have hk : max 1 k = k := by have := l.isLt; omega
  cases tA <;> cases tB <;> simp [op_matrix, hm, hn, hk]

/-- C8: GEMM with bias in per-row mode. For row-major contiguous operands and
an output buffer that is none of the input buffers, the callback returns and
the output holds `alpha * (op(A) * op(B))[i][j] + beta * bias[j]` at row `i`,
column `j`: the bias is a row vector of length `n`, and the previous content
of the output buffer does not enter the result. -/
theorem C8_gemm_row_bias {R : Type} [CommRing R] (getAttrs : Nat → opAttrs R) (index : Nat)
    (g : gemmAttrs R) (memRefmatA memRefmatB memRefmatC memRefmatOut : StaticMemRef)
    (heap : FloatHeap R)
    (hg : (getAttrs index).gemmAttrs2d = g)
    (hmode : g.broadcastHint = BroadcastType.ROW)
    (hlda : g.lda = if g.transposeA then g.m else g.k)
    (hldb : g.ldb = if g.transposeB then g.k else g.n)
    (hldc : g.ldc = g.n)
    (_hA : memRefmatOut.allocatedPtr ≠ memRefmatA.allocatedPtr)
    (_hB : memRefmatOut.allocatedPtr ≠ memRefmatB.allocatedPtr)
    (hC : memRefmatOut.allocatedPtr ≠ memRefmatC.allocatedPtr) :
    ∃ heap', __mlir_cblas_sgemm_with_bias getAttrs memRefmatA memRefmatB memRefmatC
        memRefmatOut index heap = Except.ok heap' ∧
      ∀ (i : Fin g.m) (j : Fin g.n),
        heap' memRefmatOut.allocatedPtr (i.val * g.n + j.val) =
          g.alpha * (op_matrix g.transposeA g.m g.k (heap memRefmatA.allocatedPtr) *
            op_matrix g.transposeB g.k g.n (heap memRefmatB.allocatedPtr)) i j
          + g.beta * heap memRefmatC.allocatedPtr j.val := by
  refine ⟨_, by simp only [__mlir_cblas_sgemm_with_bias, hg, hmode, if_true]; rfl, ?_⟩
  intro i j
  simp only [Function.update_same, Function.update_noteq hC.symm]
  rw [hldc,
    cblas_sgemm_block _ _ _ _ _ _ _ _ _ _ _ _ i.val j.val i.isLt j.isLt,
    cblas_sgemm_block _ _ _ _ _ _ _ _ _ _ _ _ i.val j.val i.isLt j.isLt,
    op_matrix_mul_apply, hlda, hldb, Finset.sum_range_one]
  simp only [Nat.mul_one, Nat.add_zero, Nat.zero_mul, Nat.zero_add, Bool.false_eq_true,
    if_false, vector_data_replicate _ _ _ i.isLt]
  ring

theorem size_t_of_int_natCast (a : Nat) (ha : a < 18446744073709551616) :
    size_t_of_int (a : Int) = a := by
  unfold size_t_of_int
  omega

theorem identity_loop_negative {R : Type} [One R] (n : Nat) (hn : n + 1 < 2147483648)
    (v : List R) (i : Int) (hlo : -2147483648 ≤ i) (hhi : i < 0) (fuel : Nat) :
    identity_loop n v i fuel = v := by
  cases fuel with
  | zero => rfl
  | succ f =>
    have hnn : n * n < 2147483648 * 2147483648 :=
      Nat.mul_lt_mul'' (by omega) (by omega)
    have hs : ¬ size_t_of_int i < n * n % 18446744073709551616 := by
      rw [Nat.mod_eq_of_lt (by omega)]
      unfold size_t_of_int
      omega
    simp only [identity_loop, hs, if_false]

/-- The entries of the vector after the loop started at a counter `a` below
`2^31`: the loop has written a one at the positions `a, a + (n+1),
a + 2(n+1), ...` that are below `n * n` and below `2^31`; at the first
position from `2^31` on the `int` counter is negative and the loop exits. -/
theorem identity_loop_getD {R : Type} [Zero R] [One R] (n : Nat) (hn : n + 1 < 2147483648) :
    ∀ (fuel a : Nat) (v : List R) (p : Nat), a < 2147483648 →
      (identity_loop n v (a : Int) fuel).getD p 0 =
        if (∃ t, t < fuel ∧ p = a + t * (n + 1)) ∧ p < n * n ∧ p < 2147483648 ∧ p < v.length
        then 1 else v.getD p 0 := by
  have hnn : n * n < 2147483648 * 2147483648 :=
    Nat.mul_lt_mul'' (by omega) (by omega)
  have hmod : n * n % 18446744073709551616 = n * n := Nat.mod_eq_of_lt (by omega)
  intro fuel
  induction fuel with
  | zero =>
    intro a v p _
    simp [identity_loop]
  | succ f ih =>
    intro a v p ha
    have hsa : size_t_of_int (a : Int) = a := size_t_of_int_natCast a (by omega)
    simp only [identity_loop, hsa, hmod]
    by_cases hi : a < n * n
    · rw [if_pos hi]
      have hsum : (a + (n + 1)) % 18446744073709551616 = a + (n + 1) :=
        Nat.mod_eq_of_lt (by omega)
      rw [hsum]
      have hset : ∀ q, q ≠ a → (v.set a 1).getD q 0 = v.getD q 0 := by
        intro q hq
        simp [List.getD_eq_getElem?_getD, List.getElem?_set, Ne.symm hq]
      have hself : p = a → (v.set a 1).getD p 0 = if p < v.length then 1 else v.getD p 0 := by
        intro hp
        subst hp
        by_cases hl : p < v.length
        · simp [hl, List.getD_eq_getElem?_getD, List.getElem?_set]
        · have hnone : v[p]? = none := List.getElem?_eq_none (by omega)
          simp [hl, List.getD_eq_getElem?_getD, List.getElem?_set, hnone]
      by_cases hnext : a + (n + 1) < 2147483648
      · have hint : int_of_size_t (a + (n + 1)) = ((a + (n + 1) : Nat) : Int) := by
          unfold int_of_size_t
          rw [Nat.mod_eq_of_lt (by omega), if_pos hnext]
        rw [hint, ih (a + (n + 1)) (v.set a 1) p hnext, List.length_set]
        by_cases hp : p = a
        · have h1 : ¬ ∃ t, t < f ∧ p = a + (n + 1) + t * (n + 1) := by
            rintro ⟨t, _, ht⟩; omega
          have h2 : ∃ t, t < f + 1 ∧ p = a + t * (n + 1) := ⟨0, by omega, by simp [hp]⟩
          have hpn : p < n * n := by omega
          have hpw : p < 2147483648 := by omega
          simp only [h1, h2, false_and, if_false, true_and, hpn, hpw, hself hp]
        · have h3 : (∃ t, t < f ∧ p = a + (n + 1) + t * (n + 1)) ↔
              (∃ t, t < f + 1 ∧ p = a + t * (n + 1)) := by
            constructor
            · rintro ⟨t, ht, he⟩
              exact ⟨t + 1, by omega, by rw [he, Nat.succ_mul]; omega⟩
            · rintro ⟨t, ht, he⟩
              cases t with
              | zero => exact absurd (by simpa using he) hp
              | succ t => exact ⟨t, by omega, by rw [he, Nat.succ_mul]; omega⟩
          rw [hset p hp]
          simp only [h3]
      · have hint : int_of_size_t (a + (n + 1)) = ((a + (n + 1) : Nat) : Int) - 4294967296 := by
          unfold int_of_size_t
          rw [Nat.mod_eq_of_lt (by omega), if_neg hnext]
        rw [hint, identity_loop_negative n hn _ _ (by omega) (by omega)]
        by_cases hp : p = a
        · have h2 : ∃ t, t < f + 1 ∧ p = a + t * (n + 1) := ⟨0, by omega, by simp [hp]⟩
          have hpn : p < n * n := by omega
          have hpw : p < 2147483648 := by omega
          simp only [h2, true_and, hpn, hpw, hself hp]
        · have h4 : ¬ ((∃ t, t < f + 1 ∧ p = a + t * (n + 1)) ∧ p < n * n ∧
              p < 2147483648 ∧ p < v.length) := by
            rintro ⟨⟨t, _, he⟩, _, hpw, _⟩
            cases t with
            | zero => exact hp (by simpa using he)
            | succ t =>
              rw [Nat.succ_mul] at he
              have : a + (n + 1) ≤ p := by rw [he]; omega
              omega
          rw [if_neg h4, hset p hp]
    · rw [if_neg hi]
      have h5 : ¬ ((∃ t, t < f + 1 ∧ p = a + t * (n + 1)) ∧ p < n * n ∧
          p < 2147483648 ∧ p < v.length) := by
        rintro ⟨⟨t, _, he⟩, hlt, _⟩
        have : a ≤ p := by rw [he]; exact Nat.le_add_right _ _
        omega
      rw [if_neg h5]

/-- The vector built in the `NONE` branch, for `n` below `2^31 - 1`: the entry
of row `l` and column `j` is 1 when `l = j` and the flat position `l * (n+1)`
of that diagonal entry is below `2^31`, and 0 otherwise. For `n` up to 46340
that is the identity matrix; from 46341 on the last diagonal entries are 0. -/
theorem identity_vector_entry {R : Type} [Zero R] [One R] (n l j : Nat)
    (hn : n + 1 < 2147483648) (hl : l < n) (hj : j < n) :
    vector_data (identity_vector n : List R) (l * n + j) =
      if l = j ∧ l * (n + 1) < 2147483648 then 1 else 0 := by
  have hnn : n * n < 2147483648 * 2147483648 :=
    Nat.mul_lt_mul'' (by omega) (by omega)
  have hmod : n * n % 18446744073709551616 = n * n := Nat.mod_eq_of_lt (by omega)
  have hlt : l * n + j < n * n := by
    have h1 : (l + 1) * n ≤ n * n := Nat.mul_le_mul_right n hl
    rw [Nat.succ_mul] at h1
    omega
  have hloop := identity_loop_getD (R := R) n hn (n * n) 0 (List.replicate (n * n) 0)
    (l * n + j) (by decide)
  simp only [vector_data, identity_vector, hmod]
  rw [show ((0 : Nat) : Int) = 0 from rfl] at hloop
  rw [hloop]
  simp only [List.length_replicate, hlt, and_true, true_and, Nat.zero_add]
  have hzero : (List.replicate (n * n) (0 : R)).getD (l * n + j) 0 = 0 := by
    simp [List.getD_eq_getElem?_getD, List.getElem?_replicate, hlt]
  rw [hzero]
  by_cases hlj : l = j
  · subst hlj
    have hn1 : l < n * n := by
      have h1 : 1 * n ≤ n * n := Nat.mul_le_mul_right n (by omega)
      omega
    have hex : ∃ t, t < n * n ∧ l * n + l = t * (n + 1) := ⟨l, hn1, by rw [Nat.mul_succ]⟩
    have hpos : l * (n + 1) = l * n + l := Nat.mul_succ l n
    simp only [hex, true_and, hpos]
  · have hex : ¬ ∃ t, t < n * n ∧ l * n + j = t * (n + 1) := by
      rintro ⟨t, _, he⟩
      rw [Nat.mul_succ] at he
      rcases Nat.lt_trichotomy t l with h | h | h
      · have h1 : (t + 1) * n ≤ l * n := Nat.mul_le_mul_right n h
        rw [Nat.succ_mul] at h1
        omega
      · subst h; omega
      · have h1 : (l + 1) * n ≤ t * n := Nat.mul_le_mul_right n h
        rw [Nat.succ_mul] at h1
        omega
    simp only [hex, false_and, if_false, hlj]

/-- C8 on the operands of scenario B. -/
theorem C8_gemm_row_bias_witness :
    ∃ heap', __mlir_cblas_sgemm_with_bias (fun _ => sample_attrs) (memref_at 1) (memref_at 2)
        (memref_at 3) (memref_at 4) 0 (scenario_B_heap (fun _ => 0)) = Except.ok heap' ∧
      ∀ (i : Fin 2) (j : Fin 2),
        heap' 4 (i.val * 2 + j.val) =
          1 * (op_matrix false 2 3 (scenario_B_heap (fun _ => 0) 1) *
            op_matrix false 3 2 (scenario_B_heap (fun _ => 0) 2)) i j
          + 1 * scenario_B_heap (fun _ => 0) 3 j.val :=
  C8_gemm_row_bias (fun _ => sample_attrs) 0 sample_attrs.gemmAttrs2d (memref_at 1)
    (memref_at 2) (memref_at 3) (memref_at 4) (scenario_B_heap (fun _ => 0)) rfl rfl rfl rfl rfl
    (by decide) (by decide) (by decide)

/-- C9: GEMM with bias in per-column mode. For row-major contiguous operands
and an output buffer that is none of the input buffers, the callback returns
and the output holds `alpha * (op(A) * op(B))[i][j] + beta * bias[i]` at row
`i`, column `j`: the bias is a column vector of length `m`. -/
theorem C9_gemm_column_bias {R : Type} [CommRing R] (getAttrs : Nat → opAttrs R) (index : Nat)
    (g : gemmAttrs R) (memRefmatA memRefmatB memRefmatC memRefmatOut : StaticMemRef)
    (heap : FloatHeap R)
    (hg : (getAttrs index).gemmAttrs2d = g)
    (hmode : g.broadcastHint = BroadcastType.COLUMN)
    (hlda : g.lda = if g.transposeA then g.m else g.k)
    (hldb : g.ldb = if g.transposeB then g.k else g.n)
    (hldc : g.ldc = g.n)
    (_hA : memRefmatOut.allocatedPtr ≠ memRefmatA.allocatedPtr)
    (_hB : memRefmatOut.allocatedPtr ≠ memRefmatB.allocatedPtr)
    (hC : memRefmatOut.allocatedPtr ≠ memRefmatC.allocatedPtr) :
    ∃ heap', __mlir_cblas_sgemm_with_bias getAttrs memRefmatA memRefmatB memRefmatC
        memRefmatOut index heap = Except.ok heap' ∧
      ∀ (i : Fin g.m) (j : Fin g.n),
        heap' memRefmatOut.allocatedPtr (i.val * g.n + j.val) =
          g.alpha * (op_matrix g.transposeA g.m g.k (heap memRefmatA.allocatedPtr) *
            op_matrix g.transposeB g.k g.n (heap memRefmatB.allocatedPtr)) i j
          + g.beta * heap memRefmatC.allocatedPtr i.val := by
  refine ⟨_, by simp [__mlir_cblas_sgemm_with_bias, hg, hmode]; rfl, ?_⟩
  intro i j
  simp only [Function.update_same, Function.update_noteq hC.symm]
  rw [hldc,
    cblas_sgemm_block _ _ _ _ _ _ _ _ _ _ _ _ i.val j.val i.isLt j.isLt,
    cblas_sgemm_block _ _ _ _ _ _ _ _ _ _ _ _ i.val j.val i.isLt j.isLt,
    op_matrix_mul_apply, hlda, hldb, Finset.sum_range_one]
  simp only [Nat.mul_one, Nat.add_zero, Nat.zero_mul, Nat.zero_add, Bool.false_eq_true,
    if_false, vector_data_replicate _ _ _ j.isLt]
  ring

/-- C9 on the operands of scenario B, with the hint `COLUMN`. -/
theorem C9_gemm_column_bias_witness :
    ∃ heap', __mlir_cblas_sgemm_with_bias (fun _ => sample_attrs_with BroadcastType.COLUMN)
        (memref_at 1) (memref_at 2) (memref_at 3) (memref_at 4) 0
        (scenario_B_heap (fun _ => 0)) = Except.ok heap' ∧
      ∀ (i : Fin 2) (j : Fin 2),
        heap' 4 (i.val * 2 + j.val) =
          1 * (op_matrix false 2 3 (scenario_B_heap (fun _ => 0) 1) *
            op_matrix false 3 2 (scenario_B_heap (fun _ => 0) 2)) i j
          + 1 * scenario_B_heap (fun _ => 0) 3 i.val :=
  C9_gemm_column_bias (fun _ => sample_attrs_with BroadcastType.COLUMN) 0
    (sample_attrs_with BroadcastType.COLUMN).gemmAttrs2d (memref_at 1)
    (memref_at 2) (memref_at 3) (memref_at 4) (scenario_B_heap (fun _ => 0)) rfl rfl rfl rfl rfl
    (by decide) (by decide) (by decide)

/-- The output of the GEMM with bias in the mode `NONE`, for `n` below
`2^31 - 1`, row-major contiguous operands, a full `m x n` bias matrix `C` and
an output buffer that is none of the input buffers: the callback returns and
the output holds `alpha * (op(A) * op(B))[i][j] + beta * C[i][j]` at row `i`
and column `j` when the flat position `j * (n+1)` of the diagonal entry of
column `j` is below `2^31`, and `alpha * (op(A) * op(B))[i][j]` alone
otherwise. For `n` up to 46340 every column is of the first kind. -/
theorem gemm_full_bias_output {R : Type} [CommRing R] (getAttrs : Nat → opAttrs R) (index : Nat)
    (g : gemmAttrs R) (memRefmatA memRefmatB memRefmatC memRefmatOut : StaticMemRef)
    (heap : FloatHeap R)
    (hg : (getAttrs index).gemmAttrs2d = g)
    (hmode : g.broadcastHint = BroadcastType.NONE)
    (hn : g.n + 1 < 2147483648)
    (hlda : g.lda = if g.transposeA then g.m else g.k)
    (hldb : g.ldb = if g.transposeB then g.k else g.n)
    (hldc : g.ldc = g.n)
    (hC : memRefmatOut.allocatedPtr ≠ memRefmatC.allocatedPtr) :
    ∃ heap', __mlir_cblas_sgemm_with_bias getAttrs memRefmatA memRefmatB memRefmatC
        memRefmatOut index heap = Except.ok heap' ∧
      ∀ (i : Fin g.m) (j : Fin g.n),
        heap' memRefmatOut.allocatedPtr (i.val * g.n + j.val) =
          g.alpha * (op_matrix g.transposeA g.m g.k (heap memRefmatA.allocatedPtr) *
            op_matrix g.transposeB g.k g.n (heap memRefmatB.allocatedPtr)) i j
          + g.beta * (if j.val * (g.n + 1) < 2147483648
              then heap memRefmatC.allocatedPtr (i.val * g.n + j.val) else 0) := by
  refine ⟨_, by simp [__mlir_cblas_sgemm_with_bias, hg, hmode]; rfl, ?_⟩
  intro i j
  have hmax : max 1 g.n = g.n := by have := j.isLt; omega
  have hsum : Finset.sum (Finset.range g.n) (fun l =>
      heap memRefmatC.allocatedPtr (i.val * g.n + l) *
        vector_data (identity_vector g.n : List R) (l * g.n + j.val)) =
      if j.val * (g.n + 1) < 2147483648
        then heap memRefmatC.allocatedPtr (i.val * g.n + j.val) else 0 := by
    rw [Finset.sum_eq_single j.val]
    · rw [identity_vector_entry g.n j.val j.val hn j.isLt j.isLt]
      by_cases hd : j.val * (g.n + 1) < 2147483648
      · simp [hd]
      · simp [hd]
    · intro l hl hne
      rw [identity_vector_entry g.n l j.val hn (Finset.mem_range.mp hl) j.isLt]
      simp [hne]
    · intro hj
      exact absurd (Finset.mem_range.mpr j.isLt) hj
  simp only [Function.update_same, Function.update_noteq hC.symm]
  rw [hldc,
    cblas_sgemm_block _ _ _ _ _ _ _ _ _ _ _ _ i.val j.val i.isLt j.isLt,
    cblas_sgemm_block _ _ _ _ _ _ _ _ _ _ _ _ i.val j.val i.isLt j.isLt,
    op_matrix_mul_apply, hlda, hldb]
  simp only [Bool.false_eq_true, if_false, hmax, hsum]
  ring

/-- C10: GEMM with bias in the mode `NONE` at `m = 1`, `n = 46341`, `k = 1`,
`alpha = beta = 1`, with `A` and `B` zero and a bias matrix of ones. The
diagonal entry of the last row of the matrix built in the callback is 0, not
1: the matrix is not the identity. The callback returns and leaves 0 in the
last column of the output, where `alpha * (op(A) * op(B))[0][46340] +
beta * C[0][46340]` is 1; in the column before it leaves that value, 1. -/
theorem C10_identity_not_built_at_46341 :
    vector_data (identity_vector 46341 : List Int) (46340 * 46341 + 46340) = 0 ∧
    vector_data (identity_vector 46341 : List Int) (46339 * 46341 + 46339) = 1 ∧
    ∃ heap', __mlir_cblas_sgemm_with_bias (fun _ => large_gemm_attrs) (memref_at 1)
        (memref_at 2) (memref_at 3) (memref_at 4) 0 bias_of_ones_heap = Except.ok heap' ∧
      heap' 4 46340 = 0 ∧
      heap' 4 46339 = 1 ∧
      (1 : Int) * (op_matrix false 1 1 (bias_of_ones_heap 1) *
          op_matrix false 1 46341 (bias_of_ones_heap 2)) (0 : Fin 1)
            (⟨46340, by decide⟩ : Fin 46341)
        + 1 * bias_of_ones_heap 3 46340 = 1 := by
  refine ⟨?_, ?_, ?_⟩
  · rw [identity_vector_entry 46341 46340 46340 (by decide) (by decide) (by decide)]
    decide
  · rw [identity_vector_entry 46341 46339 46339 (by decide) (by decide) (by decide)]
    decide
  · obtain ⟨heap', hrun, hout⟩ := gemm_full_bias_output (fun _ => large_gemm_attrs) 0
      large_gemm_attrs.gemmAttrs2d (memref_at 1) (memref_at 2) (memref_at 3) (memref_at 4)
      bias_of_ones_heap rfl rfl (by decide) rfl rfl rfl (by decide)
    refine ⟨heap', hrun, ?_, ?_, ?_⟩
    · have h := hout (0 : Fin 1) (⟨46340, by decide⟩ : Fin 46341)
      simp only [op_matrix_mul_apply] at h
      simpa [large_gemm_attrs, memref_at, bias_of_ones_heap] using h
    · have h := hout (0 : Fin 1) (⟨46339, by decide⟩ : Fin 46341)
      simp only [op_matrix_mul_apply] at h
      simpa [large_gemm_attrs, memref_at, bias_of_ones_heap] using h
    · simp [op_matrix_mul_apply, bias_of_ones_heap]

/-- The output of scenario B, for every previous content of the output
buffer. -/
theorem scenario_B_output (out0 : Nat → Int) :
    (__mlir_cblas_sgemm_with_bias (fun _ => sample_attrs) (memref_at 1) (memref_at 2)
      (memref_at 3) (memref_at 4) 0 (scenario_B_heap out0)).map
        (fun heap => read_matrix (heap 4) 2 2) = Except.ok [[5, 6], [11, 12]] := by
  simp [__mlir_cblas_sgemm_with_bias, sample_attrs, memref_at, read_matrix, cblas_sgemm,
    scenario_B_heap, vector_data, Finset.sum_range_succ, Except.map, List.range_succ,
    Function.update]

/-- C7 (counterexample): on the operands of scenario B the callback does not
leave `[[5,6],[12,13]]` in the output buffer. -/
theorem C7_scenario_B_not_12_13 :
    (__mlir_cblas_sgemm_with_bias (fun _ => sample_attrs) (memref_at 1) (memref_at 2)
      (memref_at 3) (memref_at 4) 0 (scenario_B_heap (fun _ => 0))).map
        (fun heap => read_matrix (heap 4) 2 2) ≠ Except.ok [[5, 6], [12, 13]] := by
  rw [scenario_B_output]
  intro h
  injection h with h
  revert h
  decide

/-- C7 (amended): on the operands of scenario B (`m = 2`, `n = 2`, `k = 3`, no
transposes, `lda = 3`, `ldb = 2`, `ldc = 2`, `alpha = 1`, `beta = 1`, per-row
broadcast, bias row `[1,1]`) the callback returns and leaves `[[5,6],[11,12]]`
in the output buffer, whatever the buffer held before. -/
theorem C7_scenario_B (out0 : Nat → Int) :
    (__mlir_cblas_sgemm_with_bias (fun _ => sample_attrs) (memref_at 1) (memref_at 2)
      (memref_at 3) (memref_at 4) 0 (scenario_B_heap out0)).map
        (fun heap => read_matrix (heap 4) 2 2) = Except.ok [[5, 6], [11, 12]] :=
  scenario_B_output out0

/-! ### Failures and routing of the native dispatch -/

/-- C11: the GEMM callback throws the unsupported-broadcast failure exactly
when the broadcast hint of the call site is none of `ROW`, `COLUMN`,
`ROWCOLUMN` and `NONE`, and it returns exactly when the hint is one of these
four. -/
theorem C11_unsupported_broadcast {R : Type} [CommRing R] (getAttrs : Nat → opAttrs R)
    (memRefmatA memRefmatB memRefmatC memRefmatOut : StaticMemRef) (index : Nat)
    (heap : FloatHeap R) :
    (__mlir_cblas_sgemm_with_bias getAttrs memRefmatA memRefmatB memRefmatC memRefmatOut index
        heap = Except.error (Failure.unreachable "Unsupported broadcast") ↔
      ¬ ((getAttrs index).gemmAttrs2d.broadcastHint = BroadcastType.ROW ∨
        (getAttrs index).gemmAttrs2d.broadcastHint = BroadcastType.COLUMN ∨
        (getAttrs index).gemmAttrs2d.broadcastHint = BroadcastType.ROWCOLUMN ∨
        (getAttrs index).gemmAttrs2d.broadcastHint = BroadcastType.NONE)) ∧
    ((∃ heap', __mlir_cblas_sgemm_with_bias getAttrs memRefmatA memRefmatB memRefmatC
        memRefmatOut index heap = Except.ok heap') ↔
      ((getAttrs index).gemmAttrs2d.broadcastHint = BroadcastType.ROW ∨
        (getAttrs index).gemmAttrs2d.broadcastHint = BroadcastType.COLUMN ∨
        (getAttrs index).gemmAttrs2d.broadcastHint = BroadcastType.ROWCOLUMN ∨
        (getAttrs index).gemmAttrs2d.broadcastHint = BroadcastType.NONE)) := by
  unfold __mlir_cblas_sgemm_with_bias
  cases h : (getAttrs index).gemmAttrs2d.broadcastHint <;> simp [h]

theorem bind_apply {α β : Type} (m : Callback α) (f : α → Callback β) (w : World) :
    (m >>= f) w =
      match m w with
      | Outcome.ok a w1 => f a w1
      | Outcome.fail e w1 => Outcome.fail e w1 :=
  rfl

theorem pure_apply {α : Type} (a : α) (w : World) : (pure a : Callback α) w = Outcome.ok a w :=
  rfl

theorem shape_of_length (memRef : StaticMemRef) (rank : Nat) :
    (shape_of memRef rank).length = rank := by
  simp [shape_of]

theorem desc_of_tag_required_format_error (memRef : StaticMemRef) (rank : Nat) (h4 : rank ≠ 4)
    (h5 : rank ≠ 5) :
    desc_of_tag (shape_of memRef rank) (if (rank == 4) = true then FORMAT.nchw else FORMAT.ncdhw)
      = Except.error "could not initialize a memory descriptor by tag" := by
  simp [desc_of_tag, shape_of_length, h4, h5]

/-- C12 (counterexample): called with rank 2, the convolution+bias callback
fails with the `mkldnn::error` of the library for a primitive created from an
unassigned descriptor; called with rank 3, the pooling callback fails with the
`mkldnn::error` of the library for a descriptor of rank 3 under a 5-d tag.
Neither failure is thrown by a statement of the callbacks: there is no check of
the rank and no failure of its own for it. -/
theorem C12_no_rank_failure_of_its_own :
    __mlir_mkldnn_convbias sample_engine (fun _ => sample_attrs) 2 sample_data sample_weights
        sample_bias sample_output 0 empty_world
      = Outcome.fail (Failure.mkldnn_error "could not create a primitive") empty_world ∧
    __mlir_mkldnn_pooling sample_engine (fun _ => sample_attrs) 3 sample_data sample_output 0
        OpType.MAXPOOL empty_world
      = Outcome.fail (Failure.mkldnn_error "could not initialize a memory descriptor by tag")
          empty_world ∧
    ¬ (∃ e w, __mlir_mkldnn_convbias sample_engine (fun _ => sample_attrs) 2 sample_data
        sample_weights sample_bias sample_output 0 empty_world = Outcome.fail e w ∧
        thrown_by_callback e = true) ∧
    ¬ (∃ e w, __mlir_mkldnn_pooling sample_engine (fun _ => sample_attrs) 3 sample_data
        sample_output 0 OpType.MAXPOOL empty_world = Outcome.fail e w ∧
        thrown_by_callback e = true) := by
  have h1 : __mlir_mkldnn_convbias sample_engine (fun _ => sample_attrs) 2 sample_data
      sample_weights sample_bias sample_output 0 empty_world
      = Outcome.fail (Failure.mkldnn_error "could not create a primitive") empty_world := by
    decide
  have h2 : __mlir_mkldnn_pooling sample_engine (fun _ => sample_attrs) 3 sample_data
      sample_output 0 OpType.MAXPOOL empty_world
      = Outcome.fail (Failure.mkldnn_error "could not initialize a memory descriptor by tag")
          empty_world := by
    decide
  refine ⟨h1, h2, ?_, ?_⟩
  · rintro ⟨e, w, he, ht⟩
    rw [h1] at he
    cases he
    exact absurd ht (by decide)
  · rintro ⟨e, w, he, ht⟩
    rw [h2] at he
    cases he
    exact absurd ht (by decide)

/-- C12 (amended): the callbacks do not check the rank. With a rank other than
3, 4 and 5 the convolution+bias callback assigns no primitive descriptor and
fails when it creates the primitive, with the `mkldnn::error` of the library;
with a rank other than 4 and 5 the callbacks of pooling, max-pool backprop and
avg-pool backprop fail when they build the memory descriptor of the 5-d tag,
with the `mkldnn::error` of the library. In every case the failure leaves the
library uncaught, and no primitive has been created or executed: the state is
the one before the call. -/
theorem C12_unhandled_rank_fails_in_library {R : Type} (eng : Engine)
    (getAttrs : Nat → opAttrs R) (rank : Nat)
    (memRef0 memRef1 memRef2 memRefOutput : StaticMemRef) (index : Nat) (type : OpType)
    (w : World) :
    (rank ≠ 3 → rank ≠ 4 → rank ≠ 5 →
      __mlir_mkldnn_convbias eng getAttrs rank memRef0 memRef1 memRef2 memRefOutput index w
        = Outcome.fail (Failure.mkldnn_error "could not create a primitive") w) ∧
    (rank ≠ 4 → rank ≠ 5 →
      __mlir_mkldnn_pooling eng getAttrs rank memRef0 memRefOutput index type w
        = Outcome.fail (Failure.mkldnn_error "could not initialize a memory descriptor by tag")
            w ∧
      __mlir_mkldnn_maxpoolbackprop eng getAttrs rank memRef0 memRef1 memRefOutput index w
        = Outcome.fail (Failure.mkldnn_error "could not initialize a memory descriptor by tag")
            w ∧
      __mlir_mkldnn_avgpoolbackprop eng getAttrs rank memRef0 memRefOutput index w
        = Outcome.fail (Failure.mkldnn_error "could not initialize a memory descriptor by tag")
            w) := by
  constructor
  · intro h3 h4 h5
    simp [__mlir_mkldnn_convbias, bind_apply, pure_apply, engine_call, desc_of_tag,
      primitive_create, throw_failure, h3, h4, h5]
  · intro h4 h5
    refine ⟨?_, ?_, ?_⟩
    · simp only [__mlir_mkldnn_pooling, bind_apply,
        desc_of_tag_required_format_error memRef0 rank h4 h5, engine_call, throw_failure]
    · simp only [__mlir_mkldnn_maxpoolbackprop, bind_apply,
        desc_of_tag_required_format_error memRef1 rank h4 h5, engine_call, throw_failure]
    · simp only [__mlir_mkldnn_avgpoolbackprop, bind_apply,
        desc_of_tag_required_format_error memRef0 rank h4 h5, engine_call, throw_failure]

/-- C12 (amended) at rank 6 for convolution+bias and at rank 2 for pooling. -/
theorem C12_unhandled_rank_fails_in_library_witness :
    __mlir_mkldnn_convbias sample_engine (fun _ => sample_attrs) 6 sample_data sample_weights
        sample_bias sample_output 0 empty_world
      = Outcome.fail (Failure.mkldnn_error "could not create a primitive") empty_world ∧
    __mlir_mkldnn_pooling sample_engine (fun _ => sample_attrs) 2 sample_data sample_output 0
        OpType.AVGPOOL empty_world
      = Outcome.fail (Failure.mkldnn_error "could not initialize a memory descriptor by tag")
          empty_world :=
  ⟨(C12_unhandled_rank_fails_in_library sample_engine (fun _ => sample_attrs) 6 sample_data
      sample_weights sample_bias sample_output 0 OpType.AVGPOOL empty_world).1
      (by decide) (by decide) (by decide),
   ((C12_unhandled_rank_fails_in_library sample_engine (fun _ => sample_attrs) 2 sample_data
      sample_weights sample_bias sample_output 0 OpType.AVGPOOL empty_world).2
      (by decide) (by decide)).1⟩

theorem conv_request_vectors {R : Type} (eng : Engine) (getAttrs : Nat → opAttrs R)
    (rank : Nat) (memRefData memRefWeights memRefBias memRefOutput : StaticMemRef) (index : Nat) :
    (conv_request eng getAttrs rank memRefData memRefWeights memRefBias memRefOutput
      index).strides.length = rank - 2 ∧
    (conv_request eng getAttrs rank memRefData memRefWeights memRefBias memRefOutput
      index).dilates.length = rank - 2 ∧
    (conv_request eng getAttrs rank memRefData memRefWeights memRefBias memRefOutput
      index).padding_l.length = rank - 2 ∧
    (conv_request eng getAttrs rank memRefData memRefWeights memRefBias memRefOutput
      index).padding_r.length = rank - 2 ∧
    ∀ i, i < rank - 2 →
      dims_at (conv_request eng getAttrs rank memRefData memRefWeights memRefBias memRefOutput
          index).strides i
        = dims_at (conv_attrs_of_rank (getAttrs index) rank).windowStrides i ∧
      dims_at (conv_request eng getAttrs rank memRefData memRefWeights memRefBias memRefOutput
          index).dilates i
        = dims_at (conv_attrs_of_rank (getAttrs index) rank).windowDilation i - 1 ∧
      dims_at (conv_request eng getAttrs rank memRefData memRefWeights memRefBias memRefOutput
          index).padding_l i
        = dims_at (conv_attrs_of_rank (getAttrs index) rank).padBelow i ∧
      dims_at (conv_request eng getAttrs rank memRefData memRefWeights memRefBias memRefOutput
          index).padding_r i
        = dims_at (conv_attrs_of_rank (getAttrs index) rank).padAbove i := by
  refine ⟨by simp [conv_request], by simp [conv_request], by simp [conv_request],
    by simp [conv_request], ?_⟩
  intro i hi
  simp [conv_request, dims_at, List.getD_eq_getElem?_getD, List.getElem?_map,
    List.getElem?_range hi]

theorem convbias_same_run {R : Type} (eng : Engine) (getAttrs : Nat → opAttrs R)
    (rank : Nat) (memRefData memRefWeights memRefBias memRefOutput : StaticMemRef) (index : Nat)
    (w : World) (answers : convolution_desc → Bool → Except String convolution_pd)
    (hr : rank = 3 ∨ rank = 4 ∨ rank = 5)
    (hanswer :
      answers
          (conv_request eng getAttrs rank memRefData memRefWeights memRefBias memRefOutput index)
          (conv_attrs_of_rank (getAttrs index) rank).withRelu
        = eng.convolution_primitive_desc
          (conv_request eng getAttrs rank memRefData memRefWeights memRefBias memRefOutput index)
          (conv_attrs_of_rank (getAttrs index) rank).withRelu) :
    __mlir_mkldnn_convbias { eng with convolution_primitive_desc := answers } getAttrs rank
        memRefData memRefWeights memRefBias memRefOutput index w
      = __mlir_mkldnn_convbias eng getAttrs rank memRefData memRefWeights memRefBias
          memRefOutput index w := by
  have e1 : ∀ lhs rhs ptr,
      convert_layout_if_diff { eng with convolution_primitive_desc := answers } lhs rhs ptr
        = convert_layout_if_diff eng lhs rhs ptr := fun _ _ _ => rfl
  have e2 : ∀ k exec_args,
      primitive_execute { eng with convolution_primitive_desc := answers } k exec_args
        = primitive_execute eng k exec_args := fun _ _ => rfl
  have e3 : ∀ m rhs ptr,
      convert_output_layout { eng with convolution_primitive_desc := answers } m rhs ptr
        = convert_output_layout eng m rhs ptr := fun _ _ _ => rfl
  rcases hr with rfl | rfl | rfl
  · simp only [conv_request, conv_attrs_of_rank, get_conv_algo, any_format_desc] at hanswer
    simp [__mlir_mkldnn_convbias, bind_apply, pure_apply, engine_call, desc_of_tag,
      get_conv_algo, List.range_succ, e1, e2, e3] at hanswer ⊢
    rw [hanswer]
  · simp only [conv_request, conv_attrs_of_rank, get_conv_algo, any_format_desc] at hanswer
    simp [__mlir_mkldnn_convbias, bind_apply, pure_apply, engine_call, desc_of_tag,
      get_conv_algo, List.range_succ, e1, e2, e3] at hanswer ⊢
    rw [hanswer]
  · simp only [conv_request, conv_attrs_of_rank, get_conv_algo, any_format_desc] at hanswer
    simp [__mlir_mkldnn_convbias, bind_apply, pure_apply, engine_call, desc_of_tag,
      get_conv_algo, List.range_succ, e1, e2, e3] at hanswer ⊢
    rw [hanswer]

theorem convbias_refused {R : Type} (eng : Engine) (getAttrs : Nat → opAttrs R)
    (rank : Nat) (memRefData memRefWeights memRefBias memRefOutput : StaticMemRef) (index : Nat)
    (w : World) (hr : rank = 3 ∨ rank = 4 ∨ rank = 5) (message : String)
    (hrefused :
      eng.convolution_primitive_desc
          (conv_request eng getAttrs rank memRefData memRefWeights memRefBias memRefOutput index)
          (conv_attrs_of_rank (getAttrs index) rank).withRelu = Except.error message) :
    __mlir_mkldnn_convbias eng getAttrs rank memRefData memRefWeights memRefBias memRefOutput
        index w
      = Outcome.fail
          (Failure.ngraph_error ("Could not create mkldnn conv descriptor " ++ message)) w := by
  rcases hr with rfl | rfl | rfl
  · simp only [conv_request, conv_attrs_of_rank, get_conv_algo, any_format_desc] at hrefused
    simp [__mlir_mkldnn_convbias, bind_apply, pure_apply, engine_call, desc_of_tag,
      get_conv_algo, List.range_succ, rethrow, throw_failure] at hrefused ⊢
    rw [hrefused]
    rfl
  · simp only [conv_request, conv_attrs_of_rank, get_conv_algo, any_format_desc] at hrefused
    simp [__mlir_mkldnn_convbias, bind_apply, pure_apply, engine_call, desc_of_tag,
      get_conv_algo, List.range_succ, rethrow, throw_failure] at hrefused ⊢
    rw [hrefused]
    rfl
  · simp only [conv_request, conv_attrs_of_rank, get_conv_algo, any_format_desc] at hrefused
    simp [__mlir_mkldnn_convbias, bind_apply, pure_apply, engine_call, desc_of_tag,
      get_conv_algo, List.range_succ, rethrow, throw_failure] at hrefused ⊢
    rw [hrefused]
    rfl

/-- C13: for a rank `r` among 3, 4 and 5 the convolution+bias callback builds
its primitive descriptor from the convolution descriptor `conv_request`, whose
four vectors have `r - 2` components: the window strides, the window dilation
lowered by one, the padding below and the padding above of the
`(r-2)`-dimensional attributes of the call site, component by component. The
callback asks the engine for that descriptor and for no other: replacing the
answers of the engine to every other request changes nothing to the run; when
the engine refuses that request with a message, the callback throws
`ngraph_error` with "Could not create mkldnn conv descriptor " and the message,
having done nothing; when the engine answers it and creates and executes the
primitives, the callback returns; and a run that returns has executed the
convolution on a destination of the destination descriptor of that answer. -/
theorem C13_conv_attributes {R : Type} (eng : Engine) (getAttrs : Nat → opAttrs R)
    (rank : Nat) (memRefData memRefWeights memRefBias memRefOutput : StaticMemRef) (index : Nat)
    (w : World) (answers : convolution_desc → Bool → Except String convolution_pd)
    (hr : rank = 3 ∨ rank = 4 ∨ rank = 5)
    (hanswer :
      answers
          (conv_request eng getAttrs rank memRefData memRefWeights memRefBias memRefOutput index)
          (conv_attrs_of_rank (getAttrs index) rank).withRelu
        = eng.convolution_primitive_desc
          (conv_request eng getAttrs rank memRefData memRefWeights memRefBias memRefOutput index)
          (conv_attrs_of_rank (getAttrs index) rank).withRelu) :
    __mlir_mkldnn_convbias { eng with convolution_primitive_desc := answers } getAttrs rank
        memRefData memRefWeights memRefBias memRefOutput index w
      = __mlir_mkldnn_convbias eng getAttrs rank memRefData memRefWeights memRefBias
          memRefOutput index w ∧
    (∀ message,
      eng.convolution_primitive_desc
          (conv_request eng getAttrs rank memRefData memRefWeights memRefBias memRefOutput index)
          (conv_attrs_of_rank (getAttrs index) rank).withRelu = Except.error message →
      __mlir_mkldnn_convbias eng getAttrs rank memRefData memRefWeights memRefBias memRefOutput
          index w
        = Outcome.fail
            (Failure.ngraph_error ("Could not create mkldnn conv descriptor " ++ message)) w) ∧
    (∀ pd,
      eng.convolution_primitive_desc
          (conv_request eng getAttrs rank memRefData memRefWeights memRefBias memRefOutput index)
          (conv_attrs_of_rank (getAttrs index) rank).withRelu = Except.ok pd →
      (∀ a b, eng.reorder_create a b = Except.ok ()) →
      (∀ k exec_args, eng.execute k exec_args = Except.ok ()) →
      ∃ w', __mlir_mkldnn_convbias eng getAttrs rank memRefData memRefWeights memRefBias
        memRefOutput index w = Outcome.ok () w') ∧
    (∀ w', __mlir_mkldnn_convbias eng getAttrs rank memRefData memRefWeights memRefBias
        memRefOutput index w = Outcome.ok () w' →
      ∃ pd,
        eng.convolution_primitive_desc
            (conv_request eng getAttrs rank memRefData memRefWeights memRefBias memRefOutput
              index)
            (conv_attrs_of_rank (getAttrs index) rank).withRelu = Except.ok pd ∧
        ∃ events, w'.trace = w.trace ++ events ∧
          output_negotiated PrimKind.convolution_forward Arg.DST
            (desc_of_strides (shape_of memRefOutput rank) (strides_of memRefOutput rank))
            pd.dst_desc memRefOutput.allocatedPtr events) ∧
    (conv_request eng getAttrs rank memRefData memRefWeights memRefBias memRefOutput
      index).strides.length = rank - 2 ∧
    (conv_request eng getAttrs rank memRefData memRefWeights memRefBias memRefOutput
      index).dilates.length = rank - 2 ∧
    (conv_request eng getAttrs rank memRefData memRefWeights memRefBias memRefOutput
      index).padding_l.length = rank - 2 ∧
    (conv_request eng getAttrs rank memRefData memRefWeights memRefBias memRefOutput
      index).padding_r.length = rank - 2 ∧
    ∀ i, i < rank - 2 →
      dims_at (conv_request eng getAttrs rank memRefData memRefWeights memRefBias memRefOutput
          index).strides i
        = dims_at (conv_attrs_of_rank (getAttrs index) rank).windowStrides i ∧
      dims_at (conv_request eng getAttrs rank memRefData memRefWeights memRefBias memRefOutput
          index).dilates i
        = dims_at (conv_attrs_of_rank (getAttrs index) rank).windowDilation i - 1 ∧
      dims_at (conv_request eng getAttrs rank memRefData memRefWeights memRefBias memRefOutput
          index).padding_l i
        = dims_at (conv_attrs_of_rank (getAttrs index) rank).padBelow i ∧
      dims_at (conv_request eng getAttrs rank memRefData memRefWeights memRefBias memRefOutput
          index).padding_r i
        = dims_at (conv_attrs_of_rank (getAttrs index) rank).padAbove i := by
  refine ⟨convbias_same_run eng getAttrs rank memRefData memRefWeights memRefBias memRefOutput
      index w answers hr hanswer, ?_, ?_, ?_,
    conv_request_vectors eng getAttrs rank memRefData memRefWeights memRefBias memRefOutput
      index⟩
  · intro message hrefused
    exact convbias_refused eng getAttrs rank memRefData memRefWeights memRefBias memRefOutput
      index w hr message hrefused
  · intro pd hpd hre hex
    obtain ⟨_, w1, h, -⟩ :=
      convbias_returns eng getAttrs rank hr memRefData memRefWeights memRefBias memRefOutput
        index ⟨pd, hpd⟩ hre hex w
    exact ⟨w1, h⟩
  · intro w' h
    exact (convbias_output_negotiated eng getAttrs rank memRefData memRefWeights memRefBias
      memRefOutput index w w' h).2

/-- C13 at rank 4 on the sample tensors: an engine that answers only the
request `conv_request` runs the callback as `sample_engine` does; an engine
that refuses that request makes the callback throw with the message of the
refusal; on `sample_engine` the callback returns, having executed the
convolution on a destination of the descriptor that the engine answered; and
the four vectors of the request have two components. -/
theorem C13_conv_attributes_witness :
    __mlir_mkldnn_convbias
        (engine_answering_only
          (conv_request sample_engine (fun _ => sample_attrs) 4 sample_data sample_weights
            sample_bias sample_output 0) true)
        (fun _ => sample_attrs) 4 sample_data sample_weights sample_bias sample_output 0
        empty_world
      = __mlir_mkldnn_convbias sample_engine (fun _ => sample_attrs) 4 sample_data
          sample_weights sample_bias sample_output 0 empty_world ∧
    __mlir_mkldnn_convbias
        (engine_answering_only
          (conv_request sample_engine (fun _ => sample_attrs) 4 sample_data sample_weights
            sample_bias sample_output 0) false)
        (fun _ => sample_attrs) 4 sample_data sample_weights sample_bias sample_output 0
        empty_world
      = Outcome.fail
          (Failure.ngraph_error
            ("Could not create mkldnn conv descriptor " ++ "unexpected request"))
          empty_world ∧
    (∃ w', __mlir_mkldnn_convbias sample_engine (fun _ => sample_attrs) 4 sample_data
        sample_weights sample_bias sample_output 0 empty_world = Outcome.ok () w') ∧
    (∃ pd,
      sample_engine.convolution_primitive_desc
          (conv_request sample_engine (fun _ => sample_attrs) 4 sample_data sample_weights
            sample_bias sample_output 0)
          (conv_attrs_of_rank ((fun _ => sample_attrs) 0) 4).withRelu = Except.ok pd ∧
      ∃ events,
        (final_world (__mlir_mkldnn_convbias sample_engine (fun _ => sample_attrs) 4
          sample_data sample_weights sample_bias sample_output 0 empty_world)).trace
          = empty_world.trace ++ events ∧
        output_negotiated PrimKind.convolution_forward Arg.DST
          (desc_of_strides (shape_of sample_output 4) (strides_of sample_output 4))
          pd.dst_desc sample_output.allocatedPtr events) ∧
    (conv_request sample_engine (fun _ => sample_attrs) 4 sample_data sample_weights sample_bias
      sample_output 0).strides = [1, 1] ∧
    (conv_request sample_engine (fun _ => sample_attrs) 4 sample_data sample_weights sample_bias
      sample_output 0).dilates = [0, 0] :=
  ⟨(C13_conv_attributes sample_engine (fun _ => sample_attrs) 4 sample_data sample_weights
      sample_bias sample_output 0 empty_world
      (fun cd r =>
        if cd = conv_request sample_engine (fun _ => sample_attrs) 4 sample_data sample_weights
            sample_bias sample_output 0 ∧ r = true
        then sample_engine.convolution_primitive_desc cd r
        else Except.error "unexpected request")
      (by decide) (by simp [conv_attrs_of_rank, sample_attrs])).1,
   (C13_conv_attributes
      (engine_answering_only
        (conv_request sample_engine (fun _ => sample_attrs) 4 sample_data sample_weights
          sample_bias sample_output 0) false)
      (fun _ => sample_attrs) 4 sample_data sample_weights sample_bias sample_output 0
      empty_world
      (engine_answering_only
        (conv_request sample_engine (fun _ => sample_attrs) 4 sample_data sample_weights
          sample_bias sample_output 0) false).convolution_primitive_desc
      (by decide) rfl).2.1 "unexpected request" rfl,
   (C13_conv_attributes sample_engine (fun _ => sample_attrs) 4 sample_data sample_weights
      sample_bias sample_output 0 empty_world sample_engine.convolution_primitive_desc
      (by decide) rfl).2.2.1 _ rfl (fun _ _ => rfl) (fun _ _ => rfl),
   (C13_conv_attributes sample_engine (fun _ => sample_attrs) 4 sample_data sample_weights
      sample_bias sample_output 0 empty_world sample_engine.convolution_primitive_desc
      (by decide) rfl).2.2.2.1 _ (by decide),
   by decide, by decide⟩

theorem run_on_node_version_0 (op_tbl : List String) (g : Graph) (id : Nat) (n : Node)
    (hnode : g.node id = some n) (hversion : n.op.get_version = 0) :
    run_on_node op_tbl g id = Except.ok (false, g) := by
  simp [run_on_node, hnode, hversion]

theorem run_on_nodes_version_0 (op_tbl : List String) (g : Graph) (ids : List Nat)
    (hall : ∀ id ∈ ids, ∃ n, g.node id = some n ∧ n.op.get_version = 0) :
    run_on_nodes op_tbl ids g = Except.ok (List.replicate ids.length false, g) := by
  induction ids with
  | nil => rfl
  | cons id rest ih =>
    obtain ⟨n, hnode, hversion⟩ := hall id (List.mem_cons_self _ _)
    have hrest := ih (fun j hj => hall j (List.mem_cons_of_mem _ hj))
    simp only [run_on_nodes, run_on_node_version_0 op_tbl g id n hnode hversion, hrest]
    simp only [bind, Except.bind, pure, Except.pure, List.length_cons, List.replicate_succ]
    rw [hrest]

theorem version_0_graph_all_version_0 (id : Nat) (n : Node)
    (hnode : version_0_graph.node id = some n) : n.op.get_version = 0 := by
  rcases id with _ | _ | _ | _ | id <;>
    simp [Graph.node, version_0_graph] at hnode <;> subst hnode <;> rfl

/-- C15: on a node of version 0, `run_on_node` returns false and leaves the
graph as it is; on a graph whose nodes are all of version 0 the pass returns
false for every node and the graph at the end is the graph at the start. -/
theorem C15_version_0_untouched (op_tbl : List String) (g : Graph) :
    (∀ id n, g.node id = some n → n.op.get_version = 0 →
      run_on_node op_tbl g id = Except.ok (false, g)) ∧
    ((∀ id n, g.node id = some n → n.op.get_version = 0) →
      downgrade op_tbl g = Except.ok (List.replicate (node_ids g).length false, g)) := by
  refine ⟨fun id n hnode hversion => run_on_node_version_0 op_tbl g id n hnode hversion, ?_⟩
  intro hall
  refine run_on_nodes_version_0 op_tbl g (node_ids g) ?_
  intro id hid
  simp only [node_ids, List.mem_filter, Option.isSome_iff_exists] at hid
  obtain ⟨n, hnode⟩ := hid.2
  exact ⟨n, hnode, hall id n hnode⟩

theorem C15_version_0_untouched_witness :
    run_on_node sample_op_tbl version_0_graph 2 = Except.ok (false, version_0_graph) ∧
    downgrade sample_op_tbl version_0_graph =
      Except.ok ([false, false, false, false], version_0_graph) :=
  ⟨(C15_version_0_untouched sample_op_tbl version_0_graph).1 2
      { op := Op.Sum_v0, inputs := [{ node := 0, index := 0 }, { node := 1, index := 0 }]
        output_pshape := static_pshape [2] } rfl rfl,
   (C15_version_0_untouched sample_op_tbl version_0_graph).2 version_0_graph_all_version_0⟩

/-- C16: on a node whose version is neither 0 nor 1, whatever its operator
and whatever the table of operators, `run_on_node` throws the version check
failure, and the graph that the call leaves behind is the graph it was given:
nothing has been built and nothing replaced. -/
theorem C16_version_mismatch (op_tbl : List String) (g : Graph) (id : Nat) (n : Node)
    (hnode : g.node id = some n) (h0 : n.op.get_version ≠ 0) (h1 : n.op.get_version ≠ 1) :
    Opset1Downgrade.run_on_node op_tbl id g =
      PassOutcome.fail (PassError.op_version_check id n.op.get_version) g ∧
    run_on_node op_tbl g id = Except.error (PassError.op_version_check id n.op.get_version) := by
  constructor
  · simp [Opset1Downgrade.run_on_node, hnode, h0, h1]
  · simp [run_on_node, hnode, h0, h1]

/-- C16 on a node named `Pad` of version 2. -/
theorem C16_version_mismatch_witness :
    Opset1Downgrade.run_on_node sample_op_tbl 1 version_2_graph =
      PassOutcome.fail (PassError.op_version_check 1 2) version_2_graph ∧
    run_on_node sample_op_tbl version_2_graph 1 = Except.error (PassError.op_version_check 1 2) :=
  C16_version_mismatch sample_op_tbl version_2_graph 1
    { op := Op.other "Pad" 2, inputs := [{ node := 0, index := 0 }]
      output_pshape := static_pshape [2, 3] } rfl (by decide) (by decide)

theorem typeid_map_lookup (op_tbl : List String) (name : String) :
    (typeid_map op_tbl).lookup name = if name ∈ op_tbl then some { name := name } else none := by
  induction op_tbl with
  | nil => rfl
  | cons a rest ih =>
    simp only [typeid_map, List.map_cons, List.lookup_cons, List.mem_cons] at ih ⊢
    by_cases h : name = a
    · subst h
      simp
    · have hb : (name == a) = false := by simpa using h
      rw [hb]
      simp only [h, false_or]
      exact ih

theorem get_typeid_ok_iff (op_tbl : List String) (n : Node) (type_id : OP_TYPEID) :
    get_typeid op_tbl n = Except.ok type_id ↔
      n.op.description ∈ op_tbl ∧ type_id = { name := n.op.description } := by
  unfold get_typeid
  rw [typeid_map_lookup]
  by_cases h : n.op.description ∈ op_tbl
  · simp only [h, if_true, true_and]
    constructor
    · intro hk
      injection hk with hk
      exact hk.symm
    · intro hk
      rw [hk]
  · simp [h]

theorem get_typeid_error_iff (op_tbl : List String) (n : Node) :
    get_typeid op_tbl n =
        Except.error (PassError.unsupported_op ("Unsupported op '" ++ n.op.description ++ "'")) ↔
      n.op.description ∉ op_tbl := by
  unfold get_typeid
  rw [typeid_map_lookup]
  by_cases h : n.op.description ∈ op_tbl
  · simp [h]
  · simp [h]

/-- C17: `get_typeid` returns the identifier that the table holds for the
name of the operator of the node, which is the identifier of that name, when
the name is in the table of operators, and throws `unsupported_op` exactly
when the table holds nothing for the name; `run_on_node` on a version-1 node
whose name is not in the table throws `unsupported_op`, and the graph that the
call leaves behind is the graph it was given: nothing has been built and
nothing replaced. -/
theorem C17_registry_resolution (op_tbl : List String) (g : Graph) (id : Nat) (n : Node) :
    (∀ type_id, get_typeid op_tbl n = Except.ok type_id ↔
      (typeid_map op_tbl).lookup n.op.description = some type_id) ∧
    (n.op.description ∈ op_tbl →
      get_typeid op_tbl n = Except.ok { name := n.op.description }) ∧
    (get_typeid op_tbl n =
        Except.error (PassError.unsupported_op ("Unsupported op '" ++ n.op.description ++ "'")) ↔
      (typeid_map op_tbl).lookup n.op.description = none) ∧
    ((∃ e, get_typeid op_tbl n = Except.error e) ↔ n.op.description ∉ op_tbl) ∧
    (g.node id = some n → n.op.get_version = 1 → n.op.description ∉ op_tbl →
      Opset1Downgrade.run_on_node op_tbl id g =
        PassOutcome.fail
          (PassError.unsupported_op ("Unsupported op '" ++ n.op.description ++ "'")) g ∧
      run_on_node op_tbl g id =
        Except.error
          (PassError.unsupported_op ("Unsupported op '" ++ n.op.description ++ "'"))) := by
  refine ⟨?_, ?_, ?_, ?_, ?_⟩
  · intro type_id
    unfold get_typeid
    cases (typeid_map op_tbl).lookup n.op.description <;> simp
  · intro h
    exact (get_typeid_ok_iff op_tbl n _).2 ⟨h, rfl⟩
  · unfold get_typeid
    cases (typeid_map op_tbl).lookup n.op.description <;> simp
  · constructor
    · rintro ⟨e, he⟩ hmem
      rw [(get_typeid_ok_iff op_tbl n _).2 ⟨hmem, rfl⟩] at he
      cases he
    · intro h
      exact ⟨_, (get_typeid_error_iff op_tbl n).2 h⟩
  · intro hnode hversion hname
    have herr := (get_typeid_error_iff op_tbl n).2 hname
    constructor
    · simp only [Opset1Downgrade.run_on_node, hnode, hversion]
      simp only [herr]
      rfl
    · simp only [run_on_node, hnode, hversion]
      simp only [herr]
      rfl

/-- C17 on a registered name and on a version-1 node of a name that is in no
table. -/
theorem C17_registry_resolution_witness :
    get_typeid sample_op_tbl
        { op := Op.ReduceSum_v1 true, inputs := [], output_pshape := none } =
      Except.ok OP_TYPEID.Sum ∧
    Opset1Downgrade.run_on_node sample_op_tbl 1 unregistered_graph =
      PassOutcome.fail (PassError.unsupported_op "Unsupported op 'Frobnicate'")
        unregistered_graph ∧
    run_on_node sample_op_tbl unregistered_graph 1 =
      Except.error (PassError.unsupported_op "Unsupported op 'Frobnicate'") :=
  ⟨(C17_registry_resolution sample_op_tbl unregistered_graph 1
      { op := Op.ReduceSum_v1 true, inputs := [], output_pshape := none }).2.1 (by decide),
   (C17_registry_resolution sample_op_tbl unregistered_graph 1
      { op := Op.other "Frobnicate" 1, inputs := [{ node := 0, index := 0 }]
        output_pshape := static_pshape [2, 3] }).2.2.2.2 rfl rfl (by decide)⟩

/-- C18: on the version-1 reduce-sum of scenario C (`keep_dims` set, input
shape `{2,3}`, axis 1), `run_on_node` puts a single version-1 reduce-sum with
`keep_dims` false in its place: the output shape of the node that then feeds
the result is `{2}`, and no reshape is in the graph. The reduce-product of the
same inputs gets a version-0 product followed by a reshape to `{2,1}`. -/
theorem C18_scenario_C_sum_gets_no_reshape :
    run_on_node sample_op_tbl (scenario_C_graph (static_pshape [2, 3]) (static_pshape [2, 1])) 2 =
      Except.ok (true,
        { nodes :=
            [some { op := Op.Parameter, inputs := [], output_pshape := static_pshape [2, 3] },
             some { op := Op.Constant [1], inputs := [], output_pshape := static_pshape [1] },
             none,
             some { op := Op.Result, inputs := [{ node := 4, index := 0 }]
                    output_pshape := static_pshape [2, 1] },
             some { op := Op.ReduceSum_v1 false
                    inputs := [{ node := 0, index := 0 }, { node := 1, index := 0 }]
                    output_pshape := static_pshape [2] }] }) ∧
    run_on_node sample_op_tbl (product_graph (static_pshape [2, 3]) (static_pshape [2, 1])) 2 =
      Except.ok (true,
        { nodes :=
            [some { op := Op.Parameter, inputs := [], output_pshape := static_pshape [2, 3] },
             some { op := Op.Constant [1], inputs := [], output_pshape := static_pshape [1] },
             none,
             some { op := Op.Result, inputs := [{ node := 5, index := 0 }]
                    output_pshape := static_pshape [2, 1] },
             some { op := Op.Product_v0
                    inputs := [{ node := 0, index := 0 }, { node := 1, index := 0 }]
                    output_pshape := static_pshape [2] },
             some { op := Op.Reshape [0] [2, 1], inputs := [{ node := 4, index := 0 }]
                    output_pshape := static_pshape [2, 1] }] }) := by
  constructor <;> rfl

/-- C19: on the version-1 reduce-sum of scenario C with `keep_dims` set,
`run_on_node` does not fail whatever the shape of the input, dynamic shapes
included: it returns true and puts a version-1 reduce-sum with `keep_dims`
false in the place of the node. The reduce-product of the same inputs, of
dynamic shape, fails with the check of the static output shape. -/
theorem C19_scenario_C_dynamic_sum_is_replaced (input output : PartialShape) :
    run_on_node sample_op_tbl (scenario_C_graph input output) 2 =
      Except.ok (true,
        { nodes :=
            [some { op := Op.Parameter, inputs := [], output_pshape := input },
             some { op := Op.Constant [1], inputs := [], output_pshape := static_pshape [1] },
             none,
             some { op := Op.Result, inputs := [{ node := 4, index := 0 }]
                    output_pshape := output },
             some { op := Op.ReduceSum_v1 false
                    inputs := [{ node := 0, index := 0 }, { node := 1, index := 0 }]
                    output_pshape := infer_reduction input (some [1]) }] }) ∧
    run_on_node sample_op_tbl (scenario_C_graph none none) 2 =
      Except.ok (true,
        { nodes :=
            [some { op := Op.Parameter, inputs := [], output_pshape := none },
             some { op := Op.Constant [1], inputs := [], output_pshape := static_pshape [1] },
             none,
             some { op := Op.Result, inputs := [{ node := 4, index := 0 }]
                    output_pshape := none },
             some { op := Op.ReduceSum_v1 false
                    inputs := [{ node := 0, index := 0 }, { node := 1, index := 0 }]
                    output_pshape := none }] }) ∧
    run_on_node sample_op_tbl (product_graph none none) 2 =
      Except.error (PassError.output_shape_dynamic 2) := by
  exact ⟨rfl, rfl, rfl⟩

theorem node_lt_length (g : Graph) (id : Nat) (n : Node) (hnode : g.node id = some n) :
    id < g.nodes.length := by
  by_contra hlt
  simp [Graph.node, List.getD_eq_getElem?_getD, List.getElem?_eq_none (not_lt.mp hlt)] at hnode

theorem replace_node_ok (g g' : Graph) (target replacement : Nat)
    (h : replace_node g target replacement = Except.ok g') :
    g'.nodes =
      (g.nodes.map (fun slot => slot.map (redirect target replacement))).set target none := by
  unfold replace_node at h
  split at h
  · cases h
  · split at h
    · cases h
    · injection h with h
      rw [← h]

theorem replaced_by_version_0 (g g1 g' : Graph) (id replacement : Nat)
    (extra : List (Option Node)) (hlt : id < g.nodes.length) (hg1 : g1.nodes = g.nodes ++ extra)
    (hlast : replacement + 1 = g1.nodes.length) (hextra : extra ≠ [])
    (hzero : ∀ slot ∈ extra, ∃ m, slot = some m ∧ m.op.get_version = 0)
    (h : replace_node g1 id replacement = Except.ok g') :
    g'.node id = none ∧ added_nodes g g' ≠ [] ∧
    (∀ slot ∈ added_nodes g g', ∃ m, slot = some m ∧ m.op.get_version = 0) ∧
    ∀ j m, j ≠ id → g.node j = some m →
      g'.node j = some (redirect id (g'.nodes.length - 1) m) := by
  have hnodes := replace_node_ok g1 g' id replacement h
  have hadded : added_nodes g g' = extra.map (fun slot => slot.map (redirect id replacement)) := by
    simp [added_nodes, hnodes, hg1, List.drop_set_of_lt _ _ hlt]
  have hlength : g'.nodes.length - 1 = replacement := by
    rw [hnodes, List.length_set, List.length_map, ← hlast]
    rfl
  refine ⟨?_, ?_, ?_, ?_⟩
  · simp only [Graph.node, hnodes, hg1, List.getD_eq_getElem?_getD]
    rw [List.getElem?_set_self (by simp; omega)]
    rfl
  · rw [hadded]
    simpa using hextra
  · rw [hadded]
    intro slot hslot
    obtain ⟨old, hold, hslot⟩ := List.mem_map.1 hslot
    obtain ⟨m, hm, hv⟩ := hzero old hold
    subst hm
    exact ⟨_, hslot.symm, hv⟩
  · intro j m hj hm
    have hjlt := node_lt_length g j m hm
    rw [hlength]
    simp only [Graph.node, List.getD_eq_getElem?_getD] at hm ⊢
    rw [hnodes, List.getElem?_set_ne (Ne.symm hj), List.getElem?_map, hg1,
      List.getElem?_append_left hjlt]
    cases hslot : g.nodes[j]? with
    | none => simp [hslot] at hm
    | some slot =>
      simp only [hslot, Option.getD_some] at hm
      subst hm
      rfl

/-- C20, as the code has it: a version-1 node of an operator that the pass
does not translate (here `VariadicSplit`, which the table of operators holds)
stays in the graph at version 1; `run_on_node` returns false without
failing. -/
theorem C20_untranslated_operator_stays_at_version_1 :
    run_on_node sample_op_tbl variadic_split_graph 3 = Except.ok (false, variadic_split_graph) ∧
    (variadic_split_graph.node 3).map (fun n => n.op.get_version) = some 1 :=
  ⟨rfl, rfl⟩

/-- C20, amended: when `run_on_node` returns without failing on a version-1
node, then for the operators `Pad` and `Product` it returns true, the node has
left the graph, the nodes built in its place are all at version 0, and every
other node refers to the last of them wherever it referred to the node; for
any other operator apart from `Sum` it returns false and the graph, with the
node at version 1, is unchanged. -/
theorem C20_translated_operators_reach_version_0 (op_tbl : List String) (g g' : Graph) (id : Nat)
    (n : Node) (modified : Bool) (hnode : g.node id = some n) (hversion : n.op.get_version = 1)
    (hrun : run_on_node op_tbl g id = Except.ok (modified, g')) :
    ((n.op.description = "Pad" ∨ n.op.description = "Product") →
      modified = true ∧ g'.node id = none ∧ added_nodes g g' ≠ [] ∧
      (∀ slot ∈ added_nodes g g', ∃ m, slot = some m ∧ m.op.get_version = 0) ∧
      ∀ j m, j ≠ id → g.node j = some m →
        g'.node j = some (redirect id (g'.nodes.length - 1) m)) ∧
    (n.op.description ≠ "Pad" → n.op.description ≠ "Product" → n.op.description ≠ "Sum" →
      modified = false ∧ g' = g) := by
  have hlt := node_lt_length g id n hnode
  simp only [run_on_node, hnode, hversion] at hrun
  cases hty : get_typeid op_tbl n with
  | error e =>
    rw [hty] at hrun
    cases hrun
  | ok type_id =>
    obtain ⟨_, ht⟩ := (get_typeid_ok_iff op_tbl n type_id).1 hty
    rw [hty] at hrun
    simp only [bind, Except.bind, ht, OP_TYPEID.Pad, OP_TYPEID.Product, OP_TYPEID.Sum,
      OP_TYPEID.mk.injEq] at hrun
    rw [if_neg (by decide), if_neg (by decide)] at hrun
    by_cases hPad : n.op.description = "Pad"
    · rw [if_pos hPad] at hrun
      refine ⟨fun _ => ?_, fun h => absurd hPad h⟩
      split at hrun
      · split at hrun
        · cases hrun
        · split at hrun
          · cases hrun
          · split at hrun
            · cases hrun
            · rename_i g2 hrep
              injection hrun with hrun
              injection hrun with hm hg
              subst hm hg
              exact ⟨rfl, replaced_by_version_0 g _ g2 id _ _ hlt rfl (by simp [make_node])
                (by simp) (by simp [Op.get_version]) hrep⟩
      · cases hrun
    · rw [if_neg hPad] at hrun
      by_cases hProduct : n.op.description = "Product"
      · rw [if_pos hProduct] at hrun
        refine ⟨fun _ => ?_, fun _ h => absurd hProduct h⟩
        split at hrun
        · cases hrun
        · split at hrun
          · cases hrun
          · split at hrun
            · split at hrun
              · split at hrun
                · cases hrun
                · split at hrun
                  · cases hrun
                  · split at hrun
                    · cases hrun
                    · rename_i g3 hrep
                      injection hrun with hrun
                      injection hrun with hm hg
                      subst hm hg
                      exact ⟨rfl, replaced_by_version_0 g _ g3 id _ _ hlt
                        (List.append_assoc _ _ _) (by simp [make_node])
                        (by simp) (by simp [Op.get_version]) hrep⟩
              · split at hrun
                · cases hrun
                · rename_i g2 hrep
                  injection hrun with hrun
                  injection hrun with hm hg
                  subst hm hg
                  exact ⟨rfl, replaced_by_version_0 g _ g2 id _ _ hlt rfl (by simp [make_node])
                    (by simp) (by simp [Op.get_version]) hrep⟩
            · cases hrun
      · rw [if_neg hProduct] at hrun
        refine ⟨fun h => absurd h (by simp [hPad, hProduct]), fun _ _ hSum => ?_⟩
        rw [if_neg hSum] at hrun
        injection hrun with hrun
        injection hrun with hm hg
        exact ⟨hm.symm, hg.symm⟩

theorem C20_translated_operators_reach_version_0_witness :
    run_on_node sample_op_tbl (product_graph (static_pshape [2, 3]) (static_pshape [2, 1])) 2 =
      Except.ok (true, downgraded_product_graph) ∧
    (true = true ∧ downgraded_product_graph.node 2 = none ∧
      added_nodes (product_graph (static_pshape [2, 3]) (static_pshape [2, 1]))
        downgraded_product_graph ≠ [] ∧
      (∀ slot ∈ added_nodes (product_graph (static_pshape [2, 3]) (static_pshape [2, 1]))
          downgraded_product_graph, ∃ m, slot = some m ∧ m.op.get_version = 0) ∧
      ∀ j m, j ≠ 2 →
        (product_graph (static_pshape [2, 3]) (static_pshape [2, 1])).node j = some m →
        downgraded_product_graph.node j =
          some (redirect 2 (downgraded_product_graph.nodes.length - 1) m)) :=
  ⟨rfl,
   (C20_translated_operators_reach_version_0 sample_op_tbl
      (product_graph (static_pshape [2, 3]) (static_pshape [2, 1])) downgraded_product_graph 2
      { op := Op.ReduceProd_v1 true
        inputs := [{ node := 0, index := 0 }, { node := 1, index := 0 }]
        output_pshape := static_pshape [2, 1] } true rfl rfl rfl).1 (Or.inr rfl)⟩

/-! ### Layout equivalence, continued -/

/-- C28: whenever `compare_mkldnn_md_formats a b` returns true, both
descriptors are of the blocked format kind, have the same number of
dimensions, the same number of inner blocks, and equal inner block sizes and
inner block indices at every position below that number; and the check is
symmetric. -/
theorem C28_necessary_conditions_and_symmetry (a b : mkldnn_memory_desc_t) :
    (compare_mkldnn_md_formats a b = true →
      a.format_kind = mkldnn_format_kind_t.blocked ∧
      b.format_kind = mkldnn_format_kind_t.blocked ∧
      a.ndims = b.ndims ∧
      a.blocking.inner_nblks = b.blocking.inner_nblks ∧
      ∀ i, i < a.blocking.inner_nblks →
        dims_at a.blocking.inner_blks i = dims_at b.blocking.inner_blks i ∧
        dims_at a.blocking.inner_idxs i = dims_at b.blocking.inner_idxs i) ∧
    compare_mkldnn_md_formats a b = compare_mkldnn_md_formats b a := by
  constructor
  · intro h
    obtain ⟨hka, hkb, hnd, hnb, hblk⟩ := (compare_mkldnn_md_formats_iff a b).1 h
    exact ⟨hka, hkb, hnd, hnb, hblk⟩
  · rw [Bool.eq_iff_iff, compare_mkldnn_md_formats_iff, compare_mkldnn_md_formats_iff]
    constructor
    · rintro ⟨hka, hkb, hnd, hnb, hblk⟩
      exact ⟨hkb, hka, hnd.symm, hnb.symm, fun i hi =>
        ⟨((hblk i (hnb ▸ hi)).1).symm, ((hblk i (hnb ▸ hi)).2).symm⟩⟩
    · rintro ⟨hkb, hka, hnd, hnb, hblk⟩
      exact ⟨hka, hkb, hnd.symm, hnb.symm, fun i hi =>
        ⟨((hblk i (hnb ▸ hi)).1).symm, ((hblk i (hnb ▸ hi)).2).symm⟩⟩

/-- C28 at two descriptors of strides `[6,1]` and `[600,100]`. -/
theorem C28_necessary_conditions_and_symmetry_witness :
    (desc_of_strides [4, 6] [6, 1]).ndims = (desc_of_strides [4, 6] [600, 100]).ndims ∧
    (desc_of_strides [4, 6] [6, 1]).blocking.inner_nblks =
      (desc_of_strides [4, 6] [600, 100]).blocking.inner_nblks :=
  ⟨((C28_necessary_conditions_and_symmetry (desc_of_strides [4, 6] [6, 1])
      (desc_of_strides [4, 6] [600, 100])).1 (by decide)).2.2.1,
   ((C28_necessary_conditions_and_symmetry (desc_of_strides [4, 6] [6, 1])
      (desc_of_strides [4, 6] [600, 100])).1 (by decide)).2.2.2.1⟩

/-- C30: `compare_mkldnn_strides_order` returns true for every pair of stride
arrays and every size, so `compare_mkldnn_md_formats a b` keeps its value when
the strides of `a` and of `b` are replaced by any other values. -/
theorem C30_strides_do_not_matter (a b : mkldnn_memory_desc_t)
    (strides1 strides2 : mkldnn_dims_t) (size : Nat) :
    compare_mkldnn_strides_order strides1 strides2 size = true ∧
    compare_mkldnn_md_formats
        { a with blocking := { a.blocking with strides := strides1 } }
        { b with blocking := { b.blocking with strides := strides2 } } =
      compare_mkldnn_md_formats a b := by
  refine ⟨compare_mkldnn_strides_order_eq_true strides1 strides2 size, ?_⟩
  simp only [compare_mkldnn_md_formats, compare_mkldnn_strides_order_eq_true]

/-! ### The interpreter backend -/

theorem first_named_eq_none_iff (name : String) (l : List FileInfo) :
    first_named name l = none ↔ ∀ e ∈ l, e.name ≠ name := by
  induction l with
  | nil => simp [first_named]
  | cons info rest ih =>
    by_cases h : info.name = name
    · simp [first_named, h]
    · simp [first_named, h, ih]

theorem first_named_eq_some_iff (name : String) (l : List FileInfo) (info : FileInfo) :
    first_named name l = some info ↔
      ∃ pre post, l = pre ++ info :: post ∧ info.name = name ∧ ∀ e ∈ pre, e.name ≠ name := by
  induction l with
  | nil => simp [first_named]
  | cons head rest ih =>
    by_cases h : head.name = name
    · simp only [first_named, h, if_true, Option.some.injEq]
      constructor
      · intro heq
        subst heq
        exact ⟨[], rest, rfl, h, by simp⟩
      · rintro ⟨pre, post, hl, hname, hpre⟩
        cases pre with
        | nil =>
          simp only [List.nil_append, List.cons.injEq] at hl
          exact hl.1
        | cons p pre =>
          simp only [List.cons_append, List.cons.injEq] at hl
          exact absurd h (hl.1 ▸ hpre p (List.mem_cons_self _ _))
    · simp only [first_named, h, if_false, ih]
      constructor
      · rintro ⟨pre, post, hl, hname, hpre⟩
        refine ⟨head :: pre, post, by simp [hl], hname, ?_⟩
        intro e he
        rcases List.mem_cons.1 he with he | he
        · exact he ▸ h
        · exact hpre e he
      · rintro ⟨pre, post, hl, hname, hpre⟩
        cases pre with
        | nil =>
          simp only [List.nil_append, List.cons.injEq] at hl
          exact absurd hname (hl.1 ▸ h)
        | cons p pre =>
          simp only [List.cons_append, List.cons.injEq] at hl
          exact ⟨pre, post, hl.2, hname, fun e he => hpre e (List.mem_cons_of_mem _ he)⟩

/-- C22, as the code has it: on an archive with no entry named `save_info`,
and on an archive whose `save_info` is the marker of another backend, `load`
raises no failure: it returns the null pointer. -/
theorem C22_unrecognized_marker_returns_null :
    (INTBackend.load sample_INTExecutable archive_without_marker).exec = Except.ok none ∧
    (INTBackend.load sample_INTExecutable archive_with_other_marker).exec = Except.ok none :=
  ⟨rfl, rfl⟩

/-- C22, amended: on an archive with no entry named `save_info`, or whose
first entry of that name has a content other than `INTERPRETER Save File 1.0`,
`load` returns the null pointer without failing; it does not call the
constructor of `INTExecutable` and reads no entry named `model`. -/
theorem C22_unrecognized_marker_builds_nothing {E X : Type}
    (INTExecutable : String → Except E X) (reader : Reader)
    (h : (∀ e ∈ reader.file_info, e.name ≠ "save_info") ∨
      ∃ pre info post, reader.file_info = pre ++ info :: post ∧
        (∀ e ∈ pre, e.name ≠ "save_info") ∧ info.name = "save_info" ∧
        reader.read info ≠ "INTERPRETER Save File 1.0") :
    (INTBackend.load INTExecutable reader).exec = Except.ok none ∧
    (INTBackend.load INTExecutable reader).constructions = [] ∧
    ∀ e ∈ (INTBackend.load INTExecutable reader).reads, e.name ≠ "model" := by
  rcases h with h | ⟨pre, info, post, hl, hpre, hname, hread⟩
  · have hnone := (first_named_eq_none_iff "save_info" reader.file_info).2 h
    simp [INTBackend.load, hnone]
  · have hsome := (first_named_eq_some_iff "save_info" reader.file_info info).2
      ⟨pre, post, hl, hname, hpre⟩
    simp [INTBackend.load, hsome, hread, hname]

/-- C22, amended, on the archive without a marker and on the archive with the
marker of another backend. -/
theorem C22_unrecognized_marker_builds_nothing_witness :
    ((INTBackend.load sample_INTExecutable archive_without_marker).exec = Except.ok none ∧
      (INTBackend.load sample_INTExecutable archive_without_marker).constructions = [] ∧
      ∀ e ∈ (INTBackend.load sample_INTExecutable archive_without_marker).reads,
        e.name ≠ "model") ∧
    ((INTBackend.load sample_INTExecutable archive_with_other_marker).exec = Except.ok none ∧
      (INTBackend.load sample_INTExecutable archive_with_other_marker).constructions = [] ∧
      ∀ e ∈ (INTBackend.load sample_INTExecutable archive_with_other_marker).reads,
        e.name ≠ "model") :=
  ⟨C22_unrecognized_marker_builds_nothing sample_INTExecutable archive_without_marker
      (Or.inl (by decide)),
   C22_unrecognized_marker_builds_nothing sample_INTExecutable archive_with_other_marker
      (Or.inr ⟨[], { name := "save_info", offset := 1, size := 17 },
        [{ name := "model", offset := 2, size := 11 }], rfl, by decide, rfl, by decide⟩)⟩

/-- C23, as the code has it: on an archive with the accepted marker and no
entry named `model`, `load` returns normally, with the null pointer. -/
theorem C23_missing_model_returns_null :
    (INTBackend.load sample_INTExecutable archive_without_model).exec = Except.ok none ∧
    (INTBackend.load sample_INTExecutable archive_without_model).constructions = [] :=
  ⟨rfl, rfl⟩

/-- C23, amended: on an archive whose first entry named `save_info` holds
`INTERPRETER Save File 1.0`, `load` returns the null pointer, normally, when
no entry is named `model`; when the constructor of `INTExecutable` throws on
the content of the first entry named `model`, that exception leaves `load`. -/
theorem C23_accepted_marker_bad_payload {E X : Type} (INTExecutable : String → Except E X)
    (reader : Reader) (pre post : List FileInfo) (info : FileInfo)
    (hl : reader.file_info = pre ++ info :: post) (hpre : ∀ e ∈ pre, e.name ≠ "save_info")
    (hname : info.name = "save_info") (hread : reader.read info = "INTERPRETER Save File 1.0") :
    ((∀ e ∈ reader.file_info, e.name ≠ "model") →
      (INTBackend.load INTExecutable reader).exec = Except.ok none ∧
      (INTBackend.load INTExecutable reader).constructions = []) ∧
    (∀ pre' model post' err, reader.file_info = pre' ++ model :: post' →
      (∀ e ∈ pre', e.name ≠ "model") → model.name = "model" →
      INTExecutable (reader.read model) = Except.error err →
      (INTBackend.load INTExecutable reader).exec = Except.error err) := by
  have hsome := (first_named_eq_some_iff "save_info" reader.file_info info).2
    ⟨pre, post, hl, hname, hpre⟩
  constructor
  · intro h
    have hnone := (first_named_eq_none_iff "model" reader.file_info).2 h
    simp [INTBackend.load, hsome, hread, hnone]
  · intro pre' model post' err hl' hpre' hname' hctor
    have hmodel := (first_named_eq_some_iff "model" reader.file_info model).2
      ⟨pre', post', hl', hname', hpre'⟩
    simp [INTBackend.load, hsome, hread, hmodel, hctor, Except.map]

/-- C23, amended, on the archive without a model and on the archive whose
model cannot be deserialized. -/
theorem C23_accepted_marker_bad_payload_witness :
    ((INTBackend.load sample_INTExecutable archive_without_model).exec = Except.ok none ∧
      (INTBackend.load sample_INTExecutable archive_without_model).constructions = []) ∧
    (INTBackend.load sample_INTExecutable archive_with_garbage).exec =
      Except.error "deserialization failed" :=
  ⟨(C23_accepted_marker_bad_payload sample_INTExecutable archive_without_model []
      [] { name := "save_info", offset := 0, size := 25 } rfl (by decide) rfl rfl).1 (by decide),
   (C23_accepted_marker_bad_payload sample_INTExecutable archive_with_garbage []
      [{ name := "model", offset := 4, size := 7 }]
      { name := "save_info", offset := 0, size := 25 } rfl (by decide) rfl rfl).2
      [{ name := "save_info", offset := 0, size := 25 }]
      { name := "model", offset := 4, size := 7 } [] "deserialization failed" rfl (by decide)
      rfl rfl⟩

/-- C24: `is_supported` returns true exactly when the name of the operator of
the node is not among the names the backend holds, which are the names of the
list it was constructed with; the answer is the same for every node of that
name, whatever its version, inputs and shape; a backend constructed without a
list supports every node. -/
theorem C24_is_supported_denylist (this : INTBackend) (unsupported_op_name_list : List String)
    (node : Node) :
    (this.is_supported node = true ↔
      node.op.description ∉ this.m_unsupported_op_name_list) ∧
    ((INTBackend.INTBackend_list unsupported_op_name_list).is_supported node = true ↔
      node.op.description ∉ unsupported_op_name_list) ∧
    (∀ version inputs output_pshape,
      this.is_supported
          { op := Op.other node.op.description version, inputs := inputs
            output_pshape := output_pshape } =
        this.is_supported node) ∧
    INTBackend.INTBackend_default.is_supported node = true := by
  refine ⟨?_, ?_, ?_, ?_⟩
  · simp [INTBackend.is_supported]
  · simp [INTBackend.is_supported, INTBackend.INTBackend_list]
  · intro version inputs output_pshape
    rfl
  · simp [INTBackend.is_supported, INTBackend.INTBackend_default]

/-- C29: `load` returns an executable exactly when the first entry named
`save_info` holds `INTERPRETER Save File 1.0` and the constructor of
`INTExecutable` succeeds on the content of the first entry named `model`,
whatever entries follow them; that executable is the one the constructor
builds from that content, the only content passed to it; and when the marker
is not accepted, no entry named `model` is read. -/
theorem C29_load_characterisation {E X : Type} (INTExecutable : String → Except E X)
    (reader : Reader) (exec : X) :
    ((INTBackend.load INTExecutable reader).exec = Except.ok (some exec) ↔
      ∃ pre info post pre' model post',
        reader.file_info = pre ++ info :: post ∧ (∀ e ∈ pre, e.name ≠ "save_info") ∧
        info.name = "save_info" ∧ reader.read info = "INTERPRETER Save File 1.0" ∧
        reader.file_info = pre' ++ model :: post' ∧ (∀ e ∈ pre', e.name ≠ "model") ∧
        model.name = "model" ∧ INTExecutable (reader.read model) = Except.ok exec ∧
        (INTBackend.load INTExecutable reader).reads = [info, model] ∧
        (INTBackend.load INTExecutable reader).constructions = [reader.read model]) ∧
    ((∀ info, first_named "save_info" reader.file_info = some info →
        reader.read info ≠ "INTERPRETER Save File 1.0") →
      ∀ e ∈ (INTBackend.load INTExecutable reader).reads, e.name ≠ "model") := by
  constructor
  · constructor
    · intro h
      cases hs : first_named "save_info" reader.file_info with
      | none => simp [INTBackend.load, hs] at h
      | some info =>
        by_cases hread : reader.read info = "INTERPRETER Save File 1.0"
        · cases hm : first_named "model" reader.file_info with
          | none => simp [INTBackend.load, hs, hread, hm] at h
          | some model =>
            obtain ⟨pre, post, hl, hname, hpre⟩ :=
              (first_named_eq_some_iff "save_info" reader.file_info info).1 hs
            obtain ⟨pre', post', hl', hname', hpre'⟩ :=
              (first_named_eq_some_iff "model" reader.file_info model).1 hm
            refine ⟨pre, info, post, pre', model, post', hl, hpre, hname, hread, hl', hpre',
              hname', ?_, ?_, ?_⟩
            · simp only [INTBackend.load, hs, hread, hm, if_true] at h
              cases hc : INTExecutable (reader.read model) with
              | error err => simp [hc, Except.map] at h
              | ok x =>
                simp only [hc, Except.map, Except.ok.injEq, Option.some.injEq] at h
                rw [h]
            · simp [INTBackend.load, hs, hread, hm]
            · simp [INTBackend.load, hs, hread, hm]
        · simp [INTBackend.load, hs, hread] at h
    · rintro ⟨pre, info, post, pre', model, post', hl, hpre, hname, hread, hl', hpre', hname',
        hctor, -, -⟩
      have hs := (first_named_eq_some_iff "save_info" reader.file_info info).2
        ⟨pre, post, hl, hname, hpre⟩
      have hm := (first_named_eq_some_iff "model" reader.file_info model).2
        ⟨pre', post', hl', hname', hpre'⟩
      simp [INTBackend.load, hs, hread, hm, hctor, Except.map]
  · intro h e he
    cases hs : first_named "save_info" reader.file_info with
    | none =>
      simp [INTBackend.load, hs] at he
    | some info =>
      have hread := h info hs
      obtain ⟨pre, post, hl, hname, hpre⟩ :=
        (first_named_eq_some_iff "save_info" reader.file_info info).1 hs
      simp only [INTBackend.load, hs, hread, if_false, List.mem_singleton] at he
      rw [he, hname]
      decide

/-- C29 on the sample archive (the executable is built from the first model,
the second marker and the second model are ignored) and on the archive with
the marker of another backend (nothing named `model` is read). -/
theorem C29_load_characterisation_witness :
    (INTBackend.load sample_INTExecutable sample_archive).exec =
      Except.ok (some "first model") ∧
    ∀ e ∈ (INTBackend.load sample_INTExecutable archive_with_other_marker).reads,
      e.name ≠ "model" :=
  ⟨((C29_load_characterisation sample_INTExecutable sample_archive "first model").1).2
      ⟨[], { name := "save_info", offset := 0, size := 25 },
        [{ name := "model", offset := 2, size := 11 },
         { name := "save_info", offset := 1, size := 17 },
         { name := "model", offset := 3, size := 12 }],
        [{ name := "save_info", offset := 0, size := 25 }],
        { name := "model", offset := 2, size := 11 },
        [{ name := "save_info", offset := 1, size := 17 },
         { name := "model", offset := 3, size := 12 }],
        rfl, by decide, rfl, rfl, rfl, by decide, rfl, rfl, rfl, rfl⟩,
   (C29_load_characterisation sample_INTExecutable archive_with_other_marker "").2
      (by
        intro info hinfo
        have hi : info = { name := "save_info", offset := 1, size := 17 } := by
          have h0 : first_named "save_info" archive_with_other_marker.file_info =
              some { name := "save_info", offset := 1, size := 17 } := rfl
          rw [h0] at hinfo
          exact (Option.some.inj hinfo).symm
        rw [hi]
        decide)⟩

/-! ### The translations of the downgrade pass -/

theorem node_append (g : Graph) (extra : List (Option Node)) (id : Nat) (n : Node)
    (hnode : g.node id = some n) :
    Graph.node { nodes := g.nodes ++ extra } id = some n := by
  have hlt := node_lt_length g id n hnode
  simp only [Graph.node, List.getD_eq_getElem?_getD] at hnode ⊢
  rw [List.getElem?_append_left hlt]
  exact hnode

theorem replace_node_spliced (g : Graph) (extra : List (Option Node)) (id replacement : Nat)
    (n : Node) (hnode : g.node id = some n) (hop : n.op ≠ Op.Result) :
    ∃ g', replace_node { nodes := g.nodes ++ extra } id replacement = Except.ok g' ∧
      g'.node id = none ∧
      added_nodes g g' = extra.map (fun slot => slot.map (redirect id replacement)) ∧
      ∀ j m, j ≠ id → g.node j = some m → g'.node j = some (redirect id replacement m) := by
  have hlt := node_lt_length g id n hnode
  refine ⟨{ nodes := ((g.nodes ++ extra).map
    (fun slot => slot.map (redirect id replacement))).set id none }, ?_, ?_, ?_, ?_⟩
  · simp [replace_node, node_append g extra id n hnode, hop]
  · simp only [Graph.node, List.getD_eq_getElem?_getD]
    rw [List.getElem?_set_self (by simp; omega)]
    rfl
  · simp [added_nodes, List.drop_set_of_lt _ _ hlt]
  · intro j m hj hm
    have hjlt := node_lt_length g j m hm
    simp only [Graph.node, List.getD_eq_getElem?_getD] at hm ⊢
    rw [List.getElem?_set_ne (Ne.symm hj), List.getElem?_map, List.getElem?_append_left hjlt]
    cases hslot : g.nodes[j]? with
    | none => simp [hslot] at hm
    | some slot =>
      simp only [hslot, Option.getD_some] at hm
      subst hm
      rfl

theorem get_typeid_registered (op_tbl : List String) (n : Node)
    (h : n.op.description ∈ op_tbl) :
    get_typeid op_tbl n = Except.ok { name := n.op.description } :=
  (get_typeid_ok_iff op_tbl n _).2 ⟨h, rfl⟩

/-- C27: on a version-1 `Pad` node, `run_on_node` returns true and puts
exactly one version-0 `Pad` in its place, whose inputs are the source of
input 0 and the source of input 3 of the node and whose padding below, padding
above and pad mode are the `pads_begin`, `pads_end` and pad mode of the node;
the sources of inputs 1 and 2 are not passed on. -/
theorem C27_pad_translation (op_tbl : List String) (g : Graph) (id : Nat) (n : Node)
    (pads_begin pads_end : List Int) (pad_mode : PadMode) (input0 input1 input2 input3 : Output)
    (hnode : g.node id = some n) (hop : n.op = Op.Pad_v1 pads_begin pads_end pad_mode)
    (hinputs : n.inputs = [input0, input1, input2, input3]) (htbl : "Pad" ∈ op_tbl)
    (hacyclic : ∀ o ∈ n.inputs, o.node ≠ id) :
    ∃ g', run_on_node op_tbl g id = Except.ok (true, g') ∧
      g'.node id = none ∧
      added_nodes g g' =
        [some { op := Op.Pad_v0 pads_begin pads_end pad_mode
                inputs := [input0, input3]
                output_pshape := infer_pad (source_pshape g input0) pads_begin pads_end }] ∧
      ∀ j m, j ≠ id → g.node j = some m →
        g'.node j = some (redirect id g.nodes.length m) := by
  have h0 : input0.node ≠ id := hacyclic input0 (by simp [hinputs])
  have h3 : input3.node ≠ id := hacyclic input3 (by simp [hinputs])
  have hdesc : n.op.description = "Pad" := by rw [hop]; rfl
  have hty := get_typeid_registered op_tbl n (by rw [hdesc]; exact htbl)
  obtain ⟨g', hrep, hnone, hadded, hothers⟩ := replace_node_spliced g
    [some { op := Op.Pad_v0 pads_begin pads_end pad_mode, inputs := [input0, input3]
            output_pshape :=
              infer_output_pshape g (Op.Pad_v0 pads_begin pads_end pad_mode) [input0, input3] }]
    id g.nodes.length n hnode (by rw [hop]; exact fun h => Op.noConfusion h)
  refine ⟨g', ?_, hnone, ?_, hothers⟩
  · simp only [run_on_node, hnode, hop, Op.get_version]
    simp only [hop] at hty
    simp only [hty, bind, Except.bind, input_source, hinputs, make_node, hrep]
    simp [Op.description, OP_TYPEID.Pad, pure, Except.pure, List.get?, hrep]
  · rw [hadded]
    simp [redirect, h0, h3, infer_output_pshape]

/-- C27 on the sample graph with a version-1 `Pad`. -/
theorem C27_pad_translation_witness :
    ∃ g', run_on_node sample_op_tbl pad_graph 4 = Except.ok (true, g') ∧
      g'.node 4 = none ∧
      added_nodes pad_graph g' =
        [some { op := Op.Pad_v0 [1, 0] [0, 1] PadMode.CONSTANT
                inputs := [{ node := 0, index := 0 }, { node := 3, index := 0 }]
                output_pshape :=
                  infer_pad (source_pshape pad_graph { node := 0, index := 0 }) [1, 0] [0, 1] }] ∧
      ∀ j m, j ≠ 4 → pad_graph.node j = some m →
        g'.node j = some (redirect 4 pad_graph.nodes.length m) :=
  C27_pad_translation sample_op_tbl pad_graph 4
    { op := Op.Pad_v1 [1, 0] [0, 1] PadMode.CONSTANT
      inputs := [{ node := 0, index := 0 }, { node := 1, index := 0 },
        { node := 2, index := 0 }, { node := 3, index := 0 }]
      output_pshape := static_pshape [3, 4] }
    [1, 0] [0, 1] PadMode.CONSTANT { node := 0, index := 0 } { node := 1, index := 0 }
    { node := 2, index := 0 } { node := 3, index := 0 } rfl rfl rfl (by decide) (by decide)

theorem source_pshape_make_node (g : Graph) (op : Op) (inputs : List Output) :
    source_pshape (make_node g op inputs).1 { node := (make_node g op inputs).2, index := 0 } =
      infer_output_pshape g op inputs := by
  simp [source_pshape, make_node, Graph.node, List.getD_eq_getElem?_getD]

/-- C26: on a version-1 reduce-product with `keep_dims` set, `run_on_node`
fails when the reduction axes are not constant, and fails with the check of
the static shape when the output shape of the version-0 product is not static.
In both cases the call leaves after it has built the version-0 product and
before any splice: the graph it leaves behind is the graph it was given with
the product that was built added to the arena, so every node of the graph it
was given, the reduce-product included, is at its place with the inputs it
had. With `keep_dims` not set neither check is made and a single version-0
`Product` over the sources of inputs 0 and 1 takes the place of the node. -/
theorem C26_product_keep_dims_checks (op_tbl : List String) (g : Graph) (id : Nat) (n : Node)
    (keep_dims : Bool) (input0 input1 : Output)
    (hnode : g.node id = some n) (hop : n.op = Op.ReduceProd_v1 keep_dims)
    (hinputs : n.inputs = [input0, input1]) (htbl : "Product" ∈ op_tbl)
    (hacyclic : ∀ o ∈ n.inputs, o.node ≠ id) :
    (keep_dims = true → reduction_axes_constant g n = false →
      Opset1Downgrade.run_on_node op_tbl id g =
        PassOutcome.fail (PassError.reduction_axes_not_constant id)
          (make_node g Op.Product_v0 [input0, input1]).1 ∧
      (∀ j m, g.node j = some m →
        (make_node g Op.Product_v0 [input0, input1]).1.node j = some m) ∧
      run_on_node op_tbl g id = Except.error (PassError.reduction_axes_not_constant id)) ∧
    (keep_dims = true → reduction_axes_constant g n = true →
      is_static (infer_output_pshape g Op.Product_v0 [input0, input1]) = false →
      Opset1Downgrade.run_on_node op_tbl id g =
        PassOutcome.fail (PassError.output_shape_dynamic id)
          (make_node g Op.Product_v0 [input0, input1]).1 ∧
      (∀ j m, g.node j = some m →
        (make_node g Op.Product_v0 [input0, input1]).1.node j = some m) ∧
      run_on_node op_tbl g id = Except.error (PassError.output_shape_dynamic id)) ∧
    (keep_dims = false →
      ∃ g', run_on_node op_tbl g id = Except.ok (true, g') ∧
        g'.node id = none ∧
        added_nodes g g' =
          [some { op := Op.Product_v0
                  inputs := [input0, input1]
                  output_pshape := infer_output_pshape g Op.Product_v0 [input0, input1] }] ∧
        ∀ j m, j ≠ id → g.node j = some m →
          g'.node j = some (redirect id g.nodes.length m)) := by
  have h0 : input0.node ≠ id := hacyclic input0 (by simp [hinputs])
  have h1 : input1.node ≠ id := hacyclic input1 (by simp [hinputs])
  have hdesc : n.op.description = "Product" := by rw [hop]; rfl
  have hty := get_typeid_registered op_tbl n (by rw [hdesc]; exact htbl)
  rw [hdesc] at hty
  have hkept : ∀ j m, g.node j = some m →
      (make_node g Op.Product_v0 [input0, input1]).1.node j = some m :=
    fun j m hm => node_append g _ j m hm
  refine ⟨?_, ?_, ?_⟩
  · intro hk hconst
    subst hk
    refine ⟨?_, hkept, ?_⟩
    · simp only [Opset1Downgrade.run_on_node, hnode, hop, Op.get_version]
      simp [hty, try_at, input_source, hinputs, OP_TYPEID.Pad, OP_TYPEID.Product,
        List.get?, hconst]
    · simp only [run_on_node, hnode, hop, Op.get_version]
      simp [hty, bind, Except.bind, input_source, hinputs, OP_TYPEID.Pad, OP_TYPEID.Product,
        List.get?, hconst]
  · intro hk hconst hdyn
    subst hk
    refine ⟨?_, hkept, ?_⟩
    · simp only [Opset1Downgrade.run_on_node, hnode, hop, Op.get_version]
      simp [hty, try_at, input_source, hinputs, OP_TYPEID.Pad, OP_TYPEID.Product,
        List.get?, hconst, source_pshape_make_node, hdyn]
    · simp only [run_on_node, hnode, hop, Op.get_version]
      simp [hty, bind, Except.bind, input_source, hinputs, OP_TYPEID.Pad, OP_TYPEID.Product,
        List.get?, hconst, source_pshape_make_node, hdyn]
  · intro hk
    subst hk
    obtain ⟨g', hrep, hnone, hadded, hothers⟩ := replace_node_spliced g
      [some { op := Op.Product_v0, inputs := [input0, input1]
              output_pshape := infer_output_pshape g Op.Product_v0 [input0, input1] }]
      id g.nodes.length n hnode (by rw [hop]; exact fun h => Op.noConfusion h)
    refine ⟨g', ?_, hnone, ?_, hothers⟩
    · simp only [run_on_node, hnode, hop, Op.get_version]
      simp [hty, bind, Except.bind, input_source, hinputs, OP_TYPEID.Pad, OP_TYPEID.Product,
        List.get?, make_node, hrep, pure, Except.pure]
    · rw [hadded]
      simp [redirect, h0, h1]

/-- C26 on the sample graphs: axes that are a parameter, an input of dynamic
shape, and `keep_dims` not set. After each failure the reduce-product (node 2)
and the result that reads it (node 3) are in the graph as they were. -/
theorem C26_product_keep_dims_checks_witness :
    (Opset1Downgrade.run_on_node sample_op_tbl 2 (product_of_parameter_axes_graph true) =
        PassOutcome.fail (PassError.reduction_axes_not_constant 2)
          (make_node (product_of_parameter_axes_graph true) Op.Product_v0
            [{ node := 0, index := 0 }, { node := 1, index := 0 }]).1 ∧
      (∀ j m, (product_of_parameter_axes_graph true).node j = some m →
        (make_node (product_of_parameter_axes_graph true) Op.Product_v0
          [{ node := 0, index := 0 }, { node := 1, index := 0 }]).1.node j = some m) ∧
      run_on_node sample_op_tbl (product_of_parameter_axes_graph true) 2 =
        Except.error (PassError.reduction_axes_not_constant 2)) ∧
    (Opset1Downgrade.run_on_node sample_op_tbl 2 (product_graph none none) =
        PassOutcome.fail (PassError.output_shape_dynamic 2)
          (make_node (product_graph none none) Op.Product_v0
            [{ node := 0, index := 0 }, { node := 1, index := 0 }]).1 ∧
      (∀ j m, (product_graph none none).node j = some m →
        (make_node (product_graph none none) Op.Product_v0
          [{ node := 0, index := 0 }, { node := 1, index := 0 }]).1.node j = some m) ∧
      run_on_node sample_op_tbl (product_graph none none) 2 =
        Except.error (PassError.output_shape_dynamic 2)) ∧
    ∃ g', run_on_node sample_op_tbl (product_of_parameter_axes_graph false) 2 =
        Except.ok (true, g') ∧
      g'.node 2 = none ∧
      added_nodes (product_of_parameter_axes_graph false) g' =
        [some { op := Op.Product_v0
                inputs := [{ node := 0, index := 0 }, { node := 1, index := 0 }]
                output_pshape :=
                  infer_output_pshape (product_of_parameter_axes_graph false) Op.Product_v0
                    [{ node := 0, index := 0 }, { node := 1, index := 0 }] }] ∧
      ∀ j m, j ≠ 2 → (product_of_parameter_axes_graph false).node j = some m →
        g'.node j = some (redirect 2 (product_of_parameter_axes_graph false).nodes.length m) :=
  ⟨(C26_product_keep_dims_checks sample_op_tbl (product_of_parameter_axes_graph true) 2
      { op := Op.ReduceProd_v1 true
        inputs := [{ node := 0, index := 0 }, { node := 1, index := 0 }]
        output_pshape := none }
      true { node := 0, index := 0 } { node := 1, index := 0 } rfl rfl rfl (by decide)
      (by decide)).1 rfl rfl,
   (C26_product_keep_dims_checks sample_op_tbl (product_graph none none) 2
      { op := Op.ReduceProd_v1 true
        inputs := [{ node := 0, index := 0 }, { node := 1, index := 0 }]
        output_pshape := none }
      true { node := 0, index := 0 } { node := 1, index := 0 } rfl rfl rfl (by decide)
      (by decide)).2.1 rfl rfl rfl,
   (C26_product_keep_dims_checks sample_op_tbl (product_of_parameter_axes_graph false) 2
      { op := Op.ReduceProd_v1 false
        inputs := [{ node := 0, index := 0 }, { node := 1, index := 0 }]
        output_pshape := none }
      false { node := 0, index := 0 } { node := 1, index := 0 } rfl rfl rfl (by decide)
      (by decide)).2.2 rfl⟩

theorem partial_keep_dims_insert (S : Shape) (ones rest : List Nat) (a : Nat)
    (ha : a < S.length) (hrest : ∀ q ∈ rest, a < q) :
    vector_insert (partial_keep_dims S ones (a :: rest)) a 1 =
      partial_keep_dims S (ones ++ [a]) rest := by
  obtain ⟨k, hk⟩ : ∃ k, S.length = a + (k + 1) := ⟨S.length - a - 1, by omega⟩
  have hrange : List.range S.length =
      List.range a ++ a :: (List.range k).map (fun j => a + (j + 1)) := by
    rw [hk, List.range_add, List.range_succ_eq_map]
    simp [Function.comp]
  have hlow : ∀ i ∈ List.range a, i ≠ a ∧ i ∉ rest := by
    intro i hi
    have hi' := List.mem_range.1 hi
    exact ⟨by omega, fun hmem => by have := hrest i hmem; omega⟩
  have hf1 : (List.range a).filter (fun i => !(a :: rest).contains i) = List.range a := by
    rw [List.filter_eq_self]
    intro i hi
    have := hlow i hi
    simp [this.1, this.2]
  have hf2 : (List.range a).filter (fun i => !rest.contains i) = List.range a := by
    rw [List.filter_eq_self]
    intro i hi
    have := hlow i hi
    simp [this.2]
  have hm1 : (List.range a).map (fun i => if i ∈ ones ++ [a] then 1 else S.getD i 0) =
      (List.range a).map (fun i => if i ∈ ones then 1 else S.getD i 0) := by
    apply List.map_congr_left
    intro i hi
    have := hlow i hi
    simp [this.1]
  have hf3 : ((List.range k).map (fun j => a + (j + 1))).filter
        (fun i => !(a :: rest).contains i) =
      ((List.range k).map (fun j => a + (j + 1))).filter (fun i => !rest.contains i) := by
    apply List.filter_congr
    intro i hi
    obtain ⟨j, -, hj⟩ := List.mem_map.1 hi
    have hne : i ≠ a := by omega
    simp [hne]
  have hm3 : (((List.range k).map (fun j => a + (j + 1))).filter
        (fun i => !rest.contains i)).map (fun i => if i ∈ ones ++ [a] then 1 else S.getD i 0) =
      (((List.range k).map (fun j => a + (j + 1))).filter
        (fun i => !rest.contains i)).map (fun i => if i ∈ ones then 1 else S.getD i 0) := by
    apply List.map_congr_left
    intro i hi
    obtain ⟨j, -, hj⟩ := List.mem_map.1 (List.mem_filter.1 hi).1
    have hne : i ≠ a := by omega
    simp [hne]
  have harest : a ∉ rest := fun hmem => by have := hrest a hmem; omega
  have hlen : ((List.range a).map (fun i => if i ∈ ones then 1 else S.getD i 0)).length = a := by
    simp
  unfold partial_keep_dims vector_insert
  rw [hrange]
  simp only [List.filter_append, List.map_append, hf1, hf2, hm1]
  rw [List.filter_cons, List.filter_cons, hf3]
  have hkeep : (!rest.contains a) = true := by simp [harest]
  have hdrop : ¬ ((!(a :: rest).contains a) = true) := by simp
  rw [if_pos hkeep, if_neg hdrop, List.map_cons, hm3]
  rw [List.take_left' hlen, List.drop_left' hlen]
  simp

theorem partial_keep_dims_foldl (S : Shape) (rest : List Nat) :
    ∀ ones, rest.Pairwise (fun x y => x < y) → (∀ q ∈ rest, q < S.length) →
      rest.foldl (fun shape axis => vector_insert shape axis 1)
          (partial_keep_dims S ones rest) =
        partial_keep_dims S (ones ++ rest) [] := by
  induction rest with
  | nil =>
    intro ones _ _
    simp
  | cons a rest ih =>
    intro ones hsorted hbound
    rw [List.pairwise_cons] at hsorted
    rw [List.foldl_cons, partial_keep_dims_insert S ones rest a
      (hbound a (List.mem_cons_self _ _)) hsorted.1,
      ih (ones ++ [a]) hsorted.2 (fun q hq => hbound q (List.mem_cons_of_mem _ hq))]
    simp

theorem axis_set_insert_spec (a : Nat) (l : List Nat) (hl : l.Pairwise (fun x y => x < y)) :
    (axis_set_insert a l).Pairwise (fun x y => x < y) ∧
    ∀ x, x ∈ axis_set_insert a l ↔ x = a ∨ x ∈ l := by
  induction l with
  | nil => simp [axis_set_insert]
  | cons b bs ih =>
    rw [List.pairwise_cons] at hl
    obtain ⟨ihs, ihm⟩ := ih hl.2
    simp only [axis_set_insert]
    by_cases h1 : a < b
    · simp only [h1, if_true]
      refine ⟨?_, fun x => by simp⟩
      rw [List.pairwise_cons, List.pairwise_cons]
      refine ⟨?_, hl.1, hl.2⟩
      intro x hx
      rcases List.mem_cons.1 hx with hx | hx
      · omega
      · have := hl.1 x hx
        omega
    · by_cases h2 : a = b
      · subst h2
        simp only [h1, if_false, if_true]
        refine ⟨List.pairwise_cons.2 hl, fun x => by simp⟩
      · simp only [h1, if_false, h2]
        refine ⟨?_, ?_⟩
        · rw [List.pairwise_cons]
          refine ⟨?_, ihs⟩
          intro x hx
          rcases (ihm x).1 hx with hx | hx
          · omega
          · exact hl.1 x hx
        · intro x
          simp only [List.mem_cons, ihm]
          tauto

theorem axis_set_foldl_spec (axes : List Nat) :
    ∀ acc : List Nat, acc.Pairwise (fun x y => x < y) →
      (axes.foldl (fun s a => axis_set_insert a s) acc).Pairwise (fun x y => x < y) ∧
      ∀ x, x ∈ axes.foldl (fun s a => axis_set_insert a s) acc ↔ x ∈ acc ∨ x ∈ axes := by
  induction axes with
  | nil =>
    intro acc hacc
    simp [hacc]
  | cons a axes ih =>
    intro acc hacc
    obtain ⟨hs, hm⟩ := axis_set_insert_spec a acc hacc
    obtain ⟨hs', hm'⟩ := ih (axis_set_insert a acc) hs
    refine ⟨hs', ?_⟩
    intro x
    rw [List.foldl_cons, hm', hm, List.mem_cons]
    tauto

theorem axis_set_spec (axes : List Nat) :
    (axis_set axes).Pairwise (fun x y => x < y) ∧ ∀ x, x ∈ axis_set axes ↔ x ∈ axes := by
  obtain ⟨hs, hm⟩ := axis_set_foldl_spec axes [] List.Pairwise.nil
  exact ⟨hs, fun x => by rw [axis_set, hm]; simp⟩

theorem to_shape_infer_reduction (S : Shape) (axes : List Nat) :
    to_shape (infer_reduction (static_pshape S) (some axes)) = partial_keep_dims S [] axes := by
  simp only [to_shape, infer_reduction, static_pshape, partial_keep_dims, List.length_map,
    List.map_map]
  apply List.map_congr_left
  intro i _
  simp only [Function.comp, List.getD_eq_getElem?_getD, List.getElem?_map, List.not_mem_nil,
    if_false]
  cases S[i]? <;> rfl

theorem is_static_infer_reduction (S : Shape) (axes : List Nat) :
    is_static (infer_reduction (static_pshape S) (some axes)) = true := by
  simp only [is_static, infer_reduction, static_pshape, List.all_eq_true, List.mem_map,
    List.mem_filter, List.mem_range, List.length_map]
  rintro d ⟨i, ⟨hi, -⟩, rfl⟩
  simp [List.getD_eq_getElem?_getD, List.getElem?_map, List.getElem?_eq_getElem hi]

theorem reshaped_output_shape_eq (S : Shape) (values : List Int)
    (haxes : ∀ v ∈ values, axis_value v < S.length) :
    (axis_set (values.map axis_value)).foldl (fun shape axis => vector_insert shape axis 1)
        (to_shape (infer_reduction (static_pshape S)
          (some (axis_set (values.map axis_value))))) =
      (List.range S.length).map
        (fun i => if i ∈ values.map axis_value then 1 else S.getD i 0) := by
  obtain ⟨hsorted, hmem⟩ := axis_set_spec (values.map axis_value)
  have hbound : ∀ q ∈ axis_set (values.map axis_value), q < S.length := by
    intro q hq
    obtain ⟨v, hv, rfl⟩ := List.mem_map.1 ((hmem q).1 hq)
    exact haxes v hv
  rw [to_shape_infer_reduction, partial_keep_dims_foldl S _ [] hsorted hbound]
  simp only [partial_keep_dims, List.nil_append]
  rw [List.filter_eq_self.2 (by intro i _; rfl)]
  apply List.map_congr_left
  intro i _
  simp only [hmem]

theorem constant_input_of_constant (g : Graph) (n c : Node) (input0 input1 : Output)
    (values : List Int) (hinputs : n.inputs = [input0, input1])
    (hconst : g.node input1.node = some c) (hvalues : c.op = Op.Constant values) :
    constant_input g n 1 = some values := by
  cases c with
  | mk op inputs output_pshape =>
    simp only at hvalues
    subst hvalues
    simp [constant_input, hinputs, List.get?, hconst]

/-- C25: on a version-1 reduce-product with `keep_dims` set, constant axes
that are all smaller than the rank of the input, and an input of static shape
`S`, `run_on_node` puts in the place of the node a version-0 `Product` over
the sources of inputs 0 and 1, followed by a `Reshape` of it in the default
order, whose output shape has the rank of `S`, the extent 1 at every reduction
axis and the extent of `S` at every other axis. -/
theorem C25_product_keep_dims_reshape (op_tbl : List String) (g : Graph) (id : Nat)
    (n c : Node) (input0 input1 : Output) (S : Shape) (values : List Int)
    (hnode : g.node id = some n) (hop : n.op = Op.ReduceProd_v1 true)
    (hinputs : n.inputs = [input0, input1]) (htbl : "Product" ∈ op_tbl)
    (hacyclic : ∀ o ∈ n.inputs, o.node ≠ id)
    (hshape : source_pshape g input0 = static_pshape S)
    (hconst : g.node input1.node = some c) (hvalues : c.op = Op.Constant values)
    (haxes : ∀ v ∈ values, axis_value v < S.length) :
    ∃ g', run_on_node op_tbl g id = Except.ok (true, g') ∧
      g'.node id = none ∧
      added_nodes g g' =
        [some { op := Op.Product_v0
                inputs := [input0, input1]
                output_pshape := infer_reduction (static_pshape S)
                  (some (axis_set (values.map axis_value))) },
         some { op := Op.Reshape
                  (get_default_order (to_shape (infer_reduction (static_pshape S)
                    (some (axis_set (values.map axis_value))))))
                  ((List.range S.length).map
                    (fun i => if i ∈ values.map axis_value then 1 else S.getD i 0))
                inputs := [{ node := g.nodes.length, index := 0 }]
                output_pshape := static_pshape ((List.range S.length).map
                  (fun i => if i ∈ values.map axis_value then 1 else S.getD i 0)) }] ∧
      ∀ j m, j ≠ id → g.node j = some m →
        g'.node j = some (redirect id (g.nodes.length + 1) m) := by
  have hlt := node_lt_length g id n hnode
  have h0 : input0.node ≠ id := hacyclic input0 (by simp [hinputs])
  have h1 : input1.node ≠ id := hacyclic input1 (by simp [hinputs])
  have hdesc : n.op.description = "Product" := by rw [hop]; rfl
  have hty := get_typeid_registered op_tbl n (by rw [hdesc]; exact htbl)
  rw [hdesc] at hty
  have hci := constant_input_of_constant g n c input0 input1 values hinputs hconst hvalues
  have hrc : reduction_axes_constant g n = true := by simp [reduction_axes_constant, hci]
  have hra : get_reduction_axes g n = axis_set (values.map axis_value) := by
    simp [get_reduction_axes, hci]
  have hci' := constant_input_of_constant g
    { op := Op.Product_v0, inputs := [input0, input1], output_pshape := none } c input0 input1
    values rfl hconst hvalues
  have hP : infer_output_pshape g Op.Product_v0 [input0, input1] =
      infer_reduction (static_pshape S) (some (axis_set (values.map axis_value))) := by
    simp [infer_output_pshape, reduction_axes_constant, get_reduction_axes, hci', List.get?,
      hshape]
  have hfold := reshaped_output_shape_eq S values haxes
  obtain ⟨g', hrep, hnone, hadded, hothers⟩ := replace_node_spliced g
    [some { op := Op.Product_v0, inputs := [input0, input1]
            output_pshape := infer_reduction (static_pshape S)
              (some (axis_set (values.map axis_value))) },
     some { op := Op.Reshape
              (get_default_order (to_shape (infer_reduction (static_pshape S)
                (some (axis_set (values.map axis_value))))))
              ((List.range S.length).map
                (fun i => if i ∈ values.map axis_value then 1 else S.getD i 0))
            inputs := [{ node := g.nodes.length, index := 0 }]
            output_pshape := static_pshape ((List.range S.length).map
              (fun i => if i ∈ values.map axis_value then 1 else S.getD i 0)) }]
    id (g.nodes.length + 1) n hnode (by rw [hop]; exact fun h => Op.noConfusion h)
  refine ⟨g', ?_, hnone, ?_, hothers⟩
  · simp only [run_on_node, hnode, hop, Op.get_version]
    simp only [hty, bind, Except.bind, input_source, hinputs, List.get?, hrc,
      source_pshape_make_node, hP, is_static_infer_reduction, hra, hfold]
    have hR : ∀ (g1 : Graph) (order : List Nat) (shape : Shape) (inputs : List Output),
        infer_output_pshape g1 (Op.Reshape order shape) inputs = static_pshape shape :=
      fun _ _ _ _ => rfl
    simp only [make_node, hR, hP, List.append_assoc, List.singleton_append,
      List.length_append, List.length_singleton, hrep]
    simp [OP_TYPEID.Pad, OP_TYPEID.Product, pure, Except.pure]
  · rw [hadded]
    have hne : g.nodes.length ≠ id := by omega
    simp [redirect, h0, h1, hne]

/-- C25 at the input shape `{2,3}` and the axis 1: the reshape gives `{2,1}`. -/
theorem C25_product_keep_dims_reshape_witness :
    ∃ g', run_on_node sample_op_tbl
          (product_graph (static_pshape [2, 3]) (static_pshape [2, 1])) 2 =
        Except.ok (true, g') ∧
      g'.node 2 = none ∧
      added_nodes (product_graph (static_pshape [2, 3]) (static_pshape [2, 1])) g' =
        [some { op := Op.Product_v0
                inputs := [{ node := 0, index := 0 }, { node := 1, index := 0 }]
                output_pshape := static_pshape [2] },
         some { op := Op.Reshape [0] [2, 1]
                inputs := [{ node := 4, index := 0 }]
                output_pshape := static_pshape [2, 1] }] ∧
      ∀ j m, j ≠ 2 →
        (product_graph (static_pshape [2, 3]) (static_pshape [2, 1])).node j = some m →
        g'.node j = some (redirect 2 5 m) :=
  C25_product_keep_dims_reshape sample_op_tbl
    (product_graph (static_pshape [2, 3]) (static_pshape [2, 1])) 2
    { op := Op.ReduceProd_v1 true
      inputs := [{ node := 0, index := 0 }, { node := 1, index := 0 }]
      output_pshape := static_pshape [2, 1] }
    { op := Op.Constant [1], inputs := [], output_pshape := static_pshape [1] }
    { node := 0, index := 0 } { node := 1, index := 0 } [2, 3] [1]
    rfl rfl rfl (by decide) (by decide) rfl rfl rfl (by decide)

/-- C21: on the input `[[1,2,3],[4,5,6]]`, the version-1 reduce-sum of
scenario C (`keep_dims` set, axis 1) gives the tensor `[[6],[15]]` of shape
`{2,1}` to the result node; after `run_on_node` on it, the node put in its
place, a reduce-sum over the same inputs with `keep_dims` false, gives the
result node the tensor `[6,15]` of shape `{2}`. The reduce-product of the same
inputs gives `[[6],[120]]` of shape `{2,1}` before and after the pass. -/
theorem C21_sum_keep_dims_changes_output :
    evaluate_result (scenario_C_graph (static_pshape [2, 3]) (static_pshape [2, 1]))
        sample_parameters 4 3 = some { shape := [2, 1], data := [6, 15] } ∧
    (run_on_node sample_op_tbl
        (scenario_C_graph (static_pshape [2, 3]) (static_pshape [2, 1])) 2).toOption.bind
      (fun r => evaluate_result r.2 sample_parameters 4 3) =
        some { shape := [2], data := [6, 15] } ∧
    evaluate_result (product_graph (static_pshape [2, 3]) (static_pshape [2, 1]))
        sample_parameters 4 3 = some { shape := [2, 1], data := [6, 120] } ∧
    (run_on_node sample_op_tbl
        (product_graph (static_pshape [2, 3]) (static_pshape [2, 1])) 2).toOption.bind
      (fun r => evaluate_result r.2 sample_parameters 4 3) =
        some { shape := [2, 1], data := [6, 120] } := by
  refine ⟨?_, ?_, ?_, ?_⟩ <;> rfl

/-! ### The pass as a step on the graph -/

theorem to_except_try_at {α β : Type} (g : Graph) (r : Except PassError α)
    (k : α → PassOutcome β) :
    (try_at g r k).to_except = r >>= fun a => (k a).to_except := by
  cases r <;> rfl

/-- The two readings of `run_on_node` agree: what the caller gets from the
step on the graph is what `run_on_node` returns or throws. -/
theorem run_on_node_eq_to_except (op_tbl : List String) (g : Graph) (id : Nat) :
    run_on_node op_tbl g id = (Opset1Downgrade.run_on_node op_tbl id g).to_except := by
  unfold run_on_node Opset1Downgrade.run_on_node
  cases hnode : g.node id with
  | none => rfl
  | some n =>
    simp only
    by_cases h0 : n.op.get_version = 0
    · simp only [h0, if_true]
      rfl
    · by_cases h1 : n.op.get_version = 1
      · simp only [h1]
        rw [if_neg (by decide), if_neg (by decide), if_neg (by decide), if_neg (by decide)]
        cases hty : get_typeid op_tbl n with
        | error e => rfl
        | ok type_id =>
          simp only [try_at, bind, Except.bind]
          by_cases hPad : type_id = OP_TYPEID.Pad
          · simp only [hPad, if_true]
            cases n.op <;> try rfl
            cases input_source n 0 <;> try rfl
            cases input_source n 3 <;> try rfl
            simp only
            generalize replace_node _ id _ = r
            cases r <;> rfl
          · simp only [hPad, if_false]
            by_cases hProduct : type_id = OP_TYPEID.Product
            · simp only [hProduct, if_true]
              cases input_source n 0 <;> try rfl
              cases input_source n 1 <;> try rfl
              simp only
              cases n.op <;> try rfl
              rename_i keep_dims
              cases keep_dims
              · simp only [Bool.false_eq_true, if_false]
                generalize replace_node _ id _ = r
                cases r <;> rfl
              · simp only [if_true]
                by_cases hc : (!reduction_axes_constant g n) = true
                · simp only [hc, if_true]
                  rfl
                · simp only [hc, if_false]
                  generalize (!is_static (source_pshape _ _)) = b
                  cases b
                  · simp only [Bool.false_eq_true, if_false]
                    generalize replace_node _ id _ = r
                    cases r <;> rfl
                  · simp only [if_true]
                    rfl
            · simp only [hProduct, if_false]
              by_cases hSum : type_id = OP_TYPEID.Sum
              · simp only [hSum, if_true]
                cases input_source n 0 <;> try rfl
                cases input_source n 1 <;> try rfl
                simp only
                generalize replace_node _ id _ = r
                cases r <;> rfl
              · simp only [hSum, if_false]
                rfl
      · simp only [h0, h1, if_false, ne_eq, not_false_eq_true, if_true]
        rfl

end ngraph
